import Mathlib

/-!
The line breaking pass of `pango/break_simplified.go`.

A shallow embedding of `pangoDefaultBreak2` and of the rule functions it calls
(UAX#14 line breaking gated by UAX#29 grapheme boundaries), followed by the
properties of the pass proved on that embedding.

Conventions of the embedding:

* a `rune` is an `Int`; only comparisons are performed on runes;
* a `*unicode.RangeTable` is compared by pointer identity in the source, so a
  pointer to a line-break table is an `Option BreakClass` and a pointer to a
  general-category table an `Option GeneralCategory` (`none` is `nil`);
* the Unicode property database (package `unicodedata`) and the constant
  `paragraphSeparator` are declared outside `break_simplified.go`: they are the
  fields of the parameter `UCD`;
* a Go panic (index out of range) is the result `none`;
* a `*breakOpportunity` argument becomes an argument and a result.
-/

namespace Pango

/-- A Go `rune`. -/
abbrev Rune := Int

/-- The general categories of package `unicode` (the tables `unicode.Cc`, ...). -/
inductive GeneralCategory where
  | Cc | Cf | Co | Cs
  | Ll | Lm | Lo | Lt | Lu
  | Mc | Me | Mn
  | Nd | Nl | No
  | Pc | Pd | Pe | Pf | Pi | Po | Ps
  | Sc | Sk | Sm | So
  | Zl | Zp | Zs
  deriving DecidableEq, Repr

/-- The line-break classes of UAX#14 (the tables `ucd.BreakAI`, ...). -/
inductive BreakClass where
  | AI | AL | B2 | BA | BB | BK | CB | CJ | CL | CM | CP | CR | EB | EM | EX
  | GL | H2 | H3 | HL | HY | ID | IN | IS | JL | JT | JV | LF | NL | NS | NU
  | OP | PO | PR | QU | RI | SA | SG | SP | SY | WJ | XX | ZW | ZWJ
  deriving DecidableEq, Repr

/-- The grapheme-break types used by the pass. -/
inductive graphemeBreakType where
  | gbOther | gbControlCRLF | gbExtend | gbPrepend | gbSpacingMark | gbZWJ
  | gbInHangulSyllable | gbRiOdd | gbRiEven
  deriving DecidableEq, Repr

/-- The auxiliary numeric / regional-indicator run state. -/
inductive lineBreakType where
  | lbOther | lbNumeric | lbNumericClose | lbRiOdd | lbRiEven
  deriving DecidableEq, Repr

/-- The decision of the rule cascade. -/
inductive breakOpportunity where
  | breakAlreadyHandled | breakProhibited | breakIfSpaces | breakAllowed
  deriving DecidableEq, Repr

open graphemeBreakType lineBreakType breakOpportunity

/-- A `ucd.JamoType`: a small integer indexing `HangulJamoProps`. -/
abbrev JamoType := Int

/-- One row of `ucd.HangulJamoProps`. -/
structure charJamoProps where
  Start : JamoType
  End : JamoType
  deriving DecidableEq, Repr

/-- The Unicode property database and the constants the pass reads. They are
declared outside `break_simplified.go` and are therefore parameters. The lookup
of a line-break class always answers with one of the class tables. -/
structure UCD where
  LookupType : Rune → Option GeneralCategory
  LookupBreakClass : Rune → BreakClass
  Extended_Pictographic : Rune → Bool
  Jamo : Option BreakClass → JamoType
  NO_JAMO : JamoType
  HangulJamoProps : List charJamoProps
  paragraphSeparator : Rune

/-- An attribute record. The test compares records under the mask
`LineBreak | MandatoryBreak`: a record is a set of flags, of which the pass
touches these two; `others` stands for the remaining flags. -/
structure CharAttr where
  lineBreak : Bool
  mandatoryBreak : Bool
  others : Nat
  deriving DecidableEq, Repr

instance : Inhabited CharAttr := ⟨⟨false, false, 0⟩⟩

/-- Set or clear the `LineBreak` flag. -/
def CharAttr.setLineBreak (c : CharAttr) (v : Bool) : CharAttr :=
  { c with lineBreak := v }

/-- Set or clear the `MandatoryBreak` flag. -/
def CharAttr.setMandatoryBreak (c : CharAttr) (v : Bool) : CharAttr :=
  { c with mandatoryBreak := v }

/-- The grapheme-break type of the rune `r` (source lines 10-81). -/
def graphemeType (r : Rune) (generalCategorie : Option GeneralCategory)
    (previousType : graphemeBreakType) (makesHangulSyllable : Bool) : graphemeBreakType :=
  -- body of `case unicode.Lo`, also reached by fallthrough from `case nil`
  let caseLo : graphemeBreakType :=
    if makesHangulSyllable then gbInHangulSyllable else gbOther
  match generalCategorie with
  | some .Cf =>
    if r = 0x200C then gbExtend
    else if r = 0x200D then gbZWJ
    else if (r ≥ 0x600 ∧ r ≤ 0x605) ∨
        r = 0x6DD ∨
        r = 0x70F ∨
        r = 0x8E2 ∨
        r = 0xD4E ∨
        r = 0x110BD ∨
        (r ≥ 0x111C2 ∧ r ≤ 0x111C3) then gbPrepend
    else if r ≥ 0xE0020 ∧ r ≤ 0xE00FF then gbExtend
    else gbControlCRLF -- fallthrough
  | some .Cc | some .Zl | some .Zp | some .Cs => gbControlCRLF
  | none =>
    if (r ≥ 0xFFF0 ∧ r ≤ 0xFFF8) ∨ (r ≥ 0xE0000 ∧ r ≤ 0xE0FFF) then gbControlCRLF
    else caseLo -- fallthrough
  | some .Lo => caseLo
  | some .Lm =>
    if r ≥ 0xFF9E ∧ r ≤ 0xFF9F then gbExtend else gbOther
  | some .Mc =>
    if r ≥ 0x0900 then
      if r = 0x09BE ∨ r = 0x09D7 ∨
          r = 0x0B3E ∨ r = 0x0B57 ∨ r = 0x0BBE ∨ r = 0x0BD7 ∨
          r = 0x0CC2 ∨ r = 0x0CD5 ∨ r = 0x0CD6 ∨
          r = 0x0D3E ∨ r = 0x0D57 ∨ r = 0x0DCF ∨ r = 0x0DDF ∨
          r = 0x1D165 ∨ (r ≥ 0x1D16E ∧ r ≤ 0x1D172) then gbExtend
      else gbSpacingMark
    else gbSpacingMark
  | some .Me | some .Mn => gbExtend
  | some .So =>
    if r ≥ 0x1F1E6 ∧ r ≤ 0x1F1FF then
      if previousType = gbRiOdd then gbRiEven else gbRiOdd
    else gbOther
  | some .Sk =>
    if r ≥ 0x1F3FB ∧ r ≤ 0x1F3FF then gbExtend else gbOther
  | _ => gbOther

/-- The run state of the current rune (source lines 84-104). -/
def newlineBreakType (breakType : Option BreakClass) (prev : lineBreakType) : lineBreakType :=
  match breakType with
  | some .NU => lbNumeric
  | some .SY | some .IS =>
    if prev ≠ lbNumeric then lbOther else lbOther
  | some .CL | some .CP =>
    if prev = lbNumeric then lbNumericClose else lbOther
  | some .RI =>
    if prev = lbRiOdd then lbRiEven else lbRiOdd
  | _ => lbOther

/-- Rule LB30 (source lines 106-119). -/
def ruleLB30 (breakOp : breakOpportunity) (prevBreakType breakType : Option BreakClass) :
    breakOpportunity :=
  let breakOp :=
    if (prevBreakType = some .AL ∨
        prevBreakType = some .HL ∨
        prevBreakType = some .NU) ∧
        breakType = some .OP then breakProhibited else breakOp
  let breakOp :=
    if prevBreakType = some .CP ∧
        (breakType = some .AL ∨
          breakType = some .HL ∨
          breakType = some .NU) then breakProhibited else breakOp
  breakOp

/-- Rules LB30a and LB30b (source lines 121-137). -/
def ruleLB30ab (u : UCD) (breakOp : breakOpportunity) (prevBreakType breakType : Option BreakClass)
    (prev : Rune) (lbType prevLbType : lineBreakType) : breakOpportunity :=
  let breakOp :=
    if prevLbType = lbRiOdd ∧ lbType = lbRiEven then breakProhibited else breakOp
  let breakOp :=
    if prevBreakType = some .EB ∧ breakType = some .EM then breakProhibited else breakOp
  let breakOp :=
    if u.Extended_Pictographic prev = true ∧ u.LookupType prev = none ∧
        breakType = some .EM then breakProhibited else breakOp
  breakOp

/-- Rules LB29 to LB26 (source lines 139-182). -/
def ruleLB29To26 (breakOp : breakOpportunity) (prevBreakType breakType : Option BreakClass) :
    breakOpportunity :=
  let breakOp :=
    if prevBreakType = some .IS ∧ (breakType = some .AL ∨
        breakType = some .HL) then breakProhibited else breakOp
  let breakOp :=
    if (prevBreakType = some .AL ∨ prevBreakType = some .HL) ∧
        (breakType = some .AL ∨ breakType = some .HL) then breakProhibited else breakOp
  let breakOp :=
    if (prevBreakType = some .JL ∨
        prevBreakType = some .JV ∨
        prevBreakType = some .JT ∨
        prevBreakType = some .H2 ∨
        prevBreakType = some .H3) ∧ breakType = some .PO then breakProhibited else breakOp
  let breakOp :=
    if prevBreakType = some .PR ∧
        (breakType = some .JL ∨
          breakType = some .JV ∨
          breakType = some .JT ∨
          breakType = some .H2 ∨
          breakType = some .H3) then breakProhibited else breakOp
  let breakOp :=
    if prevBreakType = some .JL ∧
        (breakType = some .JL ∨
          breakType = some .JV ∨
          breakType = some .H2 ∨
          breakType = some .H3) then breakProhibited else breakOp
  let breakOp :=
    if (prevBreakType = some .JV ∨ prevBreakType = some .H2) ∧
        (breakType = some .JV ∨ breakType = some .JT) then breakProhibited else breakOp
  let breakOp :=
    if (prevBreakType = some .JT ∨ prevBreakType = some .H3) ∧
        breakType = some .JT then breakProhibited else breakOp
  breakOp

/-- Rule LB25 with Example 7 of Customization (source lines 184-217). -/
def ruleLB25 (breakOp : breakOpportunity)
    (prevBreakType breakType nextBreakType : Option BreakClass)
    (prevLbType : lineBreakType) : breakOpportunity :=
  let breakOp :=
    if (prevBreakType = some .PR ∨ prevBreakType = some .PO) ∧
        breakType = some .NU then breakProhibited else breakOp
  let breakOp :=
    if (prevBreakType = some .PR ∨ prevBreakType = some .PO) ∧
        (breakType = some .OP ∨ breakType = some .HY) ∧
        nextBreakType = some .NU then breakProhibited else breakOp
  let breakOp :=
    if (prevBreakType = some .OP ∨ prevBreakType = some .HY) ∧
        breakType = some .NU then breakProhibited else breakOp
  let breakOp :=
    if prevBreakType = some .NU ∧
        (breakType = some .NU ∨
          breakType = some .SY ∨
          breakType = some .IS) then breakProhibited else breakOp
  let breakOp :=
    if prevLbType = lbNumeric ∧
        (breakType = some .NU ∨
          breakType = some .SY ∨
          breakType = some .IS ∨
          breakType = some .CL ∨
          breakType = some .CP) then breakProhibited else breakOp
  let breakOp :=
    if (prevLbType = lbNumeric ∨ prevLbType = lbNumericClose) ∧
        (breakType = some .PO ∨ breakType = some .PR) then breakProhibited else breakOp
  breakOp

/-- Rules LB24 to LB22 (source lines 219-278). -/
def ruleLB24To22 (breakOp : breakOpportunity) (prevBreakType breakType : Option BreakClass) :
    breakOpportunity :=
  let breakOp :=
    if (prevBreakType = some .PR ∨
        prevBreakType = some .PO) ∧
        (breakType = some .AL ∨
          breakType = some .HL) then breakProhibited else breakOp
  let breakOp :=
    if (prevBreakType = some .AL ∨
        prevBreakType = some .HL) ∧
        (breakType = some .PR ∨ breakType = some .PO) then breakProhibited else breakOp
  let breakOp :=
    if (prevBreakType = some .AL ∨
        prevBreakType = some .HL) ∧
        breakType = some .NU then breakProhibited else breakOp
  let breakOp :=
    if prevBreakType = some .NU ∧
        (breakType = some .AL ∨
          breakType = some .HL) then breakProhibited else breakOp
  let breakOp :=
    if prevBreakType = some .PR ∧
        (breakType = some .ID ∨
          breakType = some .EB ∨
          breakType = some .EM) then breakProhibited else breakOp
  let breakOp :=
    if (prevBreakType = some .ID ∨
        prevBreakType = some .EB ∨
        prevBreakType = some .EM) ∧
        breakType = some .PO then breakProhibited else breakOp
  let breakOp :=
    if breakType = some .IN then
      let breakOp :=
        if prevBreakType = some .AL ∨
            prevBreakType = some .HL then breakProhibited else breakOp
      let breakOp :=
        if prevBreakType = some .EX then breakProhibited else breakOp
      let breakOp :=
        if prevBreakType = some .ID ∨
            prevBreakType = some .EB ∨
            prevBreakType = some .EM then breakProhibited else breakOp
      let breakOp :=
        if prevBreakType = some .IN then breakProhibited else breakOp
      let breakOp :=
        if prevBreakType = some .NU then breakProhibited else breakOp
      breakOp
    else breakOp
  breakOp

/-- Rules LB21 to LB9 (source lines 280-364). -/
def ruleLB21To9 (breakOp : breakOpportunity)
    (prevPrevBreakType prevBreakType breakType rowBreakType : Option BreakClass) :
    breakOpportunity :=
  let breakOp :=
    if breakType = some .BA ∨
        breakType = some .HY ∨
        breakType = some .NS ∨
        prevBreakType = some .BB then breakProhibited else breakOp -- Rule LB21
  let breakOp :=
    if prevPrevBreakType = some .HL ∧
        (prevBreakType = some .HY ∨
          prevBreakType = some .BA) then breakProhibited else breakOp -- Rule LB21a
  let breakOp :=
    if prevBreakType = some .SY ∧
        breakType = some .HL then breakProhibited else breakOp -- Rule LB21b
  let breakOp :=
    if prevBreakType = some .CB ∨
        breakType = some .CB then breakAllowed else breakOp -- Rule LB20
  let breakOp :=
    if prevBreakType = some .QU ∨
        breakType = some .QU then breakProhibited else breakOp -- Rule LB19
  let breakOp :=
    if prevBreakType = some .SP then breakAllowed else breakOp -- Rule LB18
  let breakOp :=
    if rowBreakType = some .B2 ∧
        breakType = some .B2 then breakProhibited else breakOp -- Rule LB17
  let breakOp :=
    if (rowBreakType = some .CL ∨
        rowBreakType = some .CP) ∧
        breakType = some .NS then breakProhibited else breakOp -- Rule LB16
  let breakOp :=
    if rowBreakType = some .QU ∧
        breakType = some .OP then breakProhibited else breakOp -- Rule LB15
  let breakOp :=
    if rowBreakType = some .OP then breakProhibited else breakOp -- Rule LB14
  let breakOp :=
    if breakType = some .EX then breakProhibited else breakOp -- Rule LB13
  let breakOp :=
    if prevBreakType ≠ some .NU ∧
        (breakType = some .CL ∨
          breakType = some .CP ∨
          breakType = some .IS ∨
          breakType = some .SY) then breakProhibited else breakOp
  let breakOp :=
    if prevBreakType = some .GL then breakProhibited else breakOp -- Rule LB12
  let breakOp :=
    if breakType = some .GL ∧
        (prevBreakType ≠ some .SP ∧
          prevBreakType ≠ some .BA ∧
          prevBreakType ≠ some .HY) then breakProhibited else breakOp -- Rule LB12a
  let breakOp :=
    if prevBreakType = some .WJ ∨
        breakType = some .WJ then breakProhibited else breakOp -- Rule LB11
  let breakOp :=
    if breakType = some .CM ∨
        breakType = some .ZWJ then
      if ¬ (prevBreakType = some .BK ∨
          prevBreakType = some .CR ∨
          prevBreakType = some .LF ∨
          prevBreakType = some .NL ∨
          prevBreakType = some .SP ∨
          prevBreakType = some .ZW) then breakProhibited else breakOp
    else breakOp -- Rule LB9
  breakOp

/-- Rules LB8 and LB8a (source lines 366-373). -/
def ruleLB8 (breakOp : breakOpportunity) (prev : Rune) (rowBreakType : Option BreakClass) :
    breakOpportunity :=
  let breakOp :=
    if rowBreakType = some .ZW then breakAllowed else breakOp -- Rule LB8
  let breakOp :=
    if prev = 0x200D then breakProhibited else breakOp -- Rule LB8a
  breakOp

/-- Rules LB7 and LB6 (source lines 375-387). -/
def ruleLB7To6 (breakOp : breakOpportunity) (breakType : Option BreakClass) : breakOpportunity :=
  let breakOp :=
    if breakType = some .SP ∨
        breakType = some .ZW then breakProhibited else breakOp -- Rule LB7
  let breakOp :=
    if breakType = some .BK ∨
        breakType = some .CR ∨
        breakType = some .LF ∨
        breakType = some .NL then breakProhibited else breakOp -- Rule LB6
  breakOp

/-- Rules LB5 and LB4 (source lines 389-397): the updated decision and the
returned `mandatoryBreak`. The line feed rune is 10. -/
def ruleLB5To4 (breakOp : breakOpportunity) (r : Rune) (prevBreakType : Option BreakClass) :
    breakOpportunity × Bool :=
  if prevBreakType = some .BK ∨ (prevBreakType = some .CR ∧ r ≠ 10) ∨
      prevBreakType = some .LF ∨ prevBreakType = some .NL then
    (breakAllowed, true)
  else (breakOp, false)

/-- Rule LB1: resolution of the ambiguous classes (source lines 399-413). -/
def ruleLB1 (breakType : Option BreakClass) (generalCategory : Option GeneralCategory) :
    Option BreakClass :=
  match breakType with
  | some .AI | some .SG | some .XX => some .AL
  | some .SA =>
    if generalCategory = some .Mn ∨ generalCategory = some .Mc then some .CM
    else some .AL
  | some .CJ => some .NS
  | _ => breakType

/-- Rule GB11: the new value of `metExtendedPictographic` (source lines 415-426). -/
def ruleGB11 (u : UCD) (prevGbType gbType : graphemeBreakType) (prev : Rune)
    (isExtendedPictographic : Bool) : Bool :=
  if gbType = gbExtend then true
  else if u.Extended_Pictographic prev = true ∧ gbType = gbZWJ then true
  else if prevGbType = gbExtend ∧ gbType = gbZWJ then true
  else if prevGbType = gbZWJ ∧ isExtendedPictographic = true then true
  else false

/-- The Grapheme Cluster Boundary Rules (source lines 429-452). The line
feed and carriage return runes are 10 and 13. -/
def isGraphemeBoundary (prev r : Rune) (prevGbType gbType : graphemeBreakType)
    (isExtendedPictographic metExtendedPictographic : Bool) : Bool :=
  if r = 10 ∧ prev = 13 then false -- Rule GB3
  else if prevGbType = gbControlCRLF ∨ gbType = gbControlCRLF then true -- Rules GB4 and GB5
  else if gbType = gbInHangulSyllable then false -- Rules GB6, GB7, GB8
  else if gbType = gbExtend then false -- Rule GB9
  else if gbType = gbZWJ then false -- Rule GB9
  else if gbType = gbSpacingMark then false -- Rule GB9a
  else if prevGbType = gbPrepend then false -- Rule GB9b
  else if isExtendedPictographic = true then -- Rule GB11
    if prevGbType = gbZWJ ∧ metExtendedPictographic = true then false else true
  else if prevGbType = gbRiOdd ∧ gbType = gbRiEven then false -- Rule GB12 and GB13
  else true -- Rule GB999

/-- The access `HangulJamoProps[j]`: out of range (negative or too large) is a
panic. -/
def UCD.jamoProps (u : UCD) (j : JamoType) : Option charJamoProps :=
  if 0 ≤ j then u.HangulJamoProps[j.toNat]? else none

/-- Whether the rune forms a Hangul syllable with the previous one (source
lines 455-462). -/
def isHangul (u : UCD) (prevJamo jamo : JamoType) : Option Bool :=
  if jamo = u.NO_JAMO then some false
  else do
    let prevProps ← u.jamoProps prevJamo
    let prevEnd := prevProps.End
    let thisProps ← u.jamoProps jamo
    let thisStart := thisProps.Start
    some (decide (prevEnd = thisStart) || decide (prevEnd + 1 = thisStart))

/-- The new `prevPrevBreakType`, `prevBreakType` and `prevJamo` (source lines
465-491). -/
def adjustBreakTypes (prevJamo jamo : JamoType)
    (prevPrevBreakType prevBreakType breakType : Option BreakClass) (isStart : Bool) :
    Option BreakClass × Option BreakClass × JamoType :=
  if breakType ≠ some .SP then
    if breakType = some .CM ∨ breakType = some .ZWJ then
      if isStart = true ∨
          prevBreakType = some .BK ∨
          prevBreakType = some .CR ∨
          prevBreakType = some .LF ∨
          prevBreakType = some .NL ∨
          prevBreakType = some .SP ∨
          prevBreakType = some .ZW then
        (prevPrevBreakType, some .AL, jamo) -- Rule LB10
      else (prevPrevBreakType, prevBreakType, jamo)
    else (prevBreakType, breakType, jamo)
  else if prevBreakType ≠ some .SP then
    (prevBreakType, breakType, prevJamo)
  else (prevPrevBreakType, prevBreakType, prevJamo)

/-- The variables of `pangoDefaultBreak2` that live across the turns of its
loop. `nextWc` is assigned in every turn before it is read, so that only
`nextBreakType` is carried. -/
structure State where
  prevWc : Rune
  prevJamo : JamoType
  prevBreakType : Option BreakClass
  prevPrevBreakType : Option BreakClass
  prevGbType : graphemeBreakType
  metExtendedPictographic : Bool
  prevLbType : lineBreakType
  nextBreakType : Option BreakClass
  deriving DecidableEq, Repr

/-- What one turn of the loop computes: its local variables (`breakType` after
rule LB1, `metExtendedPictographic` as passed to `isGraphemeBoundary`; the
variables of the `if earlyCheck` block in `cascade`), the record `attrs[i]` it
leaves, and the carried variables for the next turn. -/
structure Iteration where
  wc : Rune
  generalCategory : Option GeneralCategory
  jamo : JamoType
  isExtendedPictographic : Bool
  makesHangulSyllable : Bool
  gbType : graphemeBreakType
  metExtendedPictographic : Bool
  isGB : Bool
  breakType : Option BreakClass
  rowBreakType : Option BreakClass
  earlyCheck : Bool
  cascade : Option (lineBreakType × breakOpportunity × Bool)
  attr : CharAttr
  state : State
  deriving DecidableEq, Repr

/-- The variable declarations before the loop (source lines 499-517). -/
def initState (u : UCD) (text : List Rune) : Option State := do
  let nextWc ← (if text.length ≠ 0 then text[0]? else some u.paragraphSeparator)
  let nextBreakType := some (u.LookupBreakClass nextWc)
  some {
    prevWc := 0
    prevJamo := u.NO_JAMO
    prevBreakType := none
    prevPrevBreakType := some .XX
    prevGbType := gbOther
    metExtendedPictographic := false
    prevLbType := lbOther
    nextBreakType := nextBreakType }

/-- The body of the loop (source lines 525-632) once its fallible accesses
have been made: `wc` and `nextWc` are the runes read from `text` (or the
constants standing in for them), `makesHangulSyllable` the answer of
`isHangul`, `attr` the record `attrs[i]`, and `isStart` is `i == 0`. -/
def turn (u : UCD) (isStart : Bool) (s : State) (wc nextWc : Rune)
    (makesHangulSyllable : Bool) (attr : CharAttr) : Iteration :=
  let breakType := s.nextBreakType
  let nextBreakType := some (u.LookupBreakClass nextWc)
  -- query general unicode properties for the current rune
  let generalCategory := u.LookupType wc
  let jamo := u.Jamo breakType
  let isExtendedPictographic := u.Extended_Pictographic wc
  -- UAX#29 Grapheme Boundaries
  let gbType := graphemeType wc generalCategory s.prevGbType makesHangulSyllable
  let metExtendedPictographic :=
    if s.metExtendedPictographic = true then
      ruleGB11 u s.prevGbType gbType s.prevWc isExtendedPictographic
    else s.metExtendedPictographic
  let isGB := isGraphemeBoundary s.prevWc wc s.prevGbType gbType isExtendedPictographic
    metExtendedPictographic
  -- line breaking
  let breakType := ruleLB1 breakType generalCategory
  let rowBreakType := s.prevBreakType
  let rowBreakType :=
    if s.prevBreakType = some .SP then s.prevPrevBreakType else rowBreakType
  let rowBreakType :=
    if rowBreakType = some .XX then some .AL else rowBreakType
  let attr := attr.setLineBreak false
  let attr := attr.setMandatoryBreak false
  let earlyCheck : Bool := isGB ||
    decide (breakType = some .EM) ||
    decide (breakType = some .ZWJ) ||
    decide (breakType = some .CM) ||
    decide (breakType = some .JL) ||
    decide (breakType = some .JV) ||
    decide (breakType = some .JT) ||
    decide (breakType = some .H2) ||
    decide (breakType = some .H3) ||
    decide (breakType = some .RI)
  let (attr, prevLbType, cascade) :=
    if earlyCheck = true then
      let lbType := newlineBreakType breakType s.prevLbType
      let attr := attr.setLineBreak true -- Rule LB31
      let breakOp := breakAlreadyHandled
      let breakOp := ruleLB30 breakOp s.prevBreakType breakType
      let breakOp := ruleLB30ab u breakOp s.prevBreakType breakType s.prevWc lbType s.prevLbType
      let breakOp := ruleLB29To26 breakOp s.prevBreakType breakType
      let breakOp := ruleLB25 breakOp s.prevBreakType breakType nextBreakType s.prevLbType
      let breakOp := ruleLB24To22 breakOp s.prevBreakType breakType
      let breakOp := ruleLB21To9 breakOp s.prevPrevBreakType s.prevBreakType breakType rowBreakType
      let breakOp := ruleLB8 breakOp s.prevWc rowBreakType
      let breakOp := ruleLB7To6 breakOp breakType
      let (breakOp, isMandatoryBreak) := ruleLB5To4 breakOp wc s.prevBreakType
      let attr := if isMandatoryBreak = true then attr.setMandatoryBreak true else attr
      let attr :=
        match breakOp with
        | breakProhibited => attr.setLineBreak false
        | breakIfSpaces =>
          if s.prevBreakType ≠ some .SP then attr.setLineBreak false else attr
        | breakAllowed => attr.setLineBreak true
        | breakAlreadyHandled => attr
      let prevLbType :=
        if ¬ (breakType = some .CM ∨ breakType = some .ZWJ) then
          if breakType = some .NU ∨ breakType = some .SY ∨ breakType = some .IS then
            if s.prevLbType ≠ lbNumeric then lbType else s.prevLbType
          else lbType
        else s.prevLbType
      (attr, prevLbType, some (lbType, breakOp, isMandatoryBreak))
    else (attr, s.prevLbType, none)
  let (prevPrevBreakType, prevBreakType, prevJamo) :=
    adjustBreakTypes s.prevJamo jamo s.prevPrevBreakType s.prevBreakType breakType
      isStart
  let prevGbType := gbType
  let prevWc := wc
  let metExtendedPictographic2 :=
    if isExtendedPictographic = true then true else metExtendedPictographic
  {
    wc := wc
    generalCategory := generalCategory
    jamo := jamo
    isExtendedPictographic := isExtendedPictographic
    makesHangulSyllable := makesHangulSyllable
    gbType := gbType
    metExtendedPictographic := metExtendedPictographic
    isGB := isGB
    breakType := breakType
    rowBreakType := rowBreakType
    earlyCheck := earlyCheck
    cascade := cascade
    attr := attr
    state := {
      prevWc := prevWc
      prevJamo := prevJamo
      prevBreakType := prevBreakType
      prevPrevBreakType := prevPrevBreakType
      prevGbType := prevGbType
      metExtendedPictographic := metExtendedPictographic2
      prevLbType := prevLbType
      nextBreakType := nextBreakType } }

/-- The body of the loop at index `i` (source lines 520-632), run on the
carried variables `s` and on the record `attr = attrs[i]`: the accesses that
may panic (`text[i]`, `text[i+1]`, and the table rows read by `isHangul`),
then the rest of the body. -/
def loopBody (u : UCD) (text : List Rune) (i : Nat) (s : State) (attr : CharAttr) :
    Option Iteration := do
  let wc ← (if i < text.length then text[i]? else some u.paragraphSeparator)
  let nextWc ←
    (if i = text.length then some (0 : Rune)
    else if (i : Int) = (text.length : Int) - 1 then some u.paragraphSeparator
    else text[i + 1]?)
  let makesHangulSyllable ← isHangul u s.prevJamo (u.Jamo s.nextBreakType)
  some (turn u (decide (i = 0)) s wc nextWc makesHangulSyllable attr)

/-- The loop `for i := 0; i <= len(text); i++`, entered at index `i` with `n`
turns left to run (it is called with `n = len(text) + 1 - i`). Each turn reads
and writes `attrs[i]`; an index out of range is a panic. -/
def forLoop (u : UCD) (text : List Rune) : Nat → Nat → State → List CharAttr →
    Option (State × List CharAttr)
  | 0, _, s, attrs => some (s, attrs)
  | n + 1, i, s, attrs => do
    let attr ← attrs[i]?
    let it ← loopBody u text i s attr
    forLoop u text n (i + 1) it.state (attrs.set i it.attr)

/-- The default break algorithm (source lines 496-638): the attribute records
it leaves in `attrs`, or `none` when it panics. -/
def pangoDefaultBreak2 (u : UCD) (text : List Rune) (attrs : List CharAttr) :
    Option (List CharAttr) := do
  let s ← initState u text
  let (_, attrs) ← forLoop u text (text.length + 1) 0 s attrs
  let a ← attrs[0]?
  let attrs := attrs.set 0 (a.setLineBreak false) -- Rule LB2
  let a ← attrs[text.length]?
  let attrs := attrs.set text.length (a.setLineBreak true) -- Rule LB3
  let a ← attrs[text.length]?
  let attrs := attrs.set text.length (a.setMandatoryBreak true) -- Rule LB3
  some attrs

/-- The Jamo indices the pass may use as an index into `HangulJamoProps` are
rows of that table: `NO_JAMO` and every value of `ucd.Jamo`. -/
def UCD.JamoInRange (u : UCD) : Prop :=
  (0 ≤ u.NO_JAMO ∧ u.NO_JAMO < u.HangulJamoProps.length) ∧
    ∀ b, 0 ≤ u.Jamo b ∧ u.Jamo b < u.HangulJamoProps.length

/-- A finite excerpt of the Unicode property data with the Jamo table of the
property database, on which the pass is evaluated at concrete texts. The runes
listed carry the properties Unicode gives them; every other rune is
unassigned. -/
def excerpt : UCD where
  LookupType := fun r =>
    if r = 0x0A ∨ r = 0x0D then some .Cc
    else if r = 0x20 then some .Zs
    else if 0x30 ≤ r ∧ r ≤ 0x39 then some .Nd
    else if 0x41 ≤ r ∧ r ≤ 0x5A then some .Lu
    else if 0x61 ≤ r ∧ r ≤ 0x7A then some .Ll
    else if r = 0x0301 ∨ r = 0x0308 then some .Mn
    else if r = 0x200D then some .Cf
    else if r = 0x2029 then some .Zp
    else if 0xD800 ≤ r ∧ r ≤ 0xDFFF then some .Cs
    else if 0x1F1E6 ≤ r ∧ r ≤ 0x1F1FF then some .So
    else none
  LookupBreakClass := fun r =>
    if r = 0x0A then .LF
    else if r = 0x0D then .CR
    else if r = 0x20 then .SP
    else if 0x30 ≤ r ∧ r ≤ 0x39 then .NU
    else if 0x41 ≤ r ∧ r ≤ 0x5A then .AL
    else if 0x61 ≤ r ∧ r ≤ 0x7A then .AL
    else if r = 0x0301 ∨ r = 0x0308 then .CM
    else if r = 0x200D then .ZWJ
    else if r = 0x2029 then .BK
    else if 0xD800 ≤ r ∧ r ≤ 0xDFFF then .SG
    else if 0x1F1E6 ≤ r ∧ r ≤ 0x1F1FF then .RI
    else .XX
  Extended_Pictographic := fun _ => false
  Jamo := fun b =>
    match b with
    | some .JL => 0
    | some .JV => 1
    | some .JT => 2
    | some .H2 => 3
    | some .H3 => 4
    | _ => 5
  NO_JAMO := 5
  HangulJamoProps := [⟨0, 0⟩, ⟨1, 1⟩, ⟨2, 2⟩, ⟨0, 1⟩, ⟨0, 2⟩, ⟨5, 5⟩]
  paragraphSeparator := 0x2029


/-! Auxiliary definitions for the statements. -/

/-- The two flags the pass decides. -/
def CharAttr.flags (c : CharAttr) : Bool × Bool := (c.lineBreak, c.mandatoryBreak)

/-- Replace the flags outside the two break flags by those of another record. -/
def CharAttr.withOthers (c : CharAttr) (n : Nat) : CharAttr := { c with others := n }

/-- A Jamo index that is a row of `HangulJamoProps`. -/
def UCD.JamoRow (u : UCD) (j : JamoType) : Prop :=
  0 ≤ j ∧ j < u.HangulJamoProps.length

/-- The record left by a turn whose cascade ended on `breakOp` and
`isMandatoryBreak` (source lines 582 and 597-610). -/
def resolveAttr (attr : CharAttr) (prevBreakType : Option BreakClass) (breakOp : breakOpportunity)
    (isMandatoryBreak : Bool) : CharAttr :=
  let attr := attr.setLineBreak true
  let attr := if isMandatoryBreak = true then attr.setMandatoryBreak true else attr
  match breakOp with
  | breakProhibited => attr.setLineBreak false
  | breakIfSpaces =>
    if prevBreakType ≠ some .SP then attr.setLineBreak false else attr
  | breakAllowed => attr.setLineBreak true
  | breakAlreadyHandled => attr

/-- The carried variables at the head of turn `i` of the loop. They do not
depend on the attribute buffer. -/
def stateAt (u : UCD) (text : List Rune) : Nat → Option State
  | 0 => initState u text
  | i + 1 => (stateAt u text i).bind fun s =>
      (loopBody u text i s default).map fun it => it.state

/-- Turn `i` of the loop, run on a cleared record: its local variables and the
two flags it decides for position `i`. -/
def iterAt (u : UCD) (text : List Rune) (i : Nat) : Option Iteration :=
  (stateAt u text i).bind fun s => loopBody u text i s default

/-- The decision of the rule cascade before rules LB5 and LB4 are applied
(source lines 586-594), for a turn entered with the carried variables `s`. -/
def rulesLB30To6 (u : UCD) (s : State) (breakType nextBreakType rowBreakType : Option BreakClass)
    (lbType : lineBreakType) : breakOpportunity :=
  let breakOp := breakAlreadyHandled
  let breakOp := ruleLB30 breakOp s.prevBreakType breakType
  let breakOp := ruleLB30ab u breakOp s.prevBreakType breakType s.prevWc lbType s.prevLbType
  let breakOp := ruleLB29To26 breakOp s.prevBreakType breakType
  let breakOp := ruleLB25 breakOp s.prevBreakType breakType nextBreakType s.prevLbType
  let breakOp := ruleLB24To22 breakOp s.prevBreakType breakType
  let breakOp := ruleLB21To9 breakOp s.prevPrevBreakType s.prevBreakType breakType rowBreakType
  let breakOp := ruleLB8 breakOp s.prevWc rowBreakType
  let breakOp := ruleLB7To6 breakOp breakType
  breakOp

/-- The excerpt, extended by CHARACTER TABULATION (a control of class BA) and by
two pictographs, WOMAN and PERSONAL COMPUTER, with the properties Unicode gives
them. -/
def excerpt2 : UCD :=
  { excerpt with
    LookupType := fun r =>
      if r = 0x09 then some .Cc
      else if r = 0x1F469 ∨ r = 0x1F4BB then some .So
      else excerpt.LookupType r
    LookupBreakClass := fun r =>
      if r = 0x09 then .BA
      else if r = 0x1F469 then .EB
      else if r = 0x1F4BB then .ID
      else excerpt.LookupBreakClass r
    Extended_Pictographic := fun r => decide (r = 0x1F469 ∨ r = 0x1F4BB) }


/-- The excerpt, extended by two Hangul Jamo, CHOSEONG KIYEOK (a leading
consonant) and JUNGSEONG A (a vowel), with the properties Unicode gives them. -/
def excerpt3 : UCD :=
  { excerpt with
    LookupType := fun r =>
      if r = 0x1100 ∨ r = 0x1161 then some .Lo
      else excerpt.LookupType r
    LookupBreakClass := fun r =>
      if r = 0x1100 then .JL
      else if r = 0x1161 then .JV
      else excerpt.LookupBreakClass r }

/-- The decision of the first rule that matches in a list of rules, each given
by whether it matches and by the decision it dictates; when none matches the
decision is left as it started, and the break is allowed (rule LB31). -/
def firstMatching : List (Bool × breakOpportunity) → breakOpportunity
  | [] => breakAlreadyHandled
  | (isMatch, decision) :: rest => if isMatch = true then decision else firstMatching rest

/-- The rules LB4 to LB30b in the order of their numbers, each clause of the
source with the decision it assigns, for a turn entered with the carried
variables `s`: the list against which the order of the cascade is checked. -/
def rulesByNumber (u : UCD) (s : State) (wc : Rune)
    (breakType nextBreakType rowBreakType : Option BreakClass) (lbType : lineBreakType) :
    List (Bool × breakOpportunity) :=
  let prevBreakType := s.prevBreakType
  let prevPrevBreakType := s.prevPrevBreakType
  let prevLbType := s.prevLbType
  let prev := s.prevWc
  [ -- Rules LB4 and LB5
    (decide (prevBreakType = some .BK ∨ (prevBreakType = some .CR ∧ wc ≠ 10) ∨
      prevBreakType = some .LF ∨ prevBreakType = some .NL), breakAllowed),
    -- Rule LB6
    (decide (breakType = some .BK ∨ breakType = some .CR ∨ breakType = some .LF ∨
      breakType = some .NL), breakProhibited),
    -- Rule LB7
    (decide (breakType = some .SP ∨ breakType = some .ZW), breakProhibited),
    -- Rule LB8
    (decide (rowBreakType = some .ZW), breakAllowed),
    -- Rule LB8a
    (decide (prev = 0x200D), breakProhibited),
    -- Rule LB9
    (decide ((breakType = some .CM ∨ breakType = some .ZWJ) ∧
      ¬ (prevBreakType = some .BK ∨ prevBreakType = some .CR ∨ prevBreakType = some .LF ∨
        prevBreakType = some .NL ∨ prevBreakType = some .SP ∨ prevBreakType = some .ZW)),
      breakProhibited),
    -- Rule LB11
    (decide (prevBreakType = some .WJ ∨ breakType = some .WJ), breakProhibited),
    -- Rule LB12
    (decide (prevBreakType = some .GL), breakProhibited),
    -- Rule LB12a
    (decide (breakType = some .GL ∧ (prevBreakType ≠ some .SP ∧ prevBreakType ≠ some .BA ∧
      prevBreakType ≠ some .HY)), breakProhibited),
    -- Rule LB13
    (decide (breakType = some .EX), breakProhibited),
    (decide (prevBreakType ≠ some .NU ∧ (breakType = some .CL ∨ breakType = some .CP ∨
      breakType = some .IS ∨ breakType = some .SY)), breakProhibited),
    -- Rule LB14
    (decide (rowBreakType = some .OP), breakProhibited),
    -- Rule LB15
    (decide (rowBreakType = some .QU ∧ breakType = some .OP), breakProhibited),
    -- Rule LB16
    (decide ((rowBreakType = some .CL ∨ rowBreakType = some .CP) ∧ breakType = some .NS),
      breakProhibited),
    -- Rule LB17
    (decide (rowBreakType = some .B2 ∧ breakType = some .B2), breakProhibited),
    -- Rule LB18
    (decide (prevBreakType = some .SP), breakAllowed),
    -- Rule LB19
    (decide (prevBreakType = some .QU ∨ breakType = some .QU), breakProhibited),
    -- Rule LB20
    (decide (prevBreakType = some .CB ∨ breakType = some .CB), breakAllowed),
    -- Rule LB21
    (decide (breakType = some .BA ∨ breakType = some .HY ∨ breakType = some .NS ∨
      prevBreakType = some .BB), breakProhibited),
    -- Rule LB21a
    (decide (prevPrevBreakType = some .HL ∧ (prevBreakType = some .HY ∨
      prevBreakType = some .BA)), breakProhibited),
    -- Rule LB21b
    (decide (prevBreakType = some .SY ∧ breakType = some .HL), breakProhibited),
    -- Rule LB22
    (decide (breakType = some .IN ∧ (prevBreakType = some .AL ∨ prevBreakType = some .HL)),
      breakProhibited),
    (decide (breakType = some .IN ∧ prevBreakType = some .EX), breakProhibited),
    (decide (breakType = some .IN ∧ (prevBreakType = some .ID ∨ prevBreakType = some .EB ∨
      prevBreakType = some .EM)), breakProhibited),
    (decide (breakType = some .IN ∧ prevBreakType = some .IN), breakProhibited),
    (decide (breakType = some .IN ∧ prevBreakType = some .NU), breakProhibited),
    -- Rule LB23
    (decide ((prevBreakType = some .AL ∨ prevBreakType = some .HL) ∧ breakType = some .NU),
      breakProhibited),
    (decide (prevBreakType = some .NU ∧ (breakType = some .AL ∨ breakType = some .HL)),
      breakProhibited),
    -- Rule LB23a
    (decide (prevBreakType = some .PR ∧ (breakType = some .ID ∨ breakType = some .EB ∨
      breakType = some .EM)), breakProhibited),
    (decide ((prevBreakType = some .ID ∨ prevBreakType = some .EB ∨
      prevBreakType = some .EM) ∧ breakType = some .PO), breakProhibited),
    -- Rule LB24
    (decide ((prevBreakType = some .PR ∨ prevBreakType = some .PO) ∧
      (breakType = some .AL ∨ breakType = some .HL)), breakProhibited),
    (decide ((prevBreakType = some .AL ∨ prevBreakType = some .HL) ∧
      (breakType = some .PR ∨ breakType = some .PO)), breakProhibited),
    -- Rule LB25
    (decide ((prevBreakType = some .PR ∨ prevBreakType = some .PO) ∧ breakType = some .NU),
      breakProhibited),
    (decide ((prevBreakType = some .PR ∨ prevBreakType = some .PO) ∧
      (breakType = some .OP ∨ breakType = some .HY) ∧ nextBreakType = some .NU),
      breakProhibited),
    (decide ((prevBreakType = some .OP ∨ prevBreakType = some .HY) ∧ breakType = some .NU),
      breakProhibited),
    (decide (prevBreakType = some .NU ∧ (breakType = some .NU ∨ breakType = some .SY ∨
      breakType = some .IS)), breakProhibited),
    (decide (prevLbType = lbNumeric ∧ (breakType = some .NU ∨ breakType = some .SY ∨
      breakType = some .IS ∨ breakType = some .CL ∨ breakType = some .CP)), breakProhibited),
    (decide ((prevLbType = lbNumeric ∨ prevLbType = lbNumericClose) ∧
      (breakType = some .PO ∨ breakType = some .PR)), breakProhibited),
    -- Rule LB26
    (decide (prevBreakType = some .JL ∧ (breakType = some .JL ∨ breakType = some .JV ∨
      breakType = some .H2 ∨ breakType = some .H3)), breakProhibited),
    (decide ((prevBreakType = some .JV ∨ prevBreakType = some .H2) ∧
      (breakType = some .JV ∨ breakType = some .JT)), breakProhibited),
    (decide ((prevBreakType = some .JT ∨ prevBreakType = some .H3) ∧ breakType = some .JT),
      breakProhibited),
    -- Rule LB27
    (decide ((prevBreakType = some .JL ∨ prevBreakType = some .JV ∨
      prevBreakType = some .JT ∨ prevBreakType = some .H2 ∨ prevBreakType = some .H3) ∧
      breakType = some .PO), breakProhibited),
    (decide (prevBreakType = some .PR ∧ (breakType = some .JL ∨ breakType = some .JV ∨
      breakType = some .JT ∨ breakType = some .H2 ∨ breakType = some .H3)), breakProhibited),
    -- Rule LB28
    (decide ((prevBreakType = some .AL ∨ prevBreakType = some .HL) ∧
      (breakType = some .AL ∨ breakType = some .HL)), breakProhibited),
    -- Rule LB29
    (decide (prevBreakType = some .IS ∧ (breakType = some .AL ∨ breakType = some .HL)),
      breakProhibited),
    -- Rule LB30
    (decide ((prevBreakType = some .AL ∨ prevBreakType = some .HL ∨
      prevBreakType = some .NU) ∧ breakType = some .OP), breakProhibited),
    (decide (prevBreakType = some .CP ∧ (breakType = some .AL ∨ breakType = some .HL ∨
      breakType = some .NU)), breakProhibited),
    -- Rule LB30a
    (decide (prevLbType = lbRiOdd ∧ lbType = lbRiEven), breakProhibited),
    -- Rule LB30b
    (decide (prevBreakType = some .EB ∧ breakType = some .EM), breakProhibited),
    (decide (u.Extended_Pictographic prev = true ∧ u.LookupType prev = none ∧
      breakType = some .EM), breakProhibited) ]

/-- The excerpt, extended by EXCLAMATION MARK (class EX), PERCENT SIGN (class
PO), RIGHT PARENTHESIS (class CP) and ARABIC NUMBER SIGN, a format character
that UAX#29 makes a Prepend and that is of class AL in the version of Unicode
the source follows. -/
def excerpt4 : UCD :=
  { excerpt with
    LookupType := fun r =>
      if r = 0x21 ∨ r = 0x25 then some .Po
      else if r = 0x29 then some .Pe
      else if r = 0x0600 then some .Cf
      else excerpt.LookupType r
    LookupBreakClass := fun r =>
      if r = 0x21 then .EX
      else if r = 0x25 then .PO
      else if r = 0x29 then .CP
      else if r = 0x0600 then .AL
      else excerpt.LookupBreakClass r }
/-! One turn of the loop. -/

theorem jamoProps_isSome (u : UCD) (j : JamoType) (h : u.JamoRow j) :
    ∃ p, u.jamoProps j = some p := by
  have h0 : (0 : Int) ≤ j := h.1
  have h1 : (j : Int) < u.HangulJamoProps.length := h.2
  have hlt : j.toNat < u.HangulJamoProps.length := (Int.toNat_lt h0).2 h1
  refine ⟨u.HangulJamoProps[j.toNat], ?_⟩
  simp [UCD.jamoProps, h0, hlt]

theorem isHangul_isSome (u : UCD) (pj j : JamoType) (hp : u.JamoRow pj) (hj : u.JamoRow j) :
    ∃ b, isHangul u pj j = some b := by
  obtain ⟨p, hp⟩ := jamoProps_isSome u pj hp
  obtain ⟨q, hq⟩ := jamoProps_isSome u j hj
  unfold isHangul
  split
  · exact ⟨false, rfl⟩
  · simp [hp, hq]

theorem readWc_isSome (u : UCD) (text : List Rune) (i : Nat) :
    ∃ wc, (if i < text.length then text[i]? else some u.paragraphSeparator) = some wc := by
  split
  · rename_i h
    exact ⟨text[i], by simp [h]⟩
  · exact ⟨_, rfl⟩

theorem readNext_isSome (u : UCD) (text : List Rune) (i : Nat) (hi : i ≤ text.length) :
    ∃ wc, (if i = text.length then some (0 : Rune)
      else if (i : Int) = (text.length : Int) - 1 then some u.paragraphSeparator
      else text[i + 1]?) = some wc := by
  split
  · exact ⟨_, rfl⟩
  · split
    · exact ⟨_, rfl⟩
    · rename_i h1 h2
      have h : i + 1 < text.length := by omega
      exact ⟨text[i + 1], by simp [h]⟩

theorem adjustBreakTypes_jamo (pj j : JamoType) (a b c : Option BreakClass) (st : Bool) :
    (adjustBreakTypes pj j a b c st).2.2 = pj ∨ (adjustBreakTypes pj j a b c st).2.2 = j := by
  unfold adjustBreakTypes
  repeat (first | split | simp)

theorem turn_state_prevJamo (u : UCD) (st : Bool) (s : State) (wc nx : Rune) (b : Bool)
    (a : CharAttr) :
    (turn u st s wc nx b a).state.prevJamo =
      (adjustBreakTypes s.prevJamo (u.Jamo s.nextBreakType) s.prevPrevBreakType s.prevBreakType
        (ruleLB1 s.nextBreakType (u.LookupType wc)) st).2.2 := rfl

theorem turn_earlyCheck (u : UCD) (st : Bool) (s : State) (wc nx : Rune) (b : Bool)
    (a : CharAttr) :
    (turn u st s wc nx b a).earlyCheck =
      ((turn u st s wc nx b a).isGB ||
        decide ((turn u st s wc nx b a).breakType = some .EM) ||
        decide ((turn u st s wc nx b a).breakType = some .ZWJ) ||
        decide ((turn u st s wc nx b a).breakType = some .CM) ||
        decide ((turn u st s wc nx b a).breakType = some .JL) ||
        decide ((turn u st s wc nx b a).breakType = some .JV) ||
        decide ((turn u st s wc nx b a).breakType = some .JT) ||
        decide ((turn u st s wc nx b a).breakType = some .H2) ||
        decide ((turn u st s wc nx b a).breakType = some .H3) ||
        decide ((turn u st s wc nx b a).breakType = some .RI)) := rfl

/-- The record a turn leaves, from the outcome of its cascade. -/
theorem turn_attr_eq (u : UCD) (st : Bool) (s : State) (wc nx : Rune) (b : Bool) (a : CharAttr) :
    (turn u st s wc nx b a).attr =
      match (turn u st s wc nx b a).cascade with
      | none => (a.setLineBreak false).setMandatoryBreak false
      | some (_, breakOp, m) =>
        resolveAttr ((a.setLineBreak false).setMandatoryBreak false) s.prevBreakType breakOp m := by
  cases hE : (turn u st s wc nx b a).earlyCheck with
  | false =>
    unfold turn at hE ⊢
    dsimp only at hE ⊢
    rw [if_neg (Bool.eq_false_iff.mp hE)]
  | true =>
    unfold turn at hE ⊢
    dsimp only at hE ⊢
    rw [if_pos hE]
    rfl

/-- The cascade is consulted exactly when `earlyCheck` holds, and it ends with
rules LB5 and LB4. -/
theorem turn_cascade_eq (u : UCD) (st : Bool) (s : State) (wc nx : Rune) (b : Bool)
    (a : CharAttr) :
    ((turn u st s wc nx b a).earlyCheck = false ∧ (turn u st s wc nx b a).cascade = none) ∨
    ((turn u st s wc nx b a).earlyCheck = true ∧ ∃ lb op0,
      (turn u st s wc nx b a).cascade =
        some (lb, (ruleLB5To4 op0 wc s.prevBreakType).1, (ruleLB5To4 op0 wc s.prevBreakType).2)) := by
  cases hE : (turn u st s wc nx b a).earlyCheck with
  | false =>
    left
    refine ⟨rfl, ?_⟩
    unfold turn at hE ⊢
    dsimp only at hE ⊢
    rw [if_neg (Bool.eq_false_iff.mp hE)]
  | true =>
    right
    refine ⟨rfl, ?_⟩
    unfold turn at hE ⊢
    dsimp only at hE ⊢
    rw [if_pos hE]
    exact ⟨_, _, rfl⟩

/-- The record `attrs[i]` enters a turn only through its untouched flags. -/
theorem turn_attr (u : UCD) (st : Bool) (s : State) (wc nx : Rune) (b : Bool) (a : CharAttr) :
    turn u st s wc nx b a =
      { turn u st s wc nx b default with
        attr := (turn u st s wc nx b default).attr.withOthers a.others } := by
  cases hE : (turn u st s wc nx b default).earlyCheck with
  | false =>
    unfold turn at hE ⊢
    dsimp only at hE ⊢
    simp only [if_neg (Bool.eq_false_iff.mp hE)]
    rfl
  | true =>
    unfold turn at hE ⊢
    dsimp only at hE ⊢
    simp only [if_pos hE]
    congr 1
    generalize ruleLB5To4 _ _ _ = r
    rcases r with ⟨op, m⟩
    cases op <;> cases m <;>
      simp [CharAttr.setLineBreak, CharAttr.setMandatoryBreak, CharAttr.withOthers] <;>
      split <;> rfl

/-! The loop. -/

theorem loopBody_attr (u : UCD) (text : List Rune) (i : Nat) (s : State) (a : CharAttr) :
    loopBody u text i s a = (loopBody u text i s default).map
      (fun it => { it with attr := it.attr.withOthers a.others }) := by
  simp only [loopBody, Option.bind_eq_bind]
  cases (if i < text.length then text[i]? else some u.paragraphSeparator) with
  | none => rfl
  | some wc =>
    cases (if i = text.length then some (0 : Rune)
      else if (i : Int) = (text.length : Int) - 1 then some u.paragraphSeparator
      else text[i + 1]?) with
    | none => rfl
    | some nx =>
      cases isHangul u s.prevJamo (u.Jamo s.nextBreakType) with
      | none => rfl
      | some b => exact congrArg some (turn_attr u _ s wc nx b a)

theorem loopBody_inv (u : UCD) (text : List Rune) (i : Nat) (s : State) (a : CharAttr)
    (it : Iteration) (h : loopBody u text i s a = some it) :
    ∃ wc nx b,
      (if i < text.length then text[i]? else some u.paragraphSeparator) = some wc ∧
      (if i = text.length then some (0 : Rune)
        else if (i : Int) = (text.length : Int) - 1 then some u.paragraphSeparator
        else text[i + 1]?) = some nx ∧
      isHangul u s.prevJamo (u.Jamo s.nextBreakType) = some b ∧
      it = turn u (decide (i = 0)) s wc nx b a := by
  simp only [loopBody, Option.bind_eq_bind, Option.bind_eq_some] at h
  obtain ⟨wc, hwc, nx, hnx, b, hb, h⟩ := h
  exact ⟨wc, nx, b, hwc, hnx, hb, (Option.some.inj h).symm⟩

theorem loopBody_ok (u : UCD) (text : List Rune) (i : Nat) (s : State) (a : CharAttr)
    (hu : u.JamoInRange) (hs : u.JamoRow s.prevJamo) (hi : i ≤ text.length) :
    ∃ it, loopBody u text i s a = some it := by
  obtain ⟨wc, hwc⟩ := readWc_isSome u text i
  obtain ⟨nx, hnx⟩ := readNext_isSome u text i hi
  obtain ⟨b, hb⟩ := isHangul_isSome u s.prevJamo (u.Jamo s.nextBreakType) hs (hu.2 _)
  simp only [loopBody, hwc, hnx, hb, Option.bind_eq_bind, Option.some_bind]
  exact ⟨_, rfl⟩

theorem loopBody_jamoRow (u : UCD) (text : List Rune) (i : Nat) (s : State) (a : CharAttr)
    (it : Iteration) (hu : u.JamoInRange) (hs : u.JamoRow s.prevJamo)
    (h : loopBody u text i s a = some it) : u.JamoRow it.state.prevJamo := by
  obtain ⟨wc, nx, b, -, -, -, rfl⟩ := loopBody_inv u text i s a it h
  rw [turn_state_prevJamo]
  rcases adjustBreakTypes_jamo s.prevJamo (u.Jamo s.nextBreakType) s.prevPrevBreakType
    s.prevBreakType (ruleLB1 s.nextBreakType (u.LookupType wc)) (decide (i = 0)) with h | h
  · rw [h]; exact hs
  · rw [h]; exact hu.2 _

theorem initState_isSome (u : UCD) (text : List Rune) : ∃ s, initState u text = some s := by
  unfold initState
  by_cases h : text.length ≠ 0
  · have h0 : 0 < text.length := by omega
    simp [h, h0]
  · simp [h]

theorem initState_inv (u : UCD) (text : List Rune) (s : State) (h : initState u text = some s) :
    s.prevJamo = u.NO_JAMO ∧ s.prevBreakType = none := by
  simp only [initState, Option.bind_eq_bind, Option.bind_eq_some] at h
  obtain ⟨wc, -, h⟩ := h
  cases h
  exact ⟨rfl, rfl⟩

theorem stateAt_succ (u : UCD) (text : List Rune) (i : Nat) (s : State) (it : Iteration)
    (a : CharAttr) (hs : stateAt u text i = some s) (h : loopBody u text i s a = some it) :
    stateAt u text (i + 1) = some it.state := by
  rw [loopBody_attr] at h
  cases h0 : loopBody u text i s default with
  | none => rw [h0] at h; cases h
  | some it0 =>
    rw [h0] at h
    cases h
    simp [stateAt, hs, h0]

theorem stateAt_jamoRow (u : UCD) (text : List Rune) (hu : u.JamoInRange) :
    ∀ (i : Nat) (s : State), stateAt u text i = some s → u.JamoRow s.prevJamo := by
  intro i
  induction i with
  | zero =>
    intro s h
    rw [(initState_inv u text s h).1]
    exact hu.1
  | succ i ih =>
    intro s h
    simp only [stateAt, Option.bind_eq_some, Option.map_eq_some'] at h
    obtain ⟨s0, hs0, it, hit, rfl⟩ := h
    exact loopBody_jamoRow u text i s0 default it hu (ih s0 hs0) hit

theorem stateAt_isSome (u : UCD) (text : List Rune) (hu : u.JamoInRange) :
    ∀ i : Nat, i ≤ text.length + 1 → ∃ s, stateAt u text i = some s := by
  intro i
  induction i with
  | zero => intro _; exact initState_isSome u text
  | succ i ih =>
    intro hi
    obtain ⟨s, hs⟩ := ih (by omega)
    obtain ⟨it, hit⟩ := loopBody_ok u text i s default hu (stateAt_jamoRow u text hu i s hs)
      (by omega)
    exact ⟨it.state, stateAt_succ u text i s it default hs hit⟩

theorem iterAt_isSome (u : UCD) (text : List Rune) (hu : u.JamoInRange) (i : Nat)
    (hi : i ≤ text.length) : ∃ it, iterAt u text i = some it := by
  obtain ⟨s, hs⟩ := stateAt_isSome u text hu i (by omega)
  obtain ⟨it, hit⟩ := loopBody_ok u text i s default hu (stateAt_jamoRow u text hu i s hs) hi
  exact ⟨it, by simp [iterAt, hs, hit]⟩

/-- The loop, turn by turn: it ends, leaves the length of the buffer as it was,
writes at each index it visits the record of that turn, and leaves the other
records alone. -/
theorem forLoop_spec (u : UCD) (text : List Rune) (hu : u.JamoInRange) :
    ∀ (n i : Nat) (s : State) (attrs : List CharAttr),
      stateAt u text i = some s → i + n ≤ text.length + 1 → i + n ≤ attrs.length →
      ∃ s2 out, forLoop u text n i s attrs = some (s2, out) ∧ out.length = attrs.length ∧
        (∀ j, i ≤ j → j < i + n → ∃ a it, attrs[j]? = some a ∧ iterAt u text j = some it ∧
          out[j]? = some (it.attr.withOthers a.others)) ∧
        (∀ j, (j < i ∨ i + n ≤ j) → out[j]? = attrs[j]?) := by
  intro n
  induction n with
  | zero =>
    intro i s attrs _ _ _
    refine ⟨s, attrs, rfl, rfl, ?_, ?_⟩
    · intro j h1 h2; omega
    · intro j _; rfl
  | succ n ih =>
    intro i s attrs hs h1 h2
    have hi : i < attrs.length := by omega
    obtain ⟨it0, hit0⟩ := loopBody_ok u text i s default hu
      (stateAt_jamoRow u text hu i s hs) (by omega)
    have hit : loopBody u text i s attrs[i] =
        some { it0 with attr := it0.attr.withOthers attrs[i].others } := by
      rw [loopBody_attr, hit0]; rfl
    have hs2 := stateAt_succ u text i s _ _ hs hit
    obtain ⟨s2, out, hf, hlen, hin, hout⟩ := ih (i + 1) _
      (attrs.set i (it0.attr.withOthers attrs[i].others)) hs2 (by omega)
      (by rw [List.length_set]; omega)
    refine ⟨s2, out, ?_, ?_, ?_, ?_⟩
    · simp only [forLoop, List.getElem?_eq_getElem hi, hit, Option.bind_eq_bind,
        Option.some_bind]
      exact hf
    · rw [hlen, List.length_set]
    · intro j hj1 hj2
      by_cases hji : j = i
      · subst hji
        refine ⟨attrs[j], it0, List.getElem?_eq_getElem hi, ?_, ?_⟩
        · simp [iterAt, hs, hit0]
        · rw [hout j (Or.inl (by omega)), List.getElem?_set_self hi]
      · obtain ⟨a, it, ha, hit2, ho⟩ := hin j (by omega) (by omega)
        rw [List.getElem?_set_ne (Ne.symm hji)] at ha
        exact ⟨a, it, ha, hit2, ho⟩
    · intro j hj
      have hji : i ≠ j := by omega
      rw [hout j (by omega), List.getElem?_set_ne hji]


/-- A buffer shorter than the last index the loop will visit makes it panic. -/
theorem forLoop_short (u : UCD) (text : List Rune) :
    ∀ (n i : Nat) (s : State) (attrs : List CharAttr),
      i ≤ attrs.length → attrs.length < i + n → forLoop u text n i s attrs = none := by
  intro n
  induction n with
  | zero =>
    intro i s attrs h1 h2
    omega
  | succ n ih =>
    intro i s attrs h1 h2
    by_cases hi : i < attrs.length
    · simp only [forLoop, List.getElem?_eq_getElem hi, Option.bind_eq_bind, Option.some_bind]
      cases loopBody u text i s attrs[i] with
      | none => rfl
      | some it =>
        simp only [Option.some_bind]
        exact ih (i + 1) _ _ (by rw [List.length_set]; omega) (by rw [List.length_set]; omega)
    · have hnone : attrs[i]? = none := List.getElem?_eq_none (by omega)
      simp only [forLoop, hnone, Option.bind_eq_bind, Option.none_bind]

/-- The three assignments after the loop (rules LB2 and LB3), applied to the
record at position `j`. -/
theorem getElem?_fixups (out : List CharAttr) (N j : Nat) (c a0 aN : CharAttr)
    (h0 : out[0]? = some a0) (hN : out[N]? = some aN) (hj : out[j]? = some c) :
    ∃ x y, (out.set 0 (a0.setLineBreak false))[N]? = some x ∧
      ((out.set 0 (a0.setLineBreak false)).set N (x.setLineBreak true))[N]? = some y ∧
      (((out.set 0 (a0.setLineBreak false)).set N (x.setLineBreak true)).set N
        (y.setMandatoryBreak true))[j]? =
        some ⟨if j = N then true else if j = 0 then false else c.lineBreak,
          if j = N then true else c.mandatoryBreak, c.others⟩ := by
  have l0 : 0 < out.length := (List.getElem?_eq_some.1 h0).1
  have lN : N < out.length := (List.getElem?_eq_some.1 hN).1
  have lj : j < out.length := (List.getElem?_eq_some.1 hj).1
  by_cases hN0 : N = 0
  · subst hN0
    rw [h0] at hN
    cases hN
    refine ⟨a0.setLineBreak false, (a0.setLineBreak false).setLineBreak true, ?_, ?_, ?_⟩
    · rw [List.getElem?_set_self l0]
    · rw [List.getElem?_set_self (by rw [List.length_set]; exact l0)]
    · by_cases hj0 : j = 0
      · subst hj0
        rw [h0] at hj
        cases hj
        rw [List.getElem?_set_self (by rw [List.length_set, List.length_set]; exact l0)]
        rfl
      · rw [List.getElem?_set_ne (Ne.symm hj0), List.getElem?_set_ne (Ne.symm hj0),
          List.getElem?_set_ne (Ne.symm hj0), hj]
        simp [hj0]
  · refine ⟨aN, aN.setLineBreak true, ?_, ?_, ?_⟩
    · rw [List.getElem?_set_ne (Ne.symm hN0), hN]
    · rw [List.getElem?_set_self (by rw [List.length_set]; exact lN)]
    · by_cases hjN : j = N
      · subst hjN
        rw [hN] at hj
        cases hj
        rw [List.getElem?_set_self (by rw [List.length_set, List.length_set]; exact lN)]
        simp [CharAttr.setLineBreak, CharAttr.setMandatoryBreak]
      · rw [List.getElem?_set_ne (Ne.symm hjN), List.getElem?_set_ne (Ne.symm hjN)]
        by_cases hj0 : j = 0
        · subst hj0
          rw [h0] at hj
          cases hj
          rw [List.getElem?_set_self l0]
          simp [CharAttr.setLineBreak, hjN]
        · rw [List.getElem?_set_ne (Ne.symm hj0), hj]
          simp [hj0, hjN]

/-- The pass on a buffer with room for every position: it returns, and the
record at each position `j` carries the flags decided by turn `j`, overridden
by rules LB2 and LB3 at the two ends, next to the untouched flags it had. -/
theorem pango_spec (u : UCD) (text : List Rune) (attrs : List CharAttr) (hu : u.JamoInRange)
    (hlen : text.length + 1 ≤ attrs.length) :
    ∃ out, pangoDefaultBreak2 u text attrs = some out ∧ out.length = attrs.length ∧
      (∀ j, j ≤ text.length → ∃ a it, attrs[j]? = some a ∧ iterAt u text j = some it ∧
        out[j]? = some ⟨if j = text.length then true else if j = 0 then false
            else it.attr.lineBreak,
          if j = text.length then true else it.attr.mandatoryBreak, a.others⟩) ∧
      (∀ j, text.length < j → out[j]? = attrs[j]?) := by
  obtain ⟨s, hs⟩ := initState_isSome u text
  obtain ⟨s2, out, hf, hl, hin, hout⟩ := forLoop_spec u text hu (text.length + 1) 0 s attrs hs
    (by omega) (by omega)
  obtain ⟨a0, i0, ha0, hi0, ho0⟩ := hin 0 (by omega) (by omega)
  obtain ⟨aN, iN, haN, hiN, hoN⟩ := hin text.length (by omega) (by omega)
  obtain ⟨x, y, hx, hy, -⟩ := getElem?_fixups out text.length 0 _ _ _ ho0 hoN ho0
  refine ⟨((out.set 0 ((i0.attr.withOthers a0.others).setLineBreak false)).set text.length
    (x.setLineBreak true)).set text.length (y.setMandatoryBreak true), ?_, ?_, ?_, ?_⟩
  · simp only [pangoDefaultBreak2, hs, hf, Option.bind_eq_bind, Option.some_bind, ho0, hx, hy]
  · simp only [List.length_set]; exact hl
  · intro j hj
    obtain ⟨a, it, ha, hit, ho⟩ := hin j (by omega) (by omega)
    obtain ⟨x2, y2, hx2, hy2, hfin⟩ := getElem?_fixups out text.length j _ _ _ ho0 hoN ho
    rw [hx] at hx2
    cases hx2
    rw [hy] at hy2
    cases hy2
    exact ⟨a, it, ha, hit, hfin⟩
  · intro j hj
    have h1 : text.length ≠ j := by omega
    have h2 : 0 ≠ j := by omega
    rw [List.getElem?_set_ne h1, List.getElem?_set_ne h1, List.getElem?_set_ne h2]
    exact hout j (Or.inr (by omega))

/-- A buffer without room for every position makes the pass panic. -/
theorem pango_short (u : UCD) (text : List Rune) (attrs : List CharAttr)
    (hlen : attrs.length < text.length + 1) : pangoDefaultBreak2 u text attrs = none := by
  obtain ⟨s, hs⟩ := initState_isSome u text
  simp only [pangoDefaultBreak2, hs, Option.bind_eq_bind, Option.some_bind,
    forLoop_short u text (text.length + 1) 0 s attrs (by omega) (by omega), Option.none_bind]

/-! What a turn decides. -/

theorem iterAt_inv (u : UCD) (text : List Rune) (i : Nat) (it : Iteration)
    (h : iterAt u text i = some it) :
    ∃ s wc nx b, stateAt u text i = some s ∧
      (if i < text.length then text[i]? else some u.paragraphSeparator) = some wc ∧
      it = turn u (decide (i = 0)) s wc nx b default := by
  simp only [iterAt, Option.bind_eq_some] at h
  obtain ⟨s, hs, h⟩ := h
  obtain ⟨wc, nx, b, hwc, -, -, rfl⟩ := loopBody_inv u text i s default it h
  exact ⟨s, wc, nx, b, hs, hwc, rfl⟩

theorem ruleLB5To4_mandatory (op : breakOpportunity) (r : Rune) (p : Option BreakClass)
    (h : (ruleLB5To4 op r p).2 = true) : (ruleLB5To4 op r p).1 = breakAllowed := by
  unfold ruleLB5To4 at h ⊢
  split
  · rfl
  · rename_i hc
    rw [if_neg hc] at h
    cases h

theorem ruleLB5To4_start (op : breakOpportunity) (r : Rune) :
    (ruleLB5To4 op r none).2 = false := by
  simp [ruleLB5To4]

/-- Within one turn, a mandatory break is a line break. -/
theorem turn_mandatory_lineBreak (u : UCD) (st : Bool) (s : State) (wc nx : Rune) (b : Bool)
    (a : CharAttr) (h : (turn u st s wc nx b a).attr.mandatoryBreak = true) :
    (turn u st s wc nx b a).attr.lineBreak = true := by
  rw [turn_attr_eq] at h ⊢
  rcases turn_cascade_eq u st s wc nx b a with ⟨-, hc⟩ | ⟨-, lb, op0, hc⟩
  · rw [hc] at h
    simp [CharAttr.setLineBreak, CharAttr.setMandatoryBreak] at h
  · rw [hc] at h ⊢
    cases hm : (ruleLB5To4 op0 wc s.prevBreakType).2 with
    | false =>
      rw [hm] at h
      revert h
      cases (ruleLB5To4 op0 wc s.prevBreakType).1 <;>
        simp [resolveAttr, CharAttr.setLineBreak, CharAttr.setMandatoryBreak]
      split <;> simp
    | true =>
      rw [ruleLB5To4_mandatory op0 wc s.prevBreakType hm]
      simp [resolveAttr, CharAttr.setLineBreak, CharAttr.setMandatoryBreak]

/-- The first turn never decides a mandatory break: no class precedes it. -/
theorem turn_start_mandatory (u : UCD) (st : Bool) (s : State) (wc nx : Rune) (b : Bool)
    (a : CharAttr) (hs : s.prevBreakType = none) :
    (turn u st s wc nx b a).attr.mandatoryBreak = false := by
  rw [turn_attr_eq]
  rcases turn_cascade_eq u st s wc nx b a with ⟨-, hc⟩ | ⟨-, lb, op0, hc⟩
  · rw [hc]
    simp [CharAttr.setLineBreak, CharAttr.setMandatoryBreak]
  · rw [hc, hs, ruleLB5To4_start]
    cases (ruleLB5To4 op0 wc none).1 <;>
      simp [resolveAttr, CharAttr.setLineBreak, CharAttr.setMandatoryBreak]

/-- A turn whose `earlyCheck` fails leaves both flags cleared. -/
theorem turn_gated (u : UCD) (st : Bool) (s : State) (wc nx : Rune) (b : Bool)
    (a : CharAttr) (h : (turn u st s wc nx b a).earlyCheck = false) :
    (turn u st s wc nx b a).attr.lineBreak = false ∧
      (turn u st s wc nx b a).attr.mandatoryBreak = false := by
  rw [turn_attr_eq]
  rcases turn_cascade_eq u st s wc nx b a with ⟨-, hc⟩ | ⟨he, -⟩
  · rw [hc]
    simp [CharAttr.setLineBreak, CharAttr.setMandatoryBreak]
  · rw [h] at he
    cases he

theorem iterAt_mandatory_lineBreak (u : UCD) (text : List Rune) (i : Nat) (it : Iteration)
    (h : iterAt u text i = some it) (hm : it.attr.mandatoryBreak = true) :
    it.attr.lineBreak = true := by
  obtain ⟨s, wc, nx, b, -, -, rfl⟩ := iterAt_inv u text i it h
  exact turn_mandatory_lineBreak u _ s wc nx b default hm

theorem iterAt_zero_mandatory (u : UCD) (text : List Rune) (it : Iteration)
    (h : iterAt u text 0 = some it) : it.attr.mandatoryBreak = false := by
  obtain ⟨s, wc, nx, b, hs, -, rfl⟩ := iterAt_inv u text 0 it h
  exact turn_start_mandatory u _ s wc nx b default (initState_inv u text s hs).2

theorem iterAt_gated (u : UCD) (text : List Rune) (i : Nat) (it : Iteration)
    (h : iterAt u text i = some it) (he : it.earlyCheck = false) :
    it.attr.lineBreak = false ∧ it.attr.mandatoryBreak = false := by
  obtain ⟨s, wc, nx, b, -, -, rfl⟩ := iterAt_inv u text i it h
  exact turn_gated u _ s wc nx b default he

theorem iterAt_earlyCheck (u : UCD) (text : List Rune) (i : Nat) (it : Iteration)
    (h : iterAt u text i = some it) :
    it.earlyCheck =
      (it.isGB ||
        decide (it.breakType = some .EM) ||
        decide (it.breakType = some .ZWJ) ||
        decide (it.breakType = some .CM) ||
        decide (it.breakType = some .JL) ||
        decide (it.breakType = some .JV) ||
        decide (it.breakType = some .JT) ||
        decide (it.breakType = some .H2) ||
        decide (it.breakType = some .H3) ||
        decide (it.breakType = some .RI)) := by
  obtain ⟨s, wc, nx, b, -, -, rfl⟩ := iterAt_inv u text i it h
  exact turn_earlyCheck u _ s wc nx b default

/-! Texts that share their first code points. -/

theorem getElem?_of_take_eq (t1 t2 : List Rune) (n j : Nat) (h : t1.take n = t2.take n)
    (hj : j < n) : t1[j]? = t2[j]? := by
  rw [← List.getElem?_take_of_lt hj, h, List.getElem?_take_of_lt hj]

theorem loopBody_agree (u : UCD) (t1 t2 : List Rune) (i j : Nat) (s : State) (a : CharAttr)
    (h : t1.take (i + 2) = t2.take (i + 2)) (h1 : i + 2 ≤ t1.length) (h2 : i + 2 ≤ t2.length)
    (hj : j ≤ i) : loopBody u t1 j s a = loopBody u t2 j s a := by
  have e0 := getElem?_of_take_eq t1 t2 (i + 2) j h (by omega)
  have e1 := getElem?_of_take_eq t1 t2 (i + 2) (j + 1) h (by omega)
  have a1 : j < t1.length := by omega
  have a2 : j < t2.length := by omega
  have b1 : ¬ j = t1.length := by omega
  have b2 : ¬ j = t2.length := by omega
  have c1 : ¬ (j : Int) = (t1.length : Int) - 1 := by omega
  have c2 : ¬ (j : Int) = (t2.length : Int) - 1 := by omega
  simp only [loopBody, if_pos a1, if_pos a2, if_neg b1, if_neg b2, if_neg c1, if_neg c2, e0, e1]

theorem initState_agree (u : UCD) (t1 t2 : List Rune) (i : Nat)
    (h : t1.take (i + 2) = t2.take (i + 2)) (h1 : i + 2 ≤ t1.length) (h2 : i + 2 ≤ t2.length) :
    initState u t1 = initState u t2 := by
  have e0 := getElem?_of_take_eq t1 t2 (i + 2) 0 h (by omega)
  have a1 : t1.length ≠ 0 := by omega
  have a2 : t2.length ≠ 0 := by omega
  simp only [initState, if_pos a1, if_pos a2, e0]

theorem stateAt_agree (u : UCD) (t1 t2 : List Rune) (i : Nat)
    (h : t1.take (i + 2) = t2.take (i + 2)) (h1 : i + 2 ≤ t1.length) (h2 : i + 2 ≤ t2.length) :
    ∀ j, j ≤ i + 1 → stateAt u t1 j = stateAt u t2 j := by
  intro j
  induction j with
  | zero => intro _; exact initState_agree u t1 t2 i h h1 h2
  | succ j ih =>
    intro hj
    simp only [stateAt]
    rw [ih (by omega)]
    congr 1
    funext s
    rw [loopBody_agree u t1 t2 i j s default h h1 h2 (by omega)]

theorem iterAt_agree (u : UCD) (t1 t2 : List Rune) (i j : Nat)
    (h : t1.take (i + 2) = t2.take (i + 2)) (h1 : i + 2 ≤ t1.length) (h2 : i + 2 ≤ t2.length)
    (hj : j ≤ i) : iterAt u t1 j = iterAt u t2 j := by
  simp only [iterAt]
  rw [stateAt_agree u t1 t2 i h h1 h2 j (by omega)]
  congr 1
  funext s
  exact loopBody_agree u t1 t2 i j s default h h1 h2 hj

theorem excerpt_jamoInRange : excerpt.JamoInRange := by
  refine ⟨by decide, ?_⟩
  intro b
  rcases b with _ | b
  · decide
  · cases b <;> decide

/-! Properties of the pass. -/

/-- C1: for a text of `n` code points and a buffer of `n + 1` records the pass
returns `n + 1` records, and the two flags of every one of them are assigned by
the pass: they are the flags obtained on a freshly allocated buffer, whatever
the buffer held before. -/
theorem pangoDefaultBreak2_yields_all_positions (u : UCD) (text : List Rune)
    (attrs : List CharAttr) (hu : u.JamoInRange) (hlen : attrs.length = text.length + 1) :
    ∃ out fresh, pangoDefaultBreak2 u text attrs = some out ∧
      out.length = text.length + 1 ∧
      pangoDefaultBreak2 u text (List.replicate (text.length + 1) default) = some fresh ∧
      out.map CharAttr.flags = fresh.map CharAttr.flags := by
  obtain ⟨out, ho, hl, hin, -⟩ := pango_spec u text attrs hu (by omega)
  obtain ⟨fresh, hf, hl2, hin2, -⟩ := pango_spec u text
    (List.replicate (text.length + 1) default) hu (by simp)
  refine ⟨out, fresh, ho, by omega, hf, ?_⟩
  apply List.ext_getElem?
  intro j
  by_cases hj : j ≤ text.length
  · obtain ⟨a, it, -, hit, h1⟩ := hin j hj
    obtain ⟨a2, it2, -, hit2, h2⟩ := hin2 j hj
    rw [hit] at hit2
    cases hit2
    simp [h1, h2, CharAttr.flags]
  · have e1 : out[j]? = none := List.getElem?_eq_none (by omega)
    have e2 : fresh[j]? = none := List.getElem?_eq_none (by simp at hl2; omega)
    simp [e1, e2]

/-- Witness of C1 on the text `A SPACE B` and a buffer with stale flags. -/
theorem pangoDefaultBreak2_yields_all_positions_witness :
    excerpt.JamoInRange ∧
    ([⟨true, true, 5⟩, ⟨true, false, 0⟩, ⟨false, true, 1⟩, ⟨false, false, 2⟩] :
      List CharAttr).length = [(0x41 : Rune), 0x20, 0x42].length + 1 ∧
    ∃ out fresh, pangoDefaultBreak2 excerpt [0x41, 0x20, 0x42]
        [⟨true, true, 5⟩, ⟨true, false, 0⟩, ⟨false, true, 1⟩, ⟨false, false, 2⟩] = some out ∧
      out.length = [(0x41 : Rune), 0x20, 0x42].length + 1 ∧
      pangoDefaultBreak2 excerpt [0x41, 0x20, 0x42]
        (List.replicate ([(0x41 : Rune), 0x20, 0x42].length + 1) default) = some fresh ∧
      out.map CharAttr.flags = fresh.map CharAttr.flags :=
  ⟨excerpt_jamoInRange, rfl,
    pangoDefaultBreak2_yields_all_positions excerpt [0x41, 0x20, 0x42] _ excerpt_jamoInRange rfl⟩

/-- C2: after the pass the last position, index `len(text)`, has
`lineBreak = true` and `mandatoryBreak = true`, for every text, empty or not. -/
theorem pangoDefaultBreak2_last_position (u : UCD) (text : List Rune)
    (attrs : List CharAttr) (hu : u.JamoInRange) (hlen : attrs.length = text.length + 1) :
    ∃ out a, pangoDefaultBreak2 u text attrs = some out ∧ out[text.length]? = some a ∧
      a.lineBreak = true ∧ a.mandatoryBreak = true := by
  obtain ⟨out, ho, -, hin, -⟩ := pango_spec u text attrs hu (by omega)
  obtain ⟨a, it, -, -, h1⟩ := hin text.length (le_refl _)
  exact ⟨out, _, ho, h1, by simp, by simp⟩

/-- Witness of C2 on the text `A SPACE B`. -/
theorem pangoDefaultBreak2_last_position_witness :
    excerpt.JamoInRange ∧
    (List.replicate 4 (default : CharAttr)).length = [(0x41 : Rune), 0x20, 0x42].length + 1 ∧
    ∃ out a, pangoDefaultBreak2 excerpt [0x41, 0x20, 0x42] (List.replicate 4 default) = some out ∧
      out[[(0x41 : Rune), 0x20, 0x42].length]? = some a ∧
      a.lineBreak = true ∧ a.mandatoryBreak = true :=
  ⟨excerpt_jamoInRange, rfl,
    pangoDefaultBreak2_last_position excerpt [0x41, 0x20, 0x42] _ excerpt_jamoInRange rfl⟩

/-- C3, as stated, fails on the empty text: its only position is both the
first and the last one, rule LB3 is applied after rule LB2, and position 0 ends
with `lineBreak = true`. -/
theorem pangoDefaultBreak2_empty_first_position_breaks :
    pangoDefaultBreak2 excerpt [] [⟨false, false, 0⟩] = some [⟨true, true, 0⟩] := by
  decide

/-- C3, amended: for every non-empty text, position 0 of the output has
`lineBreak = false`. -/
theorem pangoDefaultBreak2_first_position (u : UCD) (text : List Rune)
    (attrs : List CharAttr) (hu : u.JamoInRange) (hlen : attrs.length = text.length + 1)
    (hne : text ≠ []) :
    ∃ out a, pangoDefaultBreak2 u text attrs = some out ∧ out[0]? = some a ∧
      a.lineBreak = false := by
  obtain ⟨out, ho, -, hin, -⟩ := pango_spec u text attrs hu (by omega)
  obtain ⟨a, it, -, -, h1⟩ := hin 0 (Nat.zero_le _)
  have h0 : ¬ 0 = text.length := by
    intro h
    exact hne (List.length_eq_zero.1 h.symm)
  exact ⟨out, _, ho, h1, by simp [h0]⟩

/-- Witness of the amended C3 on the text `A SPACE B`. -/
theorem pangoDefaultBreak2_first_position_witness :
    excerpt.JamoInRange ∧
    (List.replicate 4 (default : CharAttr)).length = [(0x41 : Rune), 0x20, 0x42].length + 1 ∧
    [(0x41 : Rune), 0x20, 0x42] ≠ [] ∧
    ∃ out a, pangoDefaultBreak2 excerpt [0x41, 0x20, 0x42] (List.replicate 4 default) = some out ∧
      out[0]? = some a ∧ a.lineBreak = false :=
  ⟨excerpt_jamoInRange, rfl, by decide,
    pangoDefaultBreak2_first_position excerpt [0x41, 0x20, 0x42] _ excerpt_jamoInRange rfl
      (by decide)⟩

/-- C4: on the empty text and a buffer of one record the pass returns exactly
one record, position 0, with `mandatoryBreak = true` and `lineBreak = true`. -/
theorem pangoDefaultBreak2_empty (u : UCD) (a : CharAttr) (hu : u.JamoInRange) :
    pangoDefaultBreak2 u [] [a] = some [⟨true, true, a.others⟩] := by
  obtain ⟨out, ho, hl, hin, -⟩ := pango_spec u [] [a] hu (by simp)
  obtain ⟨a2, it, ha, -, h1⟩ := hin 0 (le_refl _)
  rw [ho]
  congr 1
  apply List.ext_getElem?
  intro j
  rcases j with _ | j
  · simp at ha
    subst ha
    simpa using h1
  · have e1 : out[j + 1]? = none := List.getElem?_eq_none (by simp at hl; omega)
    simp [e1]

/-- Witness of C4 with the property data of the excerpt. -/
theorem pangoDefaultBreak2_empty_witness :
    excerpt.JamoInRange ∧
    pangoDefaultBreak2 excerpt [] [⟨false, false, 9⟩] =
      some [⟨true, true, (⟨false, false, 9⟩ : CharAttr).others⟩] :=
  ⟨excerpt_jamoInRange, pangoDefaultBreak2_empty excerpt ⟨false, false, 9⟩ excerpt_jamoInRange⟩

/-- C5: at every position `i` in `0..len(text)` of the output, `mandatoryBreak`
set implies `lineBreak` set. -/
theorem pangoDefaultBreak2_mandatory_imp_lineBreak (u : UCD) (text : List Rune)
    (attrs : List CharAttr) (hu : u.JamoInRange) (hlen : attrs.length = text.length + 1) :
    ∃ out, pangoDefaultBreak2 u text attrs = some out ∧
      ∀ i, i ≤ text.length → ∃ a, out[i]? = some a ∧
        (a.mandatoryBreak = true → a.lineBreak = true) := by
  obtain ⟨out, ho, -, hin, -⟩ := pango_spec u text attrs hu (by omega)
  refine ⟨out, ho, ?_⟩
  intro i hi
  obtain ⟨a, it, -, hit, h1⟩ := hin i hi
  refine ⟨_, h1, ?_⟩
  by_cases hN : i = text.length
  · simp [hN]
  · by_cases h0 : i = 0
    · subst h0
      simp [hN, iterAt_zero_mandatory u text it hit]
    · simp only [if_neg hN, if_neg h0]
      exact iterAt_mandatory_lineBreak u text i it hit

/-- Witness of C5 on the text `CR LF`. -/
theorem pangoDefaultBreak2_mandatory_imp_lineBreak_witness :
    excerpt.JamoInRange ∧
    (List.replicate 3 (default : CharAttr)).length = [(0x0D : Rune), 0x0A].length + 1 ∧
    ∃ out, pangoDefaultBreak2 excerpt [0x0D, 0x0A] (List.replicate 3 default) = some out ∧
      ∀ i, i ≤ [(0x0D : Rune), 0x0A].length → ∃ a, out[i]? = some a ∧
        (a.mandatoryBreak = true → a.lineBreak = true) :=
  ⟨excerpt_jamoInRange, rfl,
    pangoDefaultBreak2_mandatory_imp_lineBreak excerpt [0x0D, 0x0A] _ excerpt_jamoInRange rfl⟩

/-- C6, as stated, fails: in `SPACE, COMBINING DIAERESIS` the evaluator reports
no grapheme boundary before the mark (rule GB9), yet the cascade is consulted
because the class of the mark is CM, and rule LB18 allows the break after the
space. -/
theorem nonboundary_after_space_breaks :
    (iterAt excerpt [0x20, 0x308] 1).map (fun it => it.isGB) = some false ∧
    (pangoDefaultBreak2 excerpt [0x20, 0x308] (List.replicate 3 default)).map
      (fun out => out.map CharAttr.lineBreak) = some [false, true, true] := by
  decide

/-- C6, amended: at every position `i` before the end of the text, if the
grapheme evaluator, as called by turn `i` of the pass, reports that `i` is not
a boundary, and the class of `text[i]` after rule LB1 is none of EM, ZWJ, CM,
JL, JV, JT, H2, H3, RI, then the output has `lineBreak = false` at `i`. -/
theorem pangoDefaultBreak2_nonboundary_gated (u : UCD) (text : List Rune)
    (attrs : List CharAttr) (hu : u.JamoInRange) (hlen : attrs.length = text.length + 1)
    (i : Nat) (hi : i < text.length) (it : Iteration) (hit : iterAt u text i = some it)
    (hgb : it.isGB = false)
    (hcls : ∀ c ∈ [BreakClass.EM, .ZWJ, .CM, .JL, .JV, .JT, .H2, .H3, .RI],
      it.breakType ≠ some c) :
    ∃ out a, pangoDefaultBreak2 u text attrs = some out ∧ out[i]? = some a ∧
      a.lineBreak = false := by
  obtain ⟨out, ho, -, hin, -⟩ := pango_spec u text attrs hu (by omega)
  obtain ⟨a, it2, -, hit2, h1⟩ := hin i (by omega)
  rw [hit] at hit2
  cases hit2
  have he : it.earlyCheck = false := by
    rw [iterAt_earlyCheck u text i it hit, hgb]
    simp only [List.mem_cons, List.mem_singleton, List.not_mem_nil, or_false, forall_eq_or_imp,
      forall_eq] at hcls
    obtain ⟨c1, c2, c3, c4, c5, c6, c7, c8, c9⟩ := hcls
    simp [c1, c2, c3, c4, c5, c6, c7, c8, c9]
  have hN : ¬ i = text.length := by omega
  refine ⟨out, _, ho, h1, ?_⟩
  simp [hN, (iterAt_gated u text i it hit he).1]

/-- Witness of the amended C6 on the text `CR LF`: rule GB3 reports no
boundary before the line feed, whose class LF is not among the nine. -/
theorem pangoDefaultBreak2_nonboundary_gated_witness :
    excerpt.JamoInRange ∧
    (List.replicate 3 (default : CharAttr)).length = [(0x0D : Rune), 0x0A].length + 1 ∧
    1 < [(0x0D : Rune), 0x0A].length ∧
    ∃ it, iterAt excerpt [0x0D, 0x0A] 1 = some it ∧ it.isGB = false ∧
      (∀ c ∈ [BreakClass.EM, .ZWJ, .CM, .JL, .JV, .JT, .H2, .H3, .RI],
        it.breakType ≠ some c) ∧
      ∃ out a, pangoDefaultBreak2 excerpt [0x0D, 0x0A] (List.replicate 3 default) = some out ∧
        out[1]? = some a ∧ a.lineBreak = false := by
  obtain ⟨it, hit⟩ := iterAt_isSome excerpt [0x0D, 0x0A] excerpt_jamoInRange 1 (by decide)
  have hgb : it.isGB = false := by
    have h : (iterAt excerpt [0x0D, 0x0A] 1).map (fun it => it.isGB) = some false := by decide
    rw [hit] at h
    exact Option.some.inj h
  have hbt : it.breakType = some .LF := by
    have h : (iterAt excerpt [0x0D, 0x0A] 1).map (fun it => it.breakType) = some (some .LF) := by
      decide
    rw [hit] at h
    exact Option.some.inj h
  have hcls : ∀ c ∈ [BreakClass.EM, .ZWJ, .CM, .JL, .JV, .JT, .H2, .H3, .RI],
      it.breakType ≠ some c := by
    rw [hbt]
    decide
  exact ⟨excerpt_jamoInRange, rfl, by decide, it, hit, hgb, hcls,
    pangoDefaultBreak2_nonboundary_gated excerpt [0x0D, 0x0A] (List.replicate 3 default)
      excerpt_jamoInRange rfl 1 (by decide) it hit hgb hcls⟩

/-- C7: the pass is total. For every finite sequence of code points, whatever
their values, and a buffer of `len(text) + 1` records it returns: no index into
`text`, `attrs` or the Jamo table is out of range. -/
theorem pangoDefaultBreak2_total (u : UCD) (text : List Rune) (attrs : List CharAttr)
    (hu : u.JamoInRange) (hlen : attrs.length = text.length + 1) :
    (pangoDefaultBreak2 u text attrs).isSome = true := by
  obtain ⟨out, ho, -⟩ := pango_spec u text attrs hu (by omega)
  rw [ho]
  rfl

/-- Witness of C7 on a text with a surrogate, an unassigned and two values
that are no code points. -/
theorem pangoDefaultBreak2_total_witness :
    excerpt.JamoInRange ∧
    (List.replicate 5 (default : CharAttr)).length =
      [(0xD800 : Rune), 0x0378, 0x110000, -1].length + 1 ∧
    (pangoDefaultBreak2 excerpt [0xD800, 0x0378, 0x110000, -1]
      (List.replicate 5 default)).isSome = true :=
  ⟨excerpt_jamoInRange, rfl,
    pangoDefaultBreak2_total excerpt [0xD800, 0x0378, 0x110000, -1] _ excerpt_jamoInRange rfl⟩

/-- C8, as stated, fails: the length of the buffer is never compared with that
of the text, and a buffer that is too long is accepted. On the empty text and a
buffer of two records the pass returns and leaves the second record alone. -/
theorem pangoDefaultBreak2_long_buffer_returns :
    ([⟨false, false, 0⟩, ⟨false, false, 0⟩] : List CharAttr).length ≠
      ([] : List Rune).length + 1 ∧
    pangoDefaultBreak2 excerpt [] [⟨false, false, 0⟩, ⟨false, false, 0⟩] =
      some [⟨true, true, 0⟩, ⟨false, false, 0⟩] := by
  decide

/-- C8, amended: whenever the buffer is shorter than `len(text) + 1` the pass
panics on an index out of range; a longer buffer is accepted, the pass returns
and leaves the records past index `len(text)` as they were. -/
theorem pangoDefaultBreak2_buffer_length (u : UCD) (text : List Rune) (attrs : List CharAttr) :
    (attrs.length < text.length + 1 → pangoDefaultBreak2 u text attrs = none) ∧
    (u.JamoInRange → text.length + 1 < attrs.length →
      ∃ out, pangoDefaultBreak2 u text attrs = some out ∧ out.length = attrs.length ∧
        ∀ j, text.length < j → out[j]? = attrs[j]?) := by
  refine ⟨pango_short u text attrs, ?_⟩
  intro hu hlen
  obtain ⟨out, ho, hl, -, hout⟩ := pango_spec u text attrs hu (by omega)
  exact ⟨out, ho, hl, hout⟩

/-- Witness of the amended C8: a buffer of one record and one of three for the
text `A`. -/
theorem pangoDefaultBreak2_buffer_length_witness :
    (([default] : List CharAttr).length < [(0x41 : Rune)].length + 1 ∧
      pangoDefaultBreak2 excerpt [0x41] [default] = none) ∧
    (excerpt.JamoInRange ∧
      [(0x41 : Rune)].length + 1 < (List.replicate 3 (default : CharAttr)).length ∧
      ∃ out, pangoDefaultBreak2 excerpt [0x41] (List.replicate 3 default) = some out ∧
        out.length = (List.replicate 3 (default : CharAttr)).length ∧
        ∀ j, [(0x41 : Rune)].length < j → out[j]? = (List.replicate 3 (default : CharAttr))[j]?) :=
  ⟨⟨by decide,
      (pangoDefaultBreak2_buffer_length excerpt [0x41] [default]).1 (by decide)⟩,
    excerpt_jamoInRange, by decide,
      (pangoDefaultBreak2_buffer_length excerpt [0x41] (List.replicate 3 default)).2
        excerpt_jamoInRange (by decide)⟩

/-- C9: the pass is deterministic and independent of what the buffer held. On
two buffers of `len(text) + 1` records it leaves the same two flags at every
position, and run again on its own output it returns that output unchanged. -/
theorem pangoDefaultBreak2_buffer_independent (u : UCD) (text : List Rune)
    (attrs1 attrs2 : List CharAttr) (hu : u.JamoInRange)
    (h1 : attrs1.length = text.length + 1) (h2 : attrs2.length = text.length + 1) :
    ∃ out1 out2, pangoDefaultBreak2 u text attrs1 = some out1 ∧
      pangoDefaultBreak2 u text attrs2 = some out2 ∧
      out1.map CharAttr.flags = out2.map CharAttr.flags ∧
      pangoDefaultBreak2 u text out1 = some out1 := by
  obtain ⟨out1, ho1, hl1, hin1, -⟩ := pango_spec u text attrs1 hu (by omega)
  obtain ⟨out2, ho2, hl2, hin2, -⟩ := pango_spec u text attrs2 hu (by omega)
  obtain ⟨out3, ho3, hl3, hin3, -⟩ := pango_spec u text out1 hu (by omega)
  refine ⟨out1, out2, ho1, ho2, ?_, ?_⟩
  · apply List.ext_getElem?
    intro j
    by_cases hj : j ≤ text.length
    · obtain ⟨a, it, -, hit, e1⟩ := hin1 j hj
      obtain ⟨b, it2, -, hit2, e2⟩ := hin2 j hj
      rw [hit] at hit2
      cases hit2
      simp [e1, e2, CharAttr.flags]
    · have e1 : out1[j]? = none := List.getElem?_eq_none (by omega)
      have e2 : out2[j]? = none := List.getElem?_eq_none (by omega)
      simp [e1, e2]
  · rw [ho3]
    congr 1
    apply List.ext_getElem?
    intro j
    by_cases hj : j ≤ text.length
    · obtain ⟨a, it, -, hit, e1⟩ := hin1 j hj
      obtain ⟨b, it2, hb, hit2, e3⟩ := hin3 j hj
      rw [hit] at hit2
      cases hit2
      rw [e1] at hb
      cases hb
      rw [e3, e1]
    · have e1 : out1[j]? = none := List.getElem?_eq_none (by omega)
      have e3 : out3[j]? = none := List.getElem?_eq_none (by omega)
      rw [e1, e3]

/-- Witness of C9 on the text `A SPACE B`, a fresh buffer and a stale one. -/
theorem pangoDefaultBreak2_buffer_independent_witness :
    excerpt.JamoInRange ∧
    (List.replicate 4 (default : CharAttr)).length = [(0x41 : Rune), 0x20, 0x42].length + 1 ∧
    ([⟨true, true, 5⟩, ⟨true, false, 0⟩, ⟨false, true, 1⟩, ⟨false, false, 2⟩] :
      List CharAttr).length = [(0x41 : Rune), 0x20, 0x42].length + 1 ∧
    ∃ out1 out2,
      pangoDefaultBreak2 excerpt [0x41, 0x20, 0x42] (List.replicate 4 default) = some out1 ∧
      pangoDefaultBreak2 excerpt [0x41, 0x20, 0x42]
        [⟨true, true, 5⟩, ⟨true, false, 0⟩, ⟨false, true, 1⟩, ⟨false, false, 2⟩] = some out2 ∧
      out1.map CharAttr.flags = out2.map CharAttr.flags ∧
      pangoDefaultBreak2 excerpt [0x41, 0x20, 0x42] out1 = some out1 :=
  ⟨excerpt_jamoInRange, rfl, rfl,
    pangoDefaultBreak2_buffer_independent excerpt [0x41, 0x20, 0x42] _ _
      excerpt_jamoInRange rfl rfl⟩

/-- C10: the pass looks ahead at most one code point. For two texts of length
at least `i + 2` that agree on their first `i + 2` code points, the two flags
agree at every position `0..i`. -/
theorem pangoDefaultBreak2_lookahead_one (u : UCD) (text1 text2 : List Rune)
    (attrs1 attrs2 : List CharAttr) (i : Nat) (hu : u.JamoInRange)
    (h1 : attrs1.length = text1.length + 1) (h2 : attrs2.length = text2.length + 1)
    (hl1 : i + 2 ≤ text1.length) (hl2 : i + 2 ≤ text2.length)
    (hpre : text1.take (i + 2) = text2.take (i + 2)) :
    ∃ out1 out2, pangoDefaultBreak2 u text1 attrs1 = some out1 ∧
      pangoDefaultBreak2 u text2 attrs2 = some out2 ∧
      ∀ j, j ≤ i → ∃ a b, out1[j]? = some a ∧ out2[j]? = some b ∧ a.flags = b.flags := by
  obtain ⟨out1, ho1, -, hin1, -⟩ := pango_spec u text1 attrs1 hu (by omega)
  obtain ⟨out2, ho2, -, hin2, -⟩ := pango_spec u text2 attrs2 hu (by omega)
  refine ⟨out1, out2, ho1, ho2, ?_⟩
  intro j hj
  obtain ⟨a, it, -, hit, e1⟩ := hin1 j (by omega)
  obtain ⟨b, it2, -, hit2, e2⟩ := hin2 j (by omega)
  rw [iterAt_agree u text1 text2 i j hpre hl1 hl2 hj, hit2] at hit
  cases hit
  have n1 : ¬ j = text1.length := by omega
  have n2 : ¬ j = text2.length := by omega
  refine ⟨_, _, e1, e2, ?_⟩
  simp [CharAttr.flags, n1, n2]

/-- Witness of C10 on `A SPACE B A` and `A SPACE B A, CR, LF` with `i = 2`. -/
theorem pangoDefaultBreak2_lookahead_one_witness :
    excerpt.JamoInRange ∧
    (List.replicate 5 (default : CharAttr)).length =
      [(0x41 : Rune), 0x20, 0x42, 0x41].length + 1 ∧
    (List.replicate 7 (default : CharAttr)).length =
      [(0x41 : Rune), 0x20, 0x42, 0x41, 0x0D, 0x0A].length + 1 ∧
    2 + 2 ≤ [(0x41 : Rune), 0x20, 0x42, 0x41].length ∧
    2 + 2 ≤ [(0x41 : Rune), 0x20, 0x42, 0x41, 0x0D, 0x0A].length ∧
    [(0x41 : Rune), 0x20, 0x42, 0x41].take (2 + 2) =
      [(0x41 : Rune), 0x20, 0x42, 0x41, 0x0D, 0x0A].take (2 + 2) ∧
    ∃ out1 out2,
      pangoDefaultBreak2 excerpt [0x41, 0x20, 0x42, 0x41] (List.replicate 5 default)
        = some out1 ∧
      pangoDefaultBreak2 excerpt [0x41, 0x20, 0x42, 0x41, 0x0D, 0x0A] (List.replicate 7 default)
        = some out2 ∧
      ∀ j, j ≤ 2 → ∃ a b, out1[j]? = some a ∧ out2[j]? = some b ∧ a.flags = b.flags :=
  ⟨excerpt_jamoInRange, rfl, rfl, by decide, by decide, rfl,
    pangoDefaultBreak2_lookahead_one excerpt [0x41, 0x20, 0x42, 0x41]
      [0x41, 0x20, 0x42, 0x41, 0x0D, 0x0A] _ _ 2 excerpt_jamoInRange rfl rfl
      (by decide) (by decide) rfl⟩

/-! The trace of the pass: what turn `i` reads and what it hands over. -/

theorem excerpt2_jamoInRange : excerpt2.JamoInRange := excerpt_jamoInRange

theorem iterAt_inv_full (u : UCD) (text : List Rune) (i : Nat) (it : Iteration)
    (h : iterAt u text i = some it) :
    ∃ s wc nx b, stateAt u text i = some s ∧
      (if i < text.length then text[i]? else some u.paragraphSeparator) = some wc ∧
      (if i = text.length then some (0 : Rune)
        else if (i : Int) = (text.length : Int) - 1 then some u.paragraphSeparator
        else text[i + 1]?) = some nx ∧
      isHangul u s.prevJamo (u.Jamo s.nextBreakType) = some b ∧
      it = turn u (decide (i = 0)) s wc nx b default := by
  simp only [iterAt, Option.bind_eq_some] at h
  obtain ⟨s, hs, h⟩ := h
  obtain ⟨wc, nx, b, hwc, hnx, hb, rfl⟩ := loopBody_inv u text i s default it h
  exact ⟨s, wc, nx, b, hs, hwc, hnx, hb, rfl⟩

/-- The carried variables of turn `i + 1` are those turn `i` hands over. -/
theorem stateAt_succ_eq (u : UCD) (text : List Rune) (i : Nat) :
    stateAt u text (i + 1) = (iterAt u text i).map fun it => it.state := by
  simp only [stateAt, iterAt]
  cases stateAt u text i with
  | none => rfl
  | some s => rfl

theorem stateAt_of_iterAt (u : UCD) (text : List Rune) (i : Nat) (it : Iteration)
    (h : iterAt u text i = some it) : stateAt u text (i + 1) = some it.state := by
  rw [stateAt_succ_eq, h]
  rfl

theorem turn_wc (u : UCD) (st : Bool) (s : State) (wc nx : Rune) (b : Bool) (a : CharAttr) :
    (turn u st s wc nx b a).wc = wc := rfl

theorem turn_gbType (u : UCD) (st : Bool) (s : State) (wc nx : Rune) (b : Bool) (a : CharAttr) :
    (turn u st s wc nx b a).gbType = graphemeType wc (u.LookupType wc) s.prevGbType b := rfl

theorem turn_breakType (u : UCD) (st : Bool) (s : State) (wc nx : Rune) (b : Bool)
    (a : CharAttr) :
    (turn u st s wc nx b a).breakType = ruleLB1 s.nextBreakType (u.LookupType wc) := rfl

theorem turn_met (u : UCD) (st : Bool) (s : State) (wc nx : Rune) (b : Bool) (a : CharAttr) :
    (turn u st s wc nx b a).metExtendedPictographic =
      if s.metExtendedPictographic = true then
        ruleGB11 u s.prevGbType (turn u st s wc nx b a).gbType s.prevWc
          (u.Extended_Pictographic wc)
      else s.metExtendedPictographic := rfl

theorem turn_isGB (u : UCD) (st : Bool) (s : State) (wc nx : Rune) (b : Bool) (a : CharAttr) :
    (turn u st s wc nx b a).isGB = isGraphemeBoundary s.prevWc wc s.prevGbType
      (turn u st s wc nx b a).gbType (u.Extended_Pictographic wc)
      (turn u st s wc nx b a).metExtendedPictographic := rfl

theorem turn_rowBreakType (u : UCD) (st : Bool) (s : State) (wc nx : Rune) (b : Bool)
    (a : CharAttr) :
    (turn u st s wc nx b a).rowBreakType =
      if (if s.prevBreakType = some .SP then s.prevPrevBreakType else s.prevBreakType)
          = some .XX then some .AL
      else if s.prevBreakType = some .SP then s.prevPrevBreakType else s.prevBreakType := rfl

theorem turn_state_prevWc (u : UCD) (st : Bool) (s : State) (wc nx : Rune) (b : Bool)
    (a : CharAttr) : (turn u st s wc nx b a).state.prevWc = wc := rfl

theorem turn_state_prevGbType (u : UCD) (st : Bool) (s : State) (wc nx : Rune) (b : Bool)
    (a : CharAttr) :
    (turn u st s wc nx b a).state.prevGbType = (turn u st s wc nx b a).gbType := rfl

theorem turn_state_met (u : UCD) (st : Bool) (s : State) (wc nx : Rune) (b : Bool)
    (a : CharAttr) :
    (turn u st s wc nx b a).state.metExtendedPictographic =
      if u.Extended_Pictographic wc = true then true
      else (turn u st s wc nx b a).metExtendedPictographic := rfl

theorem turn_state_nextBreakType (u : UCD) (st : Bool) (s : State) (wc nx : Rune) (b : Bool)
    (a : CharAttr) :
    (turn u st s wc nx b a).state.nextBreakType = some (u.LookupBreakClass nx) := rfl

theorem turn_state_prevBreakType (u : UCD) (st : Bool) (s : State) (wc nx : Rune) (b : Bool)
    (a : CharAttr) :
    (turn u st s wc nx b a).state.prevBreakType =
      (adjustBreakTypes s.prevJamo (u.Jamo s.nextBreakType) s.prevPrevBreakType s.prevBreakType
        (turn u st s wc nx b a).breakType st).2.1 := rfl

theorem turn_state_prevPrevBreakType (u : UCD) (st : Bool) (s : State) (wc nx : Rune)
    (b : Bool) (a : CharAttr) :
    (turn u st s wc nx b a).state.prevPrevBreakType =
      (adjustBreakTypes s.prevJamo (u.Jamo s.nextBreakType) s.prevPrevBreakType s.prevBreakType
        (turn u st s wc nx b a).breakType st).1 := rfl

/-- The outcome of a turn whose cascade is consulted. -/
theorem turn_cascade_val (u : UCD) (st : Bool) (s : State) (wc nx : Rune) (b : Bool)
    (a : CharAttr) (hE : (turn u st s wc nx b a).earlyCheck = true) :
    (turn u st s wc nx b a).cascade =
      some (newlineBreakType (turn u st s wc nx b a).breakType s.prevLbType,
        ruleLB5To4
          (rulesLB30To6 u s (turn u st s wc nx b a).breakType (some (u.LookupBreakClass nx))
            (turn u st s wc nx b a).rowBreakType
            (newlineBreakType (turn u st s wc nx b a).breakType s.prevLbType))
          wc s.prevBreakType) := by
  unfold turn at hE ⊢
  dsimp only at hE ⊢
  rw [if_pos hE]
  rfl

theorem turn_cascade_none (u : UCD) (st : Bool) (s : State) (wc nx : Rune) (b : Bool)
    (a : CharAttr) (hE : (turn u st s wc nx b a).earlyCheck = false) :
    (turn u st s wc nx b a).cascade = none := by
  rcases turn_cascade_eq u st s wc nx b a with ⟨-, hc⟩ | ⟨he, -⟩
  · exact hc
  · rw [hE] at he
    cases he

/-- The run state a turn hands over. -/
theorem turn_state_prevLbType (u : UCD) (st : Bool) (s : State) (wc nx : Rune) (b : Bool)
    (a : CharAttr) :
    (turn u st s wc nx b a).state.prevLbType =
      if (turn u st s wc nx b a).earlyCheck = true then
        if ¬ ((turn u st s wc nx b a).breakType = some .CM ∨
            (turn u st s wc nx b a).breakType = some .ZWJ) then
          if (turn u st s wc nx b a).breakType = some .NU ∨
              (turn u st s wc nx b a).breakType = some .SY ∨
              (turn u st s wc nx b a).breakType = some .IS then
            if s.prevLbType ≠ lbNumeric then
              newlineBreakType (turn u st s wc nx b a).breakType s.prevLbType
            else s.prevLbType
          else newlineBreakType (turn u st s wc nx b a).breakType s.prevLbType
        else s.prevLbType
      else s.prevLbType := by
  cases hE : (turn u st s wc nx b a).earlyCheck with
  | false =>
    unfold turn at hE ⊢
    dsimp only at hE ⊢
    rw [if_neg (Bool.eq_false_iff.mp hE)]
    simp
  | true =>
    unfold turn at hE ⊢
    dsimp only at hE ⊢
    rw [if_pos hE]
    simp

/-- At the head of turn `i` the class looked up one turn ahead is the class of
the rune turn `i` reads. -/
theorem stateAt_nextBreakType (u : UCD) (text : List Rune) (i : Nat) (s : State) (wc : Rune)
    (hs : stateAt u text i = some s) (hi : i ≤ text.length)
    (hwc : (if i < text.length then text[i]? else some u.paragraphSeparator) = some wc) :
    s.nextBreakType = some (u.LookupBreakClass wc) := by
  cases i with
  | zero =>
    simp only [stateAt, initState, Option.bind_eq_bind, Option.bind_eq_some] at hs
    obtain ⟨w0, hw0, hs⟩ := hs
    cases hs
    have e : w0 = wc := by
      by_cases hl : text.length = 0
      · simp [hl] at hw0 hwc
        rw [← hw0, ← hwc]
      · have hl2 : 0 < text.length := by omega
        simp only [ne_eq, hl, not_false_eq_true, if_true] at hw0
        simp only [hl2, if_true] at hwc
        rw [hw0] at hwc
        exact Option.some.inj hwc
    rw [e]
  | succ j =>
    rw [stateAt_succ_eq] at hs
    simp only [Option.map_eq_some'] at hs
    obtain ⟨it, hit, rfl⟩ := hs
    obtain ⟨s0, w0, nx, b, -, -, hnx, -, rfl⟩ := iterAt_inv_full u text j it hit
    rw [turn_state_nextBreakType]
    have h1 : ¬ j = text.length := by omega
    rw [if_neg h1] at hnx
    by_cases h2 : j + 1 < text.length
    · have h3 : ¬ (j : Int) = (text.length : Int) - 1 := by omega
      rw [if_neg h3] at hnx
      rw [if_pos h2] at hwc
      rw [hnx] at hwc
      rw [Option.some.inj hwc]
    · have h3 : (j : Int) = (text.length : Int) - 1 := by omega
      rw [if_pos h3] at hnx
      rw [if_neg h2] at hwc
      rw [hnx] at hwc
      rw [Option.some.inj hwc]

/-- The turn at an index inside the text, with what it reads spelled out. -/
theorem iterAt_inside (u : UCD) (text : List Rune) (i : Nat) (wc : Rune) (it : Iteration)
    (hwc : text[i]? = some wc) (h : iterAt u text i = some it) :
    ∃ s nx b, stateAt u text i = some s ∧
      s.nextBreakType = some (u.LookupBreakClass wc) ∧
      it = turn u (decide (i = 0)) s wc nx b default := by
  have hi : i < text.length := (List.getElem?_eq_some.1 hwc).1
  obtain ⟨s, w0, nx, b, hs, hw0, -, -, rfl⟩ := iterAt_inv_full u text i it h
  rw [if_pos hi, hwc] at hw0
  cases hw0
  refine ⟨s, nx, b, hs, ?_, rfl⟩
  exact stateAt_nextBreakType u text i s wc hs (by omega) (by rw [if_pos hi]; exact hwc)

/-- The records of the positions strictly inside the text are those of their
turns. -/
theorem pango_inside (u : UCD) (text : List Rune) (attrs : List CharAttr) (hu : u.JamoInRange)
    (hlen : text.length + 1 ≤ attrs.length) :
    ∃ out, pangoDefaultBreak2 u text attrs = some out ∧
      ∀ j, 0 < j → j < text.length → ∃ a it, iterAt u text j = some it ∧ out[j]? = some a ∧
        a.lineBreak = it.attr.lineBreak ∧ a.mandatoryBreak = it.attr.mandatoryBreak := by
  obtain ⟨out, ho, -, hin, -⟩ := pango_spec u text attrs hu hlen
  refine ⟨out, ho, ?_⟩
  intro j h0 hj
  obtain ⟨a, it, -, hit, e⟩ := hin j (by omega)
  have n1 : ¬ j = text.length := by omega
  have n2 : ¬ j = 0 := by omega
  exact ⟨_, it, hit, e, by simp [n1, n2], by simp [n1]⟩

/-! The flags a turn leaves, from the decision of its cascade. -/

theorem resolveAttr_mandatoryBreak (a : CharAttr) (p : Option BreakClass)
    (op : breakOpportunity) (m : Bool) :
    (resolveAttr ((a.setLineBreak false).setMandatoryBreak false) p op m).mandatoryBreak = m := by
  cases op <;> cases m <;>
    simp [resolveAttr, CharAttr.setLineBreak, CharAttr.setMandatoryBreak]
  all_goals split <;> rfl

theorem resolveAttr_lineBreak (a : CharAttr) (p : Option BreakClass)
    (op : breakOpportunity) (m : Bool) :
    (resolveAttr ((a.setLineBreak false).setMandatoryBreak false) p op m).lineBreak =
      match op with
      | breakProhibited => false
      | breakIfSpaces => decide (p = some .SP)
      | breakAllowed => true
      | breakAlreadyHandled => true := by
  cases op <;> cases m <;>
    simp [resolveAttr, CharAttr.setLineBreak, CharAttr.setMandatoryBreak]
  all_goals split <;> simp_all

/-- The two flags of a turn whose cascade is consulted. -/
theorem turn_flags (u : UCD) (st : Bool) (s : State) (wc nx : Rune) (b : Bool)
    (a : CharAttr) (hE : (turn u st s wc nx b a).earlyCheck = true) :
    (turn u st s wc nx b a).attr.mandatoryBreak =
      (ruleLB5To4
        (rulesLB30To6 u s (turn u st s wc nx b a).breakType (some (u.LookupBreakClass nx))
          (turn u st s wc nx b a).rowBreakType
          (newlineBreakType (turn u st s wc nx b a).breakType s.prevLbType))
        wc s.prevBreakType).2 ∧
    (turn u st s wc nx b a).attr.lineBreak =
      match (ruleLB5To4
        (rulesLB30To6 u s (turn u st s wc nx b a).breakType (some (u.LookupBreakClass nx))
          (turn u st s wc nx b a).rowBreakType
          (newlineBreakType (turn u st s wc nx b a).breakType s.prevLbType))
        wc s.prevBreakType).1 with
      | breakProhibited => false
      | breakIfSpaces => decide (s.prevBreakType = some .SP)
      | breakAllowed => true
      | breakAlreadyHandled => true := by
  rw [turn_attr_eq, turn_cascade_val u st s wc nx b a hE]
  exact ⟨resolveAttr_mandatoryBreak _ _ _ _, resolveAttr_lineBreak _ _ _ _⟩

theorem ruleLB5To4_snd (op : breakOpportunity) (r : Int) (p : Option BreakClass) :
    (ruleLB5To4 op r p).2 = true ↔
      (p = some .BK ∨ p = some .LF ∨ p = some .NL ∨ (p = some .CR ∧ r ≠ 10)) := by
  unfold ruleLB5To4
  split
  · rename_i h
    simp only [true_iff]
    tauto
  · rename_i h
    simp only [Bool.false_eq_true, false_iff]
    tauto

theorem ruleLB5To4_fst_of_not (op : breakOpportunity) (r : Int) (p : Option BreakClass)
    (h : (ruleLB5To4 op r p).2 = false) : (ruleLB5To4 op r p).1 = op := by
  unfold ruleLB5To4 at h ⊢
  split
  · rename_i hc
    rw [if_pos hc] at h
    cases h
  · rfl

/-- A turn decides a mandatory break exactly when its cascade is consulted and
rules LB4 and LB5 apply. -/
theorem turn_mandatory_iff (u : UCD) (st : Bool) (s : State) (wc nx : Rune) (b : Bool)
    (a : CharAttr) :
    (turn u st s wc nx b a).attr.mandatoryBreak = true ↔
      (turn u st s wc nx b a).earlyCheck = true ∧
        (s.prevBreakType = some .BK ∨ s.prevBreakType = some .LF ∨
          s.prevBreakType = some .NL ∨ (s.prevBreakType = some .CR ∧ wc ≠ 10)) := by
  cases hE : (turn u st s wc nx b a).earlyCheck with
  | false =>
    rw [(turn_gated u st s wc nx b a hE).2]
    simp
  | true =>
    rw [(turn_flags u st s wc nx b a hE).1, ruleLB5To4_snd]
    simp

/-! Properties of the classification and of the gate. -/

/-- C16, as stated, fails: for the surrogate U+D800 (general category Cs,
class SG) `graphemeType` answers ControlCRLF, not Other. -/
theorem graphemeType_surrogate_is_control :
    excerpt.LookupType 0xD800 = some .Cs ∧ excerpt.LookupBreakClass 0xD800 = .SG ∧
    graphemeType 0xD800 (excerpt.LookupType 0xD800) gbOther false = gbControlCRLF ∧
    graphemeType 0xD800 (excerpt.LookupType 0xD800) gbOther false ≠ gbOther := by
  decide

/-- C16, amended: for an unpaired surrogate (general category Cs, class SG)
`ruleLB1` resolves the class to AL and `graphemeType` answers ControlCRLF,
whatever the rune, the previous type and the Hangul flag. -/
theorem surrogate_classification (r : Rune) (g : Option GeneralCategory)
    (previousType : graphemeBreakType) (makesHangulSyllable : Bool) :
    ruleLB1 (some .SG) g = some .AL ∧
    graphemeType r (some .Cs) previousType makesHangulSyllable = gbControlCRLF :=
  ⟨rfl, rfl⟩

/-- C18: cascade gating. At a position `i` with `0 < i < len(text)` that is not
a grapheme boundary and whose class after rule LB1 is none of EM, ZWJ, CM, JL,
JV, JT, H2, H3, RI, the cascade is not consulted and the output has both flags
cleared. -/
theorem pangoDefaultBreak2_cascade_gating (u : UCD) (text : List Rune)
    (attrs : List CharAttr) (hu : u.JamoInRange) (hlen : attrs.length = text.length + 1)
    (i : Nat) (h0 : 0 < i) (wc : Rune) (hwc : text[i]? = some wc)
    (it : Iteration) (hit : iterAt u text i = some it) (hgb : it.isGB = false)
    (hcls : ∀ c ∈ [BreakClass.EM, .ZWJ, .CM, .JL, .JV, .JT, .H2, .H3, .RI],
      ruleLB1 (some (u.LookupBreakClass wc)) (u.LookupType wc) ≠ some c) :
    it.earlyCheck = false ∧ it.cascade = none ∧
    ∃ out a, pangoDefaultBreak2 u text attrs = some out ∧ out[i]? = some a ∧
      a.lineBreak = false ∧ a.mandatoryBreak = false := by
  have hi : i < text.length := (List.getElem?_eq_some.1 hwc).1
  obtain ⟨out, ho, hin⟩ := pango_inside u text attrs hu (by omega)
  obtain ⟨a, it2, hit2, ha, hl, hm⟩ := hin i h0 hi
  rw [hit] at hit2
  cases hit2
  obtain ⟨s, nx, b, -, hnb, rfl⟩ := iterAt_inside u text i wc it hwc hit
  have hbt : (turn u (decide (i = 0)) s wc nx b default).breakType =
      ruleLB1 (some (u.LookupBreakClass wc)) (u.LookupType wc) := by
    rw [turn_breakType, hnb]
  have he : (turn u (decide (i = 0)) s wc nx b default).earlyCheck = false := by
    rw [turn_earlyCheck, hgb, hbt]
    simp only [List.mem_cons, List.mem_singleton, List.not_mem_nil, or_false, forall_eq_or_imp,
      forall_eq] at hcls
    obtain ⟨c1, c2, c3, c4, c5, c6, c7, c8, c9⟩ := hcls
    simp [c1, c2, c3, c4, c5, c6, c7, c8, c9]
  have hg := turn_gated u _ s wc nx b default he
  exact ⟨he, turn_cascade_none u _ s wc nx b default he, out, a, ho, ha,
    by rw [hl, hg.1], by rw [hm, hg.2]⟩

/-- Witness of C18 on the text `A, CR, LF, A`, at the position between the
carriage return and the line feed. -/
theorem pangoDefaultBreak2_cascade_gating_witness :
    excerpt.JamoInRange ∧
    (List.replicate 5 (default : CharAttr)).length =
      [(0x41 : Rune), 0x0D, 0x0A, 0x41].length + 1 ∧
    0 < 2 ∧ [(0x41 : Rune), 0x0D, 0x0A, 0x41][2]? = some 0x0A ∧
    ∃ it, iterAt excerpt [0x41, 0x0D, 0x0A, 0x41] 2 = some it ∧ it.isGB = false ∧
      (∀ c ∈ [BreakClass.EM, .ZWJ, .CM, .JL, .JV, .JT, .H2, .H3, .RI],
        ruleLB1 (some (excerpt.LookupBreakClass 0x0A)) (excerpt.LookupType 0x0A) ≠ some c) ∧
      it.earlyCheck = false ∧ it.cascade = none ∧
      ∃ out a, pangoDefaultBreak2 excerpt [0x41, 0x0D, 0x0A, 0x41] (List.replicate 5 default)
          = some out ∧ out[2]? = some a ∧ a.lineBreak = false ∧ a.mandatoryBreak = false := by
  obtain ⟨it, hit⟩ := iterAt_isSome excerpt [0x41, 0x0D, 0x0A, 0x41] excerpt_jamoInRange 2
    (by decide)
  have hgb : it.isGB = false := by
    have h : (iterAt excerpt [0x41, 0x0D, 0x0A, 0x41] 2).map (fun it => it.isGB) = some false := by
      decide
    rw [hit] at h
    exact Option.some.inj h
  exact ⟨excerpt_jamoInRange, rfl, by decide, rfl, it, hit, hgb, by decide,
    pangoDefaultBreak2_cascade_gating excerpt [0x41, 0x0D, 0x0A, 0x41] (List.replicate 5 default)
      excerpt_jamoInRange rfl 2 (by decide) 0x0A rfl it hit hgb (by decide)⟩

/-- C19: `ruleLB1` sends AI, SG and XX to AL, SA to CM when the general
category is Mn or Mc and to AL otherwise, CJ to NS, and leaves every other
class as it is; its result is never AI, SG, XX, SA or CJ, and applying it twice
is applying it once. -/
theorem ruleLB1_resolution (c : BreakClass) (breakType : Option BreakClass)
    (g : Option GeneralCategory) :
    (ruleLB1 (some c) g =
      if c = .AI ∨ c = .SG ∨ c = .XX then some .AL
      else if c = .SA then (if g = some .Mn ∨ g = some .Mc then some .CM else some .AL)
      else if c = .CJ then some .NS
      else some c) ∧
    (∀ d ∈ [BreakClass.AI, .SG, .XX, .SA, .CJ], ruleLB1 breakType g ≠ some d) ∧
    ruleLB1 (ruleLB1 breakType g) g = ruleLB1 breakType g := by
  by_cases hg : g = some .Mn ∨ g = some .Mc
  · refine ⟨?_, ?_, ?_⟩
    · cases c <;> simp [ruleLB1, hg]
    · rcases breakType with _ | b
      · simp [ruleLB1]
      · cases b <;> simp [ruleLB1, hg]
    · rcases breakType with _ | b
      · rfl
      · cases b <;> simp [ruleLB1, hg]
  · refine ⟨?_, ?_, ?_⟩
    · cases c <;> simp [ruleLB1, hg]
    · rcases breakType with _ | b
      · simp [ruleLB1]
      · cases b <;> simp [ruleLB1, hg]
    · rcases breakType with _ | b
      · rfl
      · cases b <;> simp [ruleLB1, hg]

/-- C20: at a position `i` with `0 < i < len(text)`, `mandatoryBreak` is set
exactly when the cascade is consulted at `i` and the previous effective class
is BK, LF or NL, or is CR while `text[i]` is not U+000A; and then `lineBreak`
is set as well. -/
theorem pangoDefaultBreak2_mandatory_iff (u : UCD) (text : List Rune)
    (attrs : List CharAttr) (hu : u.JamoInRange) (hlen : attrs.length = text.length + 1)
    (i : Nat) (h0 : 0 < i) (wc : Rune) (hwc : text[i]? = some wc)
    (s : State) (hs : stateAt u text i = some s)
    (it : Iteration) (hit : iterAt u text i = some it) :
    ∃ out a, pangoDefaultBreak2 u text attrs = some out ∧ out[i]? = some a ∧
      (a.mandatoryBreak = true ↔
        it.earlyCheck = true ∧
          (s.prevBreakType = some .BK ∨ s.prevBreakType = some .LF ∨
            s.prevBreakType = some .NL ∨ (s.prevBreakType = some .CR ∧ wc ≠ 0x0A))) ∧
      (a.mandatoryBreak = true → a.lineBreak = true) := by
  have hi : i < text.length := (List.getElem?_eq_some.1 hwc).1
  obtain ⟨out, ho, hin⟩ := pango_inside u text attrs hu (by omega)
  obtain ⟨a, it2, hit2, ha, hl, hm⟩ := hin i h0 hi
  rw [hit] at hit2
  cases hit2
  obtain ⟨s2, nx, b, hs2, -, rfl⟩ := iterAt_inside u text i wc it hwc hit
  rw [hs] at hs2
  cases hs2
  refine ⟨out, a, ho, ha, ?_, ?_⟩
  · rw [hm]
    exact turn_mandatory_iff u _ s wc nx b default
  · rw [hm, hl]
    exact turn_mandatory_lineBreak u _ s wc nx b default

/-- Witness of C20 on the text `A, LF, A`, at the position after the line
feed. -/
theorem pangoDefaultBreak2_mandatory_iff_witness :
    excerpt.JamoInRange ∧
    (List.replicate 4 (default : CharAttr)).length = [(0x41 : Rune), 0x0A, 0x41].length + 1 ∧
    0 < 2 ∧ [(0x41 : Rune), 0x0A, 0x41][2]? = some 0x41 ∧
    ∃ s it, stateAt excerpt [0x41, 0x0A, 0x41] 2 = some s ∧
      iterAt excerpt [0x41, 0x0A, 0x41] 2 = some it ∧
      ∃ out a, pangoDefaultBreak2 excerpt [0x41, 0x0A, 0x41] (List.replicate 4 default)
          = some out ∧ out[2]? = some a ∧
        (a.mandatoryBreak = true ↔
          it.earlyCheck = true ∧
            (s.prevBreakType = some .BK ∨ s.prevBreakType = some .LF ∨
              s.prevBreakType = some .NL ∨ (s.prevBreakType = some .CR ∧ (0x41 : Rune) ≠ 0x0A))) ∧
        (a.mandatoryBreak = true → a.lineBreak = true) := by
  obtain ⟨s, hs⟩ := stateAt_isSome excerpt [0x41, 0x0A, 0x41] excerpt_jamoInRange 2 (by decide)
  obtain ⟨it, hit⟩ := iterAt_isSome excerpt [0x41, 0x0A, 0x41] excerpt_jamoInRange 2 (by decide)
  exact ⟨excerpt_jamoInRange, rfl, by decide, rfl, s, it, hs, hit,
    pangoDefaultBreak2_mandatory_iff excerpt [0x41, 0x0A, 0x41] (List.replicate 4 default)
      excerpt_jamoInRange rfl 2 (by decide) 0x41 rfl s hs it hit⟩

/-! Carriage return and line feed, combining marks, joiner sequences. -/

theorem isGraphemeBoundary_crlf (p c : graphemeBreakType) (e m : Bool) :
    isGraphemeBoundary 13 10 p c e m = false := by
  simp [isGraphemeBoundary]

theorem isGraphemeBoundary_after_control (prev r : Int) (c : graphemeBreakType) (e m : Bool)
    (h : prev ≠ 13) : isGraphemeBoundary prev r gbControlCRLF c e m = true := by
  simp [isGraphemeBoundary, h]

theorem turn_earlyCheck_of_isGB (u : UCD) (st : Bool) (s : State) (wc nx : Rune) (b : Bool)
    (a : CharAttr) (h : (turn u st s wc nx b a).isGB = true) :
    (turn u st s wc nx b a).earlyCheck = true := by
  rw [turn_earlyCheck, h]
  simp

/-- Between a carriage return and a line feed: no grapheme boundary, the
cascade is not consulted, and the line feed is handed over as the previous
class, after a control. -/
theorem turn_crlf (u : UCD) (st : Bool) (s : State) (nx : Rune) (b : Bool) (a : CharAttr)
    (hLF : u.LookupBreakClass 0x0A = .LF) (hgc : u.LookupType 0x0A = some .Cc)
    (hn : s.nextBreakType = some (u.LookupBreakClass 0x0A)) (hp : s.prevWc = 0x0D) :
    (turn u st s 0x0A nx b a).attr.lineBreak = false ∧
    (turn u st s 0x0A nx b a).attr.mandatoryBreak = false ∧
    (turn u st s 0x0A nx b a).state.prevBreakType = some .LF ∧
    (turn u st s 0x0A nx b a).state.prevGbType = gbControlCRLF ∧
    (turn u st s 0x0A nx b a).state.prevWc = 0x0A := by
  have hbt : (turn u st s 0x0A nx b a).breakType = some .LF := by
    rw [turn_breakType, hn, hLF]
    rfl
  have hgb : (turn u st s 0x0A nx b a).isGB = false := by
    rw [turn_isGB, hp]
    exact isGraphemeBoundary_crlf _ _ _ _
  have he : (turn u st s 0x0A nx b a).earlyCheck = false := by
    rw [turn_earlyCheck, hgb, hbt]
    decide
  have hg := turn_gated u st s 0x0A nx b a he
  refine ⟨hg.1, hg.2, ?_, ?_, rfl⟩
  · rw [turn_state_prevBreakType, hbt]
    simp [adjustBreakTypes]
  · rw [turn_state_prevGbType, turn_gbType, hgc]
    rfl

/-- Directly after a line feed that is a control: the cascade is consulted and
decides a mandatory break. -/
theorem turn_after_lf (u : UCD) (st : Bool) (s : State) (wc nx : Rune) (b : Bool)
    (a : CharAttr) (hp : s.prevBreakType = some .LF) (hg : s.prevGbType = gbControlCRLF)
    (hw : s.prevWc = 0x0A) : (turn u st s wc nx b a).attr.mandatoryBreak = true := by
  rw [turn_mandatory_iff]
  refine ⟨?_, Or.inr (Or.inl hp)⟩
  apply turn_earlyCheck_of_isGB
  rw [turn_isGB, hg, hw]
  exact isGraphemeBoundary_after_control _ _ _ _ _ (by decide)

/-- The two positions around a line feed that follows a carriage return. -/
theorem pango_crlf (u : UCD) (text : List Rune) (attrs : List CharAttr) (hu : u.JamoInRange)
    (hlen : attrs.length = text.length + 1)
    (hLF : u.LookupBreakClass 0x0A = .LF) (hgc : u.LookupType 0x0A = some .Cc)
    (out : List CharAttr) (ho : pangoDefaultBreak2 u text attrs = some out)
    (i : Nat) (h1 : text[i]? = some 0x0D) (h2 : text[i + 1]? = some 0x0A) :
    (∃ a, out[i + 1]? = some a ∧ a.lineBreak = false ∧ a.mandatoryBreak = false) ∧
    (∃ b, out[i + 2]? = some b ∧ b.mandatoryBreak = true) := by
  have hi : i + 1 < text.length := (List.getElem?_eq_some.1 h2).1
  obtain ⟨out2, ho2, -, hin, -⟩ := pango_spec u text attrs hu (by omega)
  rw [ho] at ho2
  cases ho2
  -- the turn of the carriage return
  obtain ⟨it0, hit0⟩ := iterAt_isSome u text hu i (by omega)
  obtain ⟨s0, nx0, b0, -, -, rfl⟩ := iterAt_inside u text i 0x0D it0 h1 hit0
  have hs1 := stateAt_of_iterAt u text i _ hit0
  -- the turn of the line feed
  obtain ⟨a1, it1, -, hit1, e1⟩ := hin (i + 1) (by omega)
  obtain ⟨s1, nx1, b1, hs1b, hn1, rfl⟩ := iterAt_inside u text (i + 1) 0x0A it1 h2 hit1
  rw [hs1] at hs1b
  cases hs1b
  obtain ⟨f1, f2, f3, f4, f5⟩ := turn_crlf u (decide (i + 1 = 0)) _ nx1 b1 default hLF hgc hn1
    (turn_state_prevWc u _ s0 0x0D nx0 b0 default)
  have hs2 := stateAt_of_iterAt u text (i + 1) _ hit1
  have n1 : ¬ i + 1 = text.length := by omega
  have n2 : ¬ i + 1 = 0 := by omega
  refine ⟨⟨_, e1, by simp only [if_neg n1, if_neg n2, f1], by simp only [if_neg n1, f2]⟩, ?_⟩
  -- the turn after the line feed
  obtain ⟨a2, it2, -, hit2, e2⟩ := hin (i + 2) (by omega)
  refine ⟨_, e2, ?_⟩
  by_cases hN : i + 2 = text.length
  · simp [hN]
  · obtain ⟨s2, w2, nx2, b2, hs2b, -, -, -, rfl⟩ := iterAt_inv_full u text (i + 2) it2 hit2
    rw [hs2] at hs2b
    cases hs2b
    simp only [if_neg hN]
    exact turn_after_lf u _ _ w2 nx2 b2 default f3 f4 f5

theorem list_eq_of_three (l : List CharAttr) (a b c : CharAttr) (hl : l.length = 3)
    (h0 : l[0]? = some a) (h1 : l[1]? = some b) (h2 : l[2]? = some c) : l = [a, b, c] := by
  match l, hl with
  | [x, y, z], _ =>
    simp only [List.getElem?_cons_zero, List.getElem?_cons_succ, Option.some.injEq] at h0 h1 h2
    rw [h0, h1, h2]

/-- C12: wherever U+000D is directly followed by U+000A (classes CR and LF,
general category Cc), the position between them has both flags cleared and the
position after the line feed has `mandatoryBreak` set; on the text CR LF the
output has exactly one mandatory break, at the end. Of the classification only
that of the line feed is used. -/
theorem pangoDefaultBreak2_crlf (u : UCD) (text : List Rune) (attrs attrs2 : List CharAttr)
    (hu : u.JamoInRange) (hlen : attrs.length = text.length + 1) (hlen2 : attrs2.length = 3)
    (hLF : u.LookupBreakClass 0x0A = .LF) (hgcLF : u.LookupType 0x0A = some .Cc) :
    (∃ out, pangoDefaultBreak2 u text attrs = some out ∧
      ∀ i, text[i]? = some (0x0D : Rune) → text[i + 1]? = some (0x0A : Rune) →
        (∃ a, out[i + 1]? = some a ∧ a.lineBreak = false ∧ a.mandatoryBreak = false) ∧
        (∃ b, out[i + 2]? = some b ∧ b.mandatoryBreak = true)) ∧
    (∃ out2, pangoDefaultBreak2 u [0x0D, 0x0A] attrs2 = some out2 ∧
      out2.map CharAttr.lineBreak = [false, false, true] ∧
      out2.map CharAttr.mandatoryBreak = [false, false, true]) := by
  constructor
  · obtain ⟨out, ho, -⟩ := pango_spec u text attrs hu (by omega)
    exact ⟨out, ho, fun i h1 h2 => pango_crlf u text attrs hu hlen hLF hgcLF out ho i h1 h2⟩
  · obtain ⟨out, ho, hl, hin, -⟩ := pango_spec u [0x0D, 0x0A] attrs2 hu (by simp [hlen2])
    obtain ⟨⟨a1, e1, l1, m1⟩, -⟩ := pango_crlf u [0x0D, 0x0A] attrs2 hu (by simp [hlen2]) hLF hgcLF
      out ho 0 rfl rfl
    obtain ⟨a0, it0, -, hit0, e0⟩ := hin 0 (by simp)
    obtain ⟨a2, it2, -, -, e2⟩ := hin 2 (by simp)
    have hm0 := iterAt_zero_mandatory u [0x0D, 0x0A] it0 hit0
    have hout := list_eq_of_three out _ _ _ (by rw [hl, hlen2]) e0 e1 e2
    refine ⟨out, ho, ?_, ?_⟩
    · rw [hout]
      simp [l1]
    · rw [hout]
      simp [m1, hm0]

/-- Witness of C12 on the text `A, CR, LF, A`. -/
theorem pangoDefaultBreak2_crlf_witness :
    excerpt.JamoInRange ∧
    (List.replicate 5 (default : CharAttr)).length =
      [(0x41 : Rune), 0x0D, 0x0A, 0x41].length + 1 ∧
    (List.replicate 3 (default : CharAttr)).length = 3 ∧
    excerpt.LookupBreakClass 0x0A = .LF ∧ excerpt.LookupType 0x0A = some .Cc ∧
    (∃ out, pangoDefaultBreak2 excerpt [0x41, 0x0D, 0x0A, 0x41] (List.replicate 5 default)
        = some out ∧
      ∀ i, [(0x41 : Rune), 0x0D, 0x0A, 0x41][i]? = some (0x0D : Rune) →
        [(0x41 : Rune), 0x0D, 0x0A, 0x41][i + 1]? = some (0x0A : Rune) →
        (∃ a, out[i + 1]? = some a ∧ a.lineBreak = false ∧ a.mandatoryBreak = false) ∧
        (∃ b, out[i + 2]? = some b ∧ b.mandatoryBreak = true)) ∧
    (∃ out2, pangoDefaultBreak2 excerpt [0x0D, 0x0A] (List.replicate 3 default) = some out2 ∧
      out2.map CharAttr.lineBreak = [false, false, true] ∧
      out2.map CharAttr.mandatoryBreak = [false, false, true]) :=
  ⟨excerpt_jamoInRange, rfl, rfl, rfl, rfl,
    pangoDefaultBreak2_crlf excerpt [0x41, 0x0D, 0x0A, 0x41] (List.replicate 5 default)
      (List.replicate 3 default) excerpt_jamoInRange rfl rfl rfl rfl⟩

/-- Rule LB9 closes the cascade before a combining mark whose previous class is
none of BK, CR, LF, NL, SP, ZW. -/
theorem rulesLB30To6_mark (u : UCD) (s : State) (nextBreakType : Option BreakClass)
    (lbType : lineBreakType)
    (h1 : s.prevBreakType ≠ some .BK) (h2 : s.prevBreakType ≠ some .CR)
    (h3 : s.prevBreakType ≠ some .LF) (h4 : s.prevBreakType ≠ some .NL)
    (h5 : s.prevBreakType ≠ some .SP) (h6 : s.prevBreakType ≠ some .ZW) :
    rulesLB30To6 u s (some .CM) nextBreakType
      (if (if s.prevBreakType = some .SP then s.prevPrevBreakType else s.prevBreakType)
          = some .XX then some .AL
        else if s.prevBreakType = some .SP then s.prevPrevBreakType else s.prevBreakType)
      lbType = breakProhibited := by
  have hrow : (if s.prevBreakType = some .XX then some .AL else s.prevBreakType)
      ≠ some .ZW := by
    split
    · decide
    · exact h6
  simp only [rulesLB30To6]
  generalize ruleLB24To22 _ _ _ = op
  simp [ruleLB21To9, ruleLB8, ruleLB7To6, h1, h2, h3, h4, h5, h6, hrow]

/-- A turn on a combining mark after a class other than BK, CR, LF, NL, SP, ZW
leaves both flags cleared. -/
theorem turn_mark (u : UCD) (st : Bool) (s : State) (wc nx : Rune) (b : Bool) (a : CharAttr)
    (hbt : (turn u st s wc nx b a).breakType = some .CM)
    (h1 : s.prevBreakType ≠ some .BK) (h2 : s.prevBreakType ≠ some .CR)
    (h3 : s.prevBreakType ≠ some .LF) (h4 : s.prevBreakType ≠ some .NL)
    (h5 : s.prevBreakType ≠ some .SP) (h6 : s.prevBreakType ≠ some .ZW) :
    (turn u st s wc nx b a).attr.lineBreak = false ∧
      (turn u st s wc nx b a).attr.mandatoryBreak = false := by
  have hE : (turn u st s wc nx b a).earlyCheck = true := by
    rw [turn_earlyCheck, hbt]
    simp
  obtain ⟨hm, hl⟩ := turn_flags u st s wc nx b a hE
  have hnot : ∀ op, (ruleLB5To4 op wc s.prevBreakType).2 = false := by
    intro op
    cases h : (ruleLB5To4 op wc s.prevBreakType).2 with
    | false => rfl
    | true =>
      rcases (ruleLB5To4_snd op wc s.prevBreakType).1 h with h | h | h | h
      · exact absurd h h1
      · exact absurd h h3
      · exact absurd h h4
      · exact absurd h.1 h2
  refine ⟨?_, ?_⟩
  · rw [hl, ruleLB5To4_fst_of_not _ _ _ (hnot _), hbt, turn_rowBreakType,
      rulesLB30To6_mark u s _ _ h1 h2 h3 h4 h5 h6]
  · rw [hm]
    exact hnot _

theorem isGraphemeBoundary_extend (prev r : Int) (p : graphemeBreakType) (e m : Bool)
    (hp : p ≠ gbControlCRLF) : isGraphemeBoundary prev r p gbExtend e m = false := by
  simp [isGraphemeBoundary, hp]

/-- C14, as stated, fails in its grapheme part: after CHARACTER TABULATION, a
control of class BA, rule GB4 reports a grapheme boundary before the combining
acute accent. -/
theorem boundary_before_mark_after_control :
    excerpt2.LookupType 0x0301 = some .Mn ∧ excerpt2.LookupBreakClass 0x0301 = .CM ∧
    (stateAt excerpt2 [0x09, 0x0301] 1).map (fun s => s.prevBreakType) = some (some .BA) ∧
    (iterAt excerpt2 [0x09, 0x0301] 1).map (fun it => it.isGB) = some true := by
  decide

/-- C14, amended: at a position `i >= 1` whose code point is a combining mark
(general category Mn or Me, class CM) and whose previous effective class is
none of BK, CR, LF, NL, SP, ZW, the output has both flags cleared; and the pass
reports no grapheme boundary at `i` when the previous code point is not of
grapheme type ControlCRLF. -/
theorem pangoDefaultBreak2_combining_mark (u : UCD) (text : List Rune)
    (attrs : List CharAttr) (hu : u.JamoInRange) (hlen : attrs.length = text.length + 1)
    (i : Nat) (h0 : 0 < i) (wc : Rune) (hwc : text[i]? = some wc)
    (hgc : u.LookupType wc = some .Mn ∨ u.LookupType wc = some .Me)
    (hcm : u.LookupBreakClass wc = .CM)
    (s : State) (hs : stateAt u text i = some s)
    (hprev : ∀ c ∈ [BreakClass.BK, .CR, .LF, .NL, .SP, .ZW], s.prevBreakType ≠ some c)
    (it : Iteration) (hit : iterAt u text i = some it) :
    (s.prevGbType ≠ gbControlCRLF → it.isGB = false) ∧
    ∃ out a, pangoDefaultBreak2 u text attrs = some out ∧ out[i]? = some a ∧
      a.lineBreak = false ∧ a.mandatoryBreak = false := by
  have hi : i < text.length := (List.getElem?_eq_some.1 hwc).1
  obtain ⟨out, ho, hin⟩ := pango_inside u text attrs hu (by omega)
  obtain ⟨a, it2, hit2, ha, hl, hm⟩ := hin i h0 hi
  rw [hit] at hit2
  cases hit2
  obtain ⟨s2, nx, b, hs2, hnb, rfl⟩ := iterAt_inside u text i wc it hwc hit
  rw [hs] at hs2
  cases hs2
  simp only [List.mem_cons, List.mem_singleton, List.not_mem_nil, or_false, forall_eq_or_imp,
    forall_eq] at hprev
  obtain ⟨p1, p2, p3, p4, p5, p6⟩ := hprev
  have hbt : (turn u (decide (i = 0)) s wc nx b default).breakType = some .CM := by
    rw [turn_breakType, hnb, hcm]
    rfl
  have hgt : (turn u (decide (i = 0)) s wc nx b default).gbType = gbExtend := by
    rw [turn_gbType]
    rcases hgc with h | h <;> rw [h] <;> rfl
  obtain ⟨f1, f2⟩ := turn_mark u _ s wc nx b default hbt p1 p2 p3 p4 p5 p6
  refine ⟨?_, out, a, ho, ha, by rw [hl, f1], by rw [hm, f2]⟩
  intro hne
  rw [turn_isGB, hgt]
  exact isGraphemeBoundary_extend _ _ _ _ _ hne

/-- Witness of the amended C14 on `LATIN SMALL LETTER E, COMBINING ACUTE
ACCENT`. -/
theorem pangoDefaultBreak2_combining_mark_witness :
    excerpt.JamoInRange ∧
    (List.replicate 3 (default : CharAttr)).length = [(0x65 : Rune), 0x0301].length + 1 ∧
    0 < 1 ∧ [(0x65 : Rune), 0x0301][1]? = some 0x0301 ∧
    (excerpt.LookupType 0x0301 = some .Mn ∨ excerpt.LookupType 0x0301 = some .Me) ∧
    excerpt.LookupBreakClass 0x0301 = .CM ∧
    ∃ s it, stateAt excerpt [0x65, 0x0301] 1 = some s ∧
      (∀ c ∈ [BreakClass.BK, .CR, .LF, .NL, .SP, .ZW], s.prevBreakType ≠ some c) ∧
      iterAt excerpt [0x65, 0x0301] 1 = some it ∧
      (s.prevGbType ≠ gbControlCRLF → it.isGB = false) ∧
      ∃ out a, pangoDefaultBreak2 excerpt [0x65, 0x0301] (List.replicate 3 default) = some out ∧
        out[1]? = some a ∧ a.lineBreak = false ∧ a.mandatoryBreak = false := by
  obtain ⟨s, hs⟩ := stateAt_isSome excerpt [0x65, 0x0301] excerpt_jamoInRange 1 (by decide)
  obtain ⟨it, hit⟩ := iterAt_isSome excerpt [0x65, 0x0301] excerpt_jamoInRange 1 (by decide)
  have hp : s.prevBreakType = some .AL := by
    have h : (stateAt excerpt [0x65, 0x0301] 1).map (fun s => s.prevBreakType)
        = some (some .AL) := by decide
    rw [hs] at h
    exact Option.some.inj h
  have hprev : ∀ c ∈ [BreakClass.BK, .CR, .LF, .NL, .SP, .ZW], s.prevBreakType ≠ some c := by
    rw [hp]
    decide
  exact ⟨excerpt_jamoInRange, rfl, by decide, rfl, Or.inl rfl, rfl, s, it, hs, hprev, hit,
    pangoDefaultBreak2_combining_mark excerpt [0x65, 0x0301] (List.replicate 3 default)
      excerpt_jamoInRange rfl 1 (by decide) 0x0301 rfl (Or.inl rfl) rfl s hs hprev it hit⟩

/-- A turn on a pictograph that gets the grapheme type Other hands over an open
pictographic run. -/
theorem turn_pictograph (u : UCD) (st : Bool) (s : State) (wc nx : Rune) (b : Bool)
    (a : CharAttr) (hp : u.Extended_Pictographic wc = true)
    (hg : (turn u st s wc nx b a).gbType = gbOther) :
    (turn u st s wc nx b a).state.metExtendedPictographic = true ∧
    (turn u st s wc nx b a).state.prevGbType = gbOther ∧
    (turn u st s wc nx b a).state.prevWc = wc := by
  refine ⟨?_, ?_, rfl⟩
  · rw [turn_state_met, if_pos hp]
  · rw [turn_state_prevGbType, hg]

/-- A turn on the joiner directly after a pictograph: no grapheme boundary, and
the pictographic run stays open. -/
theorem turn_joiner (u : UCD) (st : Bool) (s : State) (nx : Rune) (b : Bool) (a : CharAttr)
    (hcf : u.LookupType 0x200D = some .Cf)
    (hm : s.metExtendedPictographic = true) (hg : s.prevGbType = gbOther)
    (hp : u.Extended_Pictographic s.prevWc = true) :
    (turn u st s 0x200D nx b a).isGB = false ∧
    (turn u st s 0x200D nx b a).state.metExtendedPictographic = true ∧
    (turn u st s 0x200D nx b a).state.prevGbType = gbZWJ ∧
    (turn u st s 0x200D nx b a).state.prevWc = 0x200D := by
  have hgt : (turn u st s 0x200D nx b a).gbType = gbZWJ := by
    rw [turn_gbType, hcf]
    rfl
  have hmet : (turn u st s 0x200D nx b a).metExtendedPictographic = true := by
    rw [turn_met, if_pos hm, hgt]
    simp [ruleGB11, hp]
  refine ⟨?_, ?_, ?_, rfl⟩
  · rw [turn_isGB, hgt, hg]
    simp [isGraphemeBoundary]
  · rw [turn_state_met, hmet]
    simp
  · rw [turn_state_prevGbType, hgt]

/-- A turn on a pictograph that gets the grapheme type Other directly after the joiner of
an open pictographic run: no grapheme boundary, the run is open when the
pictograph is examined and after it. -/
theorem turn_after_joiner (u : UCD) (st : Bool) (s : State) (wc nx : Rune) (b : Bool)
    (a : CharAttr) (hp : u.Extended_Pictographic wc = true)
    (hgt : (turn u st s wc nx b a).gbType = gbOther)
    (hm : s.metExtendedPictographic = true) (hz : s.prevGbType = gbZWJ)
    (hw : s.prevWc = 0x200D) :
    (turn u st s wc nx b a).isGB = false ∧
    (turn u st s wc nx b a).metExtendedPictographic = true ∧
    (turn u st s wc nx b a).state.metExtendedPictographic = true := by
  have hmet : (turn u st s wc nx b a).metExtendedPictographic = true := by
    rw [turn_met, if_pos hm, hgt, hz, hp]
    simp [ruleGB11]
  refine ⟨?_, hmet, ?_⟩
  · rw [turn_isGB, hgt, hmet, hz, hw, hp]
    simp [isGraphemeBoundary]
  · rw [turn_state_met, if_pos hp]

/-- C15: in a text with three consecutive code points P1, U+200D, P2, where P1
and P2 are Extended_Pictographic and get the grapheme type Other in the pass,
and U+200D has general category Cf, the pass reports no grapheme boundary before
the joiner nor before P2, and `metExtendedPictographic` is true when P2 is
examined and after P2 has been processed. -/
theorem pangoDefaultBreak2_emoji_zwj (u : UCD) (text : List Rune) (hu : u.JamoInRange)
    (i : Nat) (P1 P2 : Rune)
    (h1 : text[i]? = some P1) (hz : text[i + 1]? = some (0x200D : Rune))
    (h2 : text[i + 2]? = some P2)
    (hp1 : u.Extended_Pictographic P1 = true) (hp2 : u.Extended_Pictographic P2 = true)
    (hg1 : ∀ it, iterAt u text i = some it → it.gbType = gbOther)
    (hg2 : ∀ it, iterAt u text (i + 2) = some it → it.gbType = gbOther)
    (hcf : u.LookupType 0x200D = some .Cf) :
    ∃ itZ it2, iterAt u text (i + 1) = some itZ ∧ iterAt u text (i + 2) = some it2 ∧
      itZ.isGB = false ∧ it2.isGB = false ∧
      it2.metExtendedPictographic = true ∧ it2.state.metExtendedPictographic = true := by
  have hi : i + 2 < text.length := (List.getElem?_eq_some.1 h2).1
  obtain ⟨it0, hit0⟩ := iterAt_isSome u text hu i (by omega)
  obtain ⟨itZ, hitZ⟩ := iterAt_isSome u text hu (i + 1) (by omega)
  obtain ⟨it2, hit2⟩ := iterAt_isSome u text hu (i + 2) (by omega)
  have g0 := hg1 it0 hit0
  have g2 := hg2 it2 hit2
  refine ⟨itZ, it2, hitZ, hit2, ?_⟩
  obtain ⟨s0, nx0, b0, -, -, rfl⟩ := iterAt_inside u text i P1 it0 h1 hit0
  have hs1 := stateAt_of_iterAt u text i _ hit0
  obtain ⟨a1, a2, a3⟩ := turn_pictograph u (decide (i = 0)) s0 P1 nx0 b0 default hp1 g0
  obtain ⟨s1, nx1, b1, hs1b, -, rfl⟩ := iterAt_inside u text (i + 1) 0x200D itZ hz hitZ
  rw [hs1] at hs1b
  cases hs1b
  have hs2 := stateAt_of_iterAt u text (i + 1) _ hitZ
  obtain ⟨z1, z2, z3, z4⟩ := turn_joiner u (decide (i + 1 = 0)) _ nx1 b1 default hcf a1 a2
    (by rw [a3]; exact hp1)
  obtain ⟨s2, nx2, b2, hs2b, -, rfl⟩ := iterAt_inside u text (i + 2) P2 it2 h2 hit2
  rw [hs2] at hs2b
  cases hs2b
  obtain ⟨q1, q2, q3⟩ := turn_after_joiner u (decide (i + 2 = 0)) _ P2 nx2 b2 default hp2 g2
    z2 z3 z4
  exact ⟨z1, q1, q2, q3⟩

/-- Witness of C15 on `A, WOMAN, ZERO WIDTH JOINER, PERSONAL COMPUTER`. -/
theorem pangoDefaultBreak2_emoji_zwj_witness :
    excerpt2.JamoInRange ∧
    [(0x41 : Rune), 0x1F469, 0x200D, 0x1F4BB][1]? = some 0x1F469 ∧
    [(0x41 : Rune), 0x1F469, 0x200D, 0x1F4BB][1 + 1]? = some (0x200D : Rune) ∧
    [(0x41 : Rune), 0x1F469, 0x200D, 0x1F4BB][1 + 2]? = some 0x1F4BB ∧
    excerpt2.Extended_Pictographic 0x1F469 = true ∧
    excerpt2.Extended_Pictographic 0x1F4BB = true ∧
    (∀ it, iterAt excerpt2 [0x41, 0x1F469, 0x200D, 0x1F4BB] 1 = some it →
      it.gbType = gbOther) ∧
    (∀ it, iterAt excerpt2 [0x41, 0x1F469, 0x200D, 0x1F4BB] (1 + 2) = some it →
      it.gbType = gbOther) ∧
    excerpt2.LookupType 0x200D = some .Cf ∧
    ∃ itZ it2, iterAt excerpt2 [0x41, 0x1F469, 0x200D, 0x1F4BB] (1 + 1) = some itZ ∧
      iterAt excerpt2 [0x41, 0x1F469, 0x200D, 0x1F4BB] (1 + 2) = some it2 ∧
      itZ.isGB = false ∧ it2.isGB = false ∧
      it2.metExtendedPictographic = true ∧ it2.state.metExtendedPictographic = true := by
  have g1 : ∀ it, iterAt excerpt2 [0x41, 0x1F469, 0x200D, 0x1F4BB] 1 = some it →
      it.gbType = gbOther := by
    intro it hit
    have h : (iterAt excerpt2 [0x41, 0x1F469, 0x200D, 0x1F4BB] 1).map (fun it => it.gbType) =
        some gbOther := by decide
    rw [hit] at h
    exact Option.some.inj h
  have g2 : ∀ it, iterAt excerpt2 [0x41, 0x1F469, 0x200D, 0x1F4BB] (1 + 2) = some it →
      it.gbType = gbOther := by
    intro it hit
    have h : (iterAt excerpt2 [0x41, 0x1F469, 0x200D, 0x1F4BB] (1 + 2)).map
        (fun it => it.gbType) = some gbOther := by decide
    rw [hit] at h
    exact Option.some.inj h
  exact ⟨excerpt2_jamoInRange, rfl, rfl, rfl, by decide, by decide, g1, g2, by decide,
    pangoDefaultBreak2_emoji_zwj excerpt2 [0x41, 0x1F469, 0x200D, 0x1F4BB] excerpt2_jamoInRange
      1 0x1F469 0x1F4BB rfl rfl rfl (by decide) (by decide) g1 g2 (by decide)⟩

/-! The text `A SPACE B`. -/

theorem ruleLB7To6_closed (op : breakOpportunity) (breakType : Option BreakClass)
    (h : breakType = some .SP ∨ breakType = some .ZW ∨ breakType = some .BK ∨
      breakType = some .CR ∨ breakType = some .LF ∨ breakType = some .NL) :
    ruleLB7To6 op breakType = breakProhibited := by
  rcases h with h | h | h | h | h | h <;> rw [h] <;> simp [ruleLB7To6]

/-- Rules LB7 and LB6 in a turn: before a space, a zero width space or a
mandatory-break class there is no break, unless rules LB4 and LB5 apply. -/
theorem turn_before_space (u : UCD) (st : Bool) (s : State) (wc nx : Rune) (b : Bool)
    (a : CharAttr)
    (hbt : (turn u st s wc nx b a).breakType = some .SP ∨
      (turn u st s wc nx b a).breakType = some .ZW ∨
      (turn u st s wc nx b a).breakType = some .BK ∨
      (turn u st s wc nx b a).breakType = some .CR ∨
      (turn u st s wc nx b a).breakType = some .LF ∨
      (turn u st s wc nx b a).breakType = some .NL)
    (hm : (turn u st s wc nx b a).attr.mandatoryBreak = false) :
    (turn u st s wc nx b a).attr.lineBreak = false := by
  cases hE : (turn u st s wc nx b a).earlyCheck with
  | false => exact (turn_gated u st s wc nx b a hE).1
  | true =>
    obtain ⟨h1, h2⟩ := turn_flags u st s wc nx b a hE
    rw [h1] at hm
    rw [h2, ruleLB5To4_fst_of_not _ _ _ hm]
    simp only [rulesLB30To6]
    rw [ruleLB7To6_closed _ _ hbt]

/-- Rule LB18 between a letter, a space and a letter: the break is allowed. -/
theorem rulesLB30To6_after_space (u : UCD) (s : State) (nextBreakType : Option BreakClass)
    (lbType : lineBreakType) (hp : s.prevBreakType = some .SP) (hw : s.prevWc = 0x20) :
    rulesLB30To6 u s (some .AL) nextBreakType (some .AL) lbType = breakAllowed := by
  simp only [rulesLB30To6]
  generalize ruleLB24To22 _ _ _ = op
  simp [ruleLB21To9, ruleLB8, ruleLB7To6, hp, hw]

theorem list_eq_of_four (l : List CharAttr) (a b c d : CharAttr) (hl : l.length = 4)
    (h0 : l[0]? = some a) (h1 : l[1]? = some b) (h2 : l[2]? = some c) (h3 : l[3]? = some d) :
    l = [a, b, c, d] := by
  match l, hl with
  | [x, y, z, w], _ =>
    simp only [List.getElem?_cons_zero, List.getElem?_cons_succ, Option.some.injEq]
      at h0 h1 h2 h3
    rw [h0, h1, h2, h3]

/-- C11: on the text U+0041 U+0020 U+0042 (classes AL, SP, AL; the space of
category Zs and the second letter of category Lu, neither a control nor a
mark) the pass leaves `lineBreak = [false, false, true, true]` and
`mandatoryBreak = [false, false, false, true]`. -/
theorem pangoDefaultBreak2_A_space_B (u : UCD) (attrs : List CharAttr) (hu : u.JamoInRange)
    (hlen : attrs.length = [(0x41 : Rune), 0x20, 0x42].length + 1)
    (hA : u.LookupBreakClass 0x41 = .AL) (hS : u.LookupBreakClass 0x20 = .SP)
    (hB : u.LookupBreakClass 0x42 = .AL)
    (gS : u.LookupType 0x20 = some .Zs) (gB : u.LookupType 0x42 = some .Lu) :
    ∃ out, pangoDefaultBreak2 u [0x41, 0x20, 0x42] attrs = some out ∧
      out.map CharAttr.lineBreak = [false, false, true, true] ∧
      out.map CharAttr.mandatoryBreak = [false, false, false, true] := by
  obtain ⟨out, ho, hl, hin, -⟩ := pango_spec u [0x41, 0x20, 0x42] attrs hu (by omega)
  obtain ⟨a0, it0, -, hit0, e0⟩ := hin 0 (by simp)
  obtain ⟨a1, it1, -, hit1, e1⟩ := hin 1 (by simp)
  obtain ⟨a2, it2, -, hit2, e2⟩ := hin 2 (by simp)
  obtain ⟨a3, it3, -, -, e3⟩ := hin 3 (by simp)
  have hm0 := iterAt_zero_mandatory u _ it0 hit0
  -- the turn of the first letter
  obtain ⟨s0, nx0, b0, hs0, hn0, rfl⟩ := iterAt_inside u _ 0 0x41 it0 rfl hit0
  have hs1 := stateAt_of_iterAt u _ 0 _ hit0
  have bt0 : (turn u (decide (0 = 0)) s0 0x41 nx0 b0 default).breakType = some .AL := by
    rw [turn_breakType, hn0, hA]
    rfl
  have p1 : (turn u (decide (0 = 0)) s0 0x41 nx0 b0 default).state.prevBreakType = some .AL := by
    rw [turn_state_prevBreakType, bt0]
    simp [adjustBreakTypes]
  -- the turn of the space
  obtain ⟨s1, nx1, b1, hs1b, hn1, rfl⟩ := iterAt_inside u _ 1 0x20 it1 rfl hit1
  rw [hs1] at hs1b
  cases hs1b
  have hs2 := stateAt_of_iterAt u _ 1 _ hit1
  have bt1 : (turn u (decide (1 = 0)) (turn u (decide (0 = 0)) s0 0x41 nx0 b0 default).state
      0x20 nx1 b1 default).breakType = some .SP := by
    rw [turn_breakType, hn1, hS]
    rfl
  have m1 : (turn u (decide (1 = 0)) (turn u (decide (0 = 0)) s0 0x41 nx0 b0 default).state
      0x20 nx1 b1 default).attr.mandatoryBreak = false := by
    rw [Bool.eq_false_iff]
    intro h
    rw [turn_mandatory_iff, p1] at h
    simp at h
  have l1 := turn_before_space u _ _ 0x20 nx1 b1 default (Or.inl bt1) m1
  have p2 : (turn u (decide (1 = 0)) (turn u (decide (0 = 0)) s0 0x41 nx0 b0 default).state
      0x20 nx1 b1 default).state.prevBreakType = some .SP := by
    rw [turn_state_prevBreakType, bt1, p1]
    simp [adjustBreakTypes]
  have pp2 : (turn u (decide (1 = 0)) (turn u (decide (0 = 0)) s0 0x41 nx0 b0 default).state
      0x20 nx1 b1 default).state.prevPrevBreakType = some .AL := by
    rw [turn_state_prevPrevBreakType, bt1, p1]
    simp [adjustBreakTypes]
  have g2 : (turn u (decide (1 = 0)) (turn u (decide (0 = 0)) s0 0x41 nx0 b0 default).state
      0x20 nx1 b1 default).state.prevGbType = gbOther := by
    rw [turn_state_prevGbType, turn_gbType, gS]
    rfl
  have w2 : (turn u (decide (1 = 0)) (turn u (decide (0 = 0)) s0 0x41 nx0 b0 default).state
      0x20 nx1 b1 default).state.prevWc = 0x20 := rfl
  -- the turn of the second letter
  obtain ⟨s2, nx2, b2, hs2b, hn2, rfl⟩ := iterAt_inside u _ 2 0x42 it2 rfl hit2
  rw [hs2] at hs2b
  cases hs2b
  generalize (turn u (decide (1 = 0)) (turn u (decide (0 = 0)) s0 0x41 nx0 b0 default).state
      0x20 nx1 b1 default).state = s2 at p2 pp2 g2 w2 hn2 e2
  have gt2 : (turn u (decide (2 = 0)) s2 0x42 nx2 b2 default).gbType = gbOther := by
    rw [turn_gbType, gB]
    rfl
  have E2 : (turn u (decide (2 = 0)) s2 0x42 nx2 b2 default).earlyCheck = true := by
    apply turn_earlyCheck_of_isGB
    rw [turn_isGB, gt2, g2, w2]
    simp [isGraphemeBoundary]
  have bt2 : (turn u (decide (2 = 0)) s2 0x42 nx2 b2 default).breakType = some .AL := by
    rw [turn_breakType, hn2, hB]
    rfl
  have row2 : (turn u (decide (2 = 0)) s2 0x42 nx2 b2 default).rowBreakType = some .AL := by
    rw [turn_rowBreakType, p2, pp2]
    simp
  obtain ⟨m2, l2⟩ := turn_flags u _ s2 0x42 nx2 b2 default E2
  rw [bt2, row2, rulesLB30To6_after_space u s2 _ _ p2 w2, p2] at m2 l2
  have l2b : (turn u (decide (2 = 0)) s2 0x42 nx2 b2 default).attr.lineBreak = true := by
    rw [l2]
    rfl
  have m2b : (turn u (decide (2 = 0)) s2 0x42 nx2 b2 default).attr.mandatoryBreak = false := by
    rw [m2]
    rfl
  have f0 : out[0]? = some ⟨false, false, a0.others⟩ := by
    rw [e0, hm0]
    rfl
  have f1 : out[1]? = some ⟨false, false, a1.others⟩ := by
    rw [e1, l1, m1]
    rfl
  have f2 : out[2]? = some ⟨true, false, a2.others⟩ := by
    rw [e2, l2b, m2b]
    rfl
  have f3 : out[3]? = some ⟨true, true, a3.others⟩ := by
    rw [e3]
    rfl
  have hout := list_eq_of_four out _ _ _ _ (by rw [hl, hlen]; rfl) f0 f1 f2 f3
  refine ⟨out, ho, ?_, ?_⟩
  · rw [hout]
    rfl
  · rw [hout]
    rfl

/-- Witness of C11 with the property data of the excerpt. -/
theorem pangoDefaultBreak2_A_space_B_witness :
    excerpt.JamoInRange ∧
    (List.replicate 4 (default : CharAttr)).length = [(0x41 : Rune), 0x20, 0x42].length + 1 ∧
    excerpt.LookupBreakClass 0x41 = .AL ∧ excerpt.LookupBreakClass 0x20 = .SP ∧
    excerpt.LookupBreakClass 0x42 = .AL ∧
    excerpt.LookupType 0x20 = some .Zs ∧ excerpt.LookupType 0x42 = some .Lu ∧
    ∃ out, pangoDefaultBreak2 excerpt [0x41, 0x20, 0x42] (List.replicate 4 default) = some out ∧
      out.map CharAttr.lineBreak = [false, false, true, true] ∧
      out.map CharAttr.mandatoryBreak = [false, false, false, true] :=
  ⟨excerpt_jamoInRange, rfl, rfl, rfl, rfl, rfl, rfl,
    pangoDefaultBreak2_A_space_B excerpt (List.replicate 4 default) excerpt_jamoInRange rfl
      rfl rfl rfl rfl rfl⟩

/-! Runs of regional indicators. -/

/-- The cascade between two regional indicators: only rule LB30a can apply. -/
theorem rulesLB30To6_ri (u : UCD) (s : State) (nextBreakType : Option BreakClass)
    (lbType : lineBreakType) (hp : s.prevBreakType = some .RI) (hw : s.prevWc ≠ 0x200D) :
    rulesLB30To6 u s (some .RI) nextBreakType (some .RI) lbType =
      if s.prevLbType = lbRiOdd ∧ lbType = lbRiEven then breakProhibited
      else breakAlreadyHandled := by
  by_cases h : s.prevLbType = lbRiOdd ∧ lbType = lbRiEven
  · simp [rulesLB30To6, ruleLB30, ruleLB30ab, ruleLB29To26, ruleLB25, ruleLB24To22, ruleLB21To9,
      ruleLB8, ruleLB7To6, hp, hw, h]
  · simp [rulesLB30To6, ruleLB30, ruleLB30ab, ruleLB29To26, ruleLB25, ruleLB24To22, ruleLB21To9,
      ruleLB8, ruleLB7To6, hp, hw, h]

/-- What a turn on a regional indicator hands over. -/
theorem turn_ri_state (u : UCD) (st : Bool) (s : State) (wc : Int) (nx : Rune) (b : Bool)
    (a : CharAttr) (h1 : 0x1F1E6 ≤ wc) (h2 : wc ≤ 0x1F1FF)
    (hgc : u.LookupType wc = some .So) (hn : s.nextBreakType = some .RI)
    (hx : u.Extended_Pictographic wc = false) (hm : s.metExtendedPictographic = false) :
    (turn u st s wc nx b a).breakType = some .RI ∧
    (turn u st s wc nx b a).earlyCheck = true ∧
    (turn u st s wc nx b a).state.metExtendedPictographic = false ∧
    (turn u st s wc nx b a).state.prevBreakType = some .RI ∧
    (turn u st s wc nx b a).state.prevWc ≠ 0x200D ∧
    (turn u st s wc nx b a).state.prevGbType =
      (if s.prevGbType = gbRiOdd then gbRiEven else gbRiOdd) ∧
    (turn u st s wc nx b a).state.prevLbType =
      (if s.prevLbType = lbRiOdd then lbRiEven else lbRiOdd) := by
  have hbt : (turn u st s wc nx b a).breakType = some .RI := by
    rw [turn_breakType, hn]
    rfl
  have hE : (turn u st s wc nx b a).earlyCheck = true := by
    rw [turn_earlyCheck, hbt]
    simp
  refine ⟨hbt, hE, ?_, ?_, ?_, ?_, ?_⟩
  · rw [turn_state_met, turn_met, hx, hm]
    simp
  · rw [turn_state_prevBreakType, hbt]
    simp [adjustBreakTypes]
  · rw [turn_state_prevWc]
    intro h
    rw [h] at h1
    exact absurd h1 (by decide)
  · rw [turn_state_prevGbType, turn_gbType, hgc]
    simp [graphemeType, h1, h2]
  · rw [turn_state_prevLbType, hE, hbt]
    simp [newlineBreakType]

/-- The flags of a turn on a regional indicator that follows another one. -/
theorem turn_ri_flags (u : UCD) (st : Bool) (s : State) (wc nx : Rune) (b : Bool)
    (a : CharAttr) (hbt : (turn u st s wc nx b a).breakType = some .RI)
    (hp : s.prevBreakType = some .RI) (hw : s.prevWc ≠ 0x200D) :
    (turn u st s wc nx b a).attr.lineBreak = !(decide (s.prevLbType = lbRiOdd)) := by
  have hE : (turn u st s wc nx b a).earlyCheck = true := by
    rw [turn_earlyCheck, hbt]
    simp
  have hrow : (turn u st s wc nx b a).rowBreakType = some .RI := by
    rw [turn_rowBreakType, hp]
    simp
  obtain ⟨-, hl⟩ := turn_flags u st s wc nx b a hE
  rw [hl, hbt, hrow, rulesLB30To6_ri u s _ _ hp hw, hp]
  by_cases h : s.prevLbType = lbRiOdd
  · simp [h, newlineBreakType, ruleLB5To4]
  · simp [h, ruleLB5To4]

/-- The carried variables along a text of regional indicators: the parity of
the run is carried by the grapheme type and by the run state. -/
theorem ri_trace (u : UCD) (text : List Rune) (hu : u.JamoInRange)
    (hri : ∀ r : Int, r ∈ text → (0x1F1E6 ≤ r ∧ r ≤ 0x1F1FF) ∧ u.LookupType r = some .So ∧
      u.LookupBreakClass r = .RI ∧ u.Extended_Pictographic r = false) :
    ∀ i, i ≤ text.length → ∃ s, stateAt u text i = some s ∧
      s.metExtendedPictographic = false ∧
      (0 < i → s.prevBreakType = some .RI ∧ s.prevWc ≠ 0x200D) ∧
      (i % 2 = 1 → s.prevGbType = gbRiOdd ∧ s.prevLbType = lbRiOdd) ∧
      (i % 2 = 0 → s.prevGbType ≠ gbRiOdd ∧ s.prevLbType ≠ lbRiOdd) ∧
      (i % 2 = 0 → 0 < i → s.prevGbType = gbRiEven ∧ s.prevLbType = lbRiEven) := by
  intro i
  induction i with
  | zero =>
    intro _
    obtain ⟨s, hs⟩ := initState_isSome u text
    refine ⟨s, hs, ?_, ?_, ?_, ?_, ?_⟩
    · simp only [initState, Option.bind_eq_bind, Option.bind_eq_some] at hs
      obtain ⟨w, -, hs⟩ := hs
      cases hs
      rfl
    · intro h
      omega
    · intro h
      omega
    · intro _
      simp only [initState, Option.bind_eq_bind, Option.bind_eq_some] at hs
      obtain ⟨w, -, hs⟩ := hs
      cases hs
      exact ⟨fun h => (by cases h), fun h => (by cases h)⟩
    · intro _ h
      omega
  | succ i ih =>
    intro hi
    obtain ⟨s, hs, hm, hprev, hodd, heven, heven2⟩ := ih (by omega)
    have hlt : i < text.length := by omega
    have hwc : text[i]? = some text[i] := List.getElem?_eq_getElem hlt
    obtain ⟨⟨r1, r2⟩, rgc, rcl, rx⟩ := hri text[i] (List.getElem?_mem hwc)
    obtain ⟨it, hit⟩ := iterAt_isSome u text hu i (by omega)
    obtain ⟨s2, nx, b, hs2, hn, rfl⟩ := iterAt_inside u text i text[i] it hwc hit
    rw [hs] at hs2
    cases hs2
    rw [rcl] at hn
    obtain ⟨-, -, t1, t2, t3, t4, t5⟩ := turn_ri_state u (decide (i = 0)) s text[i] nx b default
      r1 r2 rgc hn rx hm
    refine ⟨_, stateAt_of_iterAt u text i _ hit, t1, fun _ => ⟨t2, t3⟩, ?_, ?_, ?_⟩
    · intro hp
      obtain ⟨e1, e2⟩ := heven (by omega)
      rw [t4, t5, if_neg e1, if_neg e2]
      exact ⟨rfl, rfl⟩
    · intro hp
      obtain ⟨e1, e2⟩ := hodd (by omega)
      rw [t4, t5, if_pos e1, if_pos e2]
      exact ⟨by decide, by decide⟩
    · intro hp _
      obtain ⟨e1, e2⟩ := hodd (by omega)
      rw [t4, t5, if_pos e1, if_pos e2]
      exact ⟨rfl, rfl⟩

/-- C13: in a text made of `k` regional indicators (U+1F1E6..U+1F1FF, general
category So, class RI, not Extended_Pictographic) `lineBreak` at an interior
position `j`, `0 < j < k`, is true exactly when `j` is even, and after each
complete pair the grapheme type and the run state carried on are
RegionalIndicatorEven. Interior positions and pairs exist once `k >= 2`. -/
theorem pangoDefaultBreak2_regional_indicators (u : UCD) (text : List Rune)
    (attrs : List CharAttr) (hu : u.JamoInRange) (hlen : attrs.length = text.length + 1)
    (hri : ∀ r : Int, r ∈ text → (0x1F1E6 ≤ r ∧ r ≤ 0x1F1FF) ∧ u.LookupType r = some .So ∧
      u.LookupBreakClass r = .RI ∧ u.Extended_Pictographic r = false) :
    ∃ out, pangoDefaultBreak2 u text attrs = some out ∧
      (∀ j, 0 < j → j < text.length →
        ∃ a, out[j]? = some a ∧ (a.lineBreak = true ↔ j % 2 = 0)) ∧
      (∀ j, j < text.length → j % 2 = 1 →
        ∃ s, stateAt u text (j + 1) = some s ∧
          s.prevGbType = gbRiEven ∧ s.prevLbType = lbRiEven) := by
  obtain ⟨out, ho, hin⟩ := pango_inside u text attrs hu (by omega)
  refine ⟨out, ho, ?_, ?_⟩
  · intro j h0 hj
    obtain ⟨a, it, hit, ha, hl, -⟩ := hin j h0 hj
    refine ⟨a, ha, ?_⟩
    obtain ⟨s, hs, hm, hprev, hodd, heven, -⟩ := ri_trace u text hu hri j (by omega)
    have hwc : text[j]? = some text[j] := List.getElem?_eq_getElem hj
    obtain ⟨⟨r1, r2⟩, rgc, rcl, rx⟩ := hri text[j] (List.getElem?_mem hwc)
    obtain ⟨s2, nx, b, hs2, hn, rfl⟩ := iterAt_inside u text j text[j] it hwc hit
    rw [hs] at hs2
    cases hs2
    rw [rcl] at hn
    obtain ⟨hbt, -⟩ := turn_ri_state u (decide (j = 0)) s text[j] nx b default
      r1 r2 rgc hn rx hm
    obtain ⟨p1, p2⟩ := hprev h0
    rw [hl, turn_ri_flags u _ s text[j] nx b default hbt p1 p2]
    by_cases hpar : j % 2 = 0
    · simp [hpar, (heven hpar).2]
    · have h1 : j % 2 = 1 := by omega
      simp [hpar, (hodd h1).2]
  · intro j hj hpar
    obtain ⟨s, hs, -, -, -, -, h⟩ := ri_trace u text hu hri (j + 1) (by omega)
    exact ⟨s, hs, h (by omega) (by omega)⟩

/-- Witness of C13 on three regional indicators, U S A. -/
theorem pangoDefaultBreak2_regional_indicators_witness :
    excerpt.JamoInRange ∧
    (List.replicate 4 (default : CharAttr)).length =
      [(0x1F1FA : Rune), 0x1F1F8, 0x1F1E6].length + 1 ∧
    (∀ r : Int, r ∈ [(0x1F1FA : Rune), 0x1F1F8, 0x1F1E6] →
      (0x1F1E6 ≤ r ∧ r ≤ 0x1F1FF) ∧ excerpt.LookupType r = some .So ∧
      excerpt.LookupBreakClass r = .RI ∧ excerpt.Extended_Pictographic r = false) ∧
    ∃ out, pangoDefaultBreak2 excerpt [0x1F1FA, 0x1F1F8, 0x1F1E6] (List.replicate 4 default)
        = some out ∧
      (∀ j, 0 < j → j < [(0x1F1FA : Rune), 0x1F1F8, 0x1F1E6].length →
        ∃ a, out[j]? = some a ∧ (a.lineBreak = true ↔ j % 2 = 0)) ∧
      (∀ j, j < [(0x1F1FA : Rune), 0x1F1F8, 0x1F1E6].length → j % 2 = 1 →
        ∃ s, stateAt excerpt [0x1F1FA, 0x1F1F8, 0x1F1E6] (j + 1) = some s ∧
          s.prevGbType = gbRiEven ∧ s.prevLbType = lbRiEven) :=
  ⟨excerpt_jamoInRange, rfl, by decide,
    pangoDefaultBreak2_regional_indicators excerpt [0x1F1FA, 0x1F1F8, 0x1F1E6]
      (List.replicate 4 default) excerpt_jamoInRange rfl (by decide)⟩

/-! The grapheme rules and the Jamo table, function by function. -/

/-- C22: `isGraphemeBoundary` applies its first rules in strict order. It
answers false when `prev` is U+000D and the current rune U+000A, whatever the
other arguments; otherwise true when either grapheme type is ControlCRLF,
whatever the current type; otherwise false when the current type is
InHangulSyllable, Extend, ZWJ or SpacingMark, or the previous type Prepend. -/
theorem isGraphemeBoundary_first_rules (prev r : Rune) (prevGbType gbType : graphemeBreakType)
    (isExtendedPictographic metExtendedPictographic : Bool) :
    (prev = 0x0D → r = 0x0A →
      isGraphemeBoundary prev r prevGbType gbType isExtendedPictographic
        metExtendedPictographic = false) ∧
    (¬ (r = 0x0A ∧ prev = 0x0D) → (prevGbType = gbControlCRLF ∨ gbType = gbControlCRLF) →
      isGraphemeBoundary prev r prevGbType gbType isExtendedPictographic
        metExtendedPictographic = true) ∧
    (¬ (r = 0x0A ∧ prev = 0x0D) → prevGbType ≠ gbControlCRLF → gbType ≠ gbControlCRLF →
      (gbType = gbInHangulSyllable ∨ gbType = gbExtend ∨ gbType = gbZWJ ∨
        gbType = gbSpacingMark ∨ prevGbType = gbPrepend) →
      isGraphemeBoundary prev r prevGbType gbType isExtendedPictographic
        metExtendedPictographic = false) := by
  refine ⟨?_, ?_, ?_⟩
  · intro h1 h2
    simp [isGraphemeBoundary, h1, h2]
  · intro h1 h2
    unfold isGraphemeBoundary
    rw [if_neg h1, if_pos h2]
  · intro h1 h2 h3 h4
    have h5 : ¬ (prevGbType = gbControlCRLF ∨ gbType = gbControlCRLF) := by
      intro h
      rcases h with h | h
      · exact h2 h
      · exact h3 h
    unfold isGraphemeBoundary
    rw [if_neg h1, if_neg h5]
    rcases h4 with h | h | h | h | h
    · simp [h]
    · simp [h]
    · simp [h]
    · simp [h]
    · simp [h]

/-- Witness of C22: CR LF between a control and a mark; a mark after a
tabulation; a spacing mark after a letter. -/
theorem isGraphemeBoundary_first_rules_witness :
    ((0x0D : Rune) = 0x0D ∧ (0x0A : Rune) = 0x0A ∧
      isGraphemeBoundary 0x0D 0x0A gbControlCRLF gbExtend true true = false) ∧
    (¬ ((0x0301 : Rune) = 0x0A ∧ (0x09 : Rune) = 0x0D) ∧
      (gbControlCRLF = gbControlCRLF ∨ gbExtend = gbControlCRLF) ∧
      isGraphemeBoundary 0x09 0x0301 gbControlCRLF gbExtend false false = true) ∧
    (¬ ((0x0903 : Rune) = 0x0A ∧ (0x0915 : Rune) = 0x0D) ∧
      gbOther ≠ gbControlCRLF ∧ gbSpacingMark ≠ gbControlCRLF ∧
      (gbSpacingMark = gbInHangulSyllable ∨ gbSpacingMark = gbExtend ∨
        gbSpacingMark = gbZWJ ∨ gbSpacingMark = gbSpacingMark ∨ gbOther = gbPrepend) ∧
      isGraphemeBoundary 0x0915 0x0903 gbOther gbSpacingMark false false = false) :=
  ⟨⟨rfl, rfl, (isGraphemeBoundary_first_rules 0x0D 0x0A gbControlCRLF gbExtend true true).1
      rfl rfl⟩,
    ⟨by decide, by decide,
      (isGraphemeBoundary_first_rules 0x09 0x0301 gbControlCRLF gbExtend false false).2.1
        (by decide) (by decide)⟩,
    ⟨by decide, by decide, by decide, by decide,
      (isGraphemeBoundary_first_rules 0x0915 0x0903 gbOther gbSpacingMark false false).2.2
        (by decide) (by decide) (by decide) (by decide)⟩⟩

/-- C23, as stated, fails: the branch of rule GB11 is tested before the branch
of rules GB12 and GB13, so that with `isExtendedPictographic` set a call with
previous type RegionalIndicatorOdd and current type RegionalIndicatorEven
answers that there is a boundary. -/
theorem isGraphemeBoundary_ri_pictographic :
    isGraphemeBoundary 0x1F1E6 0x1F1E7 gbRiOdd gbRiEven true false = true ∧
    isGraphemeBoundary 0x1F1E6 0x1F1E7 gbRiOdd gbRiEven true true = true := by
  decide

/-- C23, amended: a call of `isGraphemeBoundary` whose previous type is
RegionalIndicatorOdd, whose current type is RegionalIndicatorEven and whose
current rune is not Extended_Pictographic answers that there is no boundary,
whatever the remaining arguments; when the current rune is
Extended_Pictographic it answers that there is no boundary exactly when `prev`
is U+000D and the current rune U+000A (rule GB3), and that there is a boundary
otherwise. -/
theorem isGraphemeBoundary_ri_pair (prev r : Rune) (metExtendedPictographic : Bool) :
    isGraphemeBoundary prev r gbRiOdd gbRiEven false metExtendedPictographic = false ∧
    (isGraphemeBoundary prev r gbRiOdd gbRiEven true metExtendedPictographic = false ↔
      (r = 0x0A ∧ prev = 0x0D)) ∧
    (isGraphemeBoundary prev r gbRiOdd gbRiEven true metExtendedPictographic = true ↔
      ¬ (r = 0x0A ∧ prev = 0x0D)) := by
  refine ⟨by simp [isGraphemeBoundary], ?_, ?_⟩
  · by_cases h : r = 10 ∧ prev = 13
    · simp [isGraphemeBoundary, h]
    · simp only [isGraphemeBoundary, if_neg h]
      simp [h]
  · by_cases h : r = 10 ∧ prev = 13
    · simp [isGraphemeBoundary, h]
    · simp only [isGraphemeBoundary, if_neg h]
      simp [h]

/-- C27: `isHangul` answers false whenever `jamo` is `NO_JAMO`, and otherwise
true exactly when the `End` entry of the row of `prevJamo` equals the `Start`
entry of the row of `jamo` or is one less than it. -/
theorem isHangul_table (u : UCD) (prevJamo jamo : JamoType) :
    (jamo = u.NO_JAMO → isHangul u prevJamo jamo = some false) ∧
    (jamo ≠ u.NO_JAMO → ∀ p q, u.jamoProps prevJamo = some p → u.jamoProps jamo = some q →
      isHangul u prevJamo jamo = some (decide (p.End = q.Start ∨ p.End + 1 = q.Start))) := by
  refine ⟨?_, ?_⟩
  · intro h
    simp [isHangul, h]
  · intro h p q hp hq
    simp [isHangul, h, hp, hq]

/-- Witness of C27 in the Jamo table of the excerpt: no Jamo; a vowel after a
leading consonant; a leading consonant after a vowel. -/
theorem isHangul_table_witness :
    ((5 : JamoType) = excerpt.NO_JAMO ∧ isHangul excerpt 0 5 = some false) ∧
    ((1 : JamoType) ≠ excerpt.NO_JAMO ∧ excerpt.jamoProps 0 = some ⟨0, 0⟩ ∧
      excerpt.jamoProps 1 = some ⟨1, 1⟩ ∧
      isHangul excerpt 0 1 = some (decide ((0 : JamoType) = 1 ∨ (0 : JamoType) + 1 = 1))) ∧
    ((0 : JamoType) ≠ excerpt.NO_JAMO ∧ excerpt.jamoProps 1 = some ⟨1, 1⟩ ∧
      excerpt.jamoProps 0 = some ⟨0, 0⟩ ∧
      isHangul excerpt 1 0 = some (decide ((1 : JamoType) = 0 ∨ (1 : JamoType) + 1 = 0))) :=
  ⟨⟨rfl, (isHangul_table excerpt 0 5).1 rfl⟩,
    ⟨by decide, rfl, rfl, (isHangul_table excerpt 0 1).2 (by decide) ⟨0, 0⟩ ⟨1, 1⟩ rfl rfl⟩,
    ⟨by decide, rfl, rfl, (isHangul_table excerpt 1 0).2 (by decide) ⟨1, 1⟩ ⟨0, 0⟩ rfl rfl⟩⟩

/-- C29, as stated, fails: after a zero width space the carried class of a
combining mark becomes AL as well (rule LB9 excepts ZW too), and so it does for
a mark that is the first code point of the text. -/
theorem adjustBreakTypes_mark_after_zw :
    adjustBreakTypes 5 5 (some .AL) (some .ZW) (some .CM) false = (some .AL, some .AL, 5) ∧
    adjustBreakTypes 5 5 (some .XX) none (some .CM) true = (some .XX, some .AL, 5) := by
  decide

/-- C29, amended: when the current class is CM or ZWJ, `adjustBreakTypes`
leaves the carried previous class as it is, unless that class is BK, CR, LF,
NL, SP or ZW, or the code point is the first of the text, in which case the
carried class becomes AL; in all cases the carried previous-previous class is
left as it is, and the Jamo type of the mark is carried on. -/
theorem adjustBreakTypes_mark (prevJamo jamo : JamoType)
    (prevPrevBreakType prevBreakType breakType : Option BreakClass) (isStart : Bool)
    (h : breakType = some .CM ∨ breakType = some .ZWJ) :
    adjustBreakTypes prevJamo jamo prevPrevBreakType prevBreakType breakType isStart =
      (prevPrevBreakType,
        if isStart = true ∨ prevBreakType = some .BK ∨ prevBreakType = some .CR ∨
            prevBreakType = some .LF ∨ prevBreakType = some .NL ∨ prevBreakType = some .SP ∨
            prevBreakType = some .ZW then some .AL
        else prevBreakType,
        jamo) := by
  have hsp : breakType ≠ some .SP := by
    rcases h with h | h <;> rw [h] <;> decide
  unfold adjustBreakTypes
  rw [if_pos hsp, if_pos h]
  split <;> rfl

/-- Witness of the amended C29: a mark after a letter and a joiner after a
space. -/
theorem adjustBreakTypes_mark_witness :
    ((some BreakClass.CM = some BreakClass.CM ∨ some BreakClass.CM = some BreakClass.ZWJ) ∧
      adjustBreakTypes 5 5 (some .SP) (some .AL) (some .CM) false =
        (some .SP, some .AL, 5)) ∧
    ((some BreakClass.ZWJ = some BreakClass.CM ∨ some BreakClass.ZWJ = some BreakClass.ZWJ) ∧
      adjustBreakTypes 5 5 (some .NU) (some .SP) (some .ZWJ) false =
        (some .NU, some .AL, 5)) :=
  ⟨⟨Or.inl rfl, adjustBreakTypes_mark 5 5 (some .SP) (some .AL) (some .CM) false (Or.inl rfl)⟩,
    ⟨Or.inr rfl, adjustBreakTypes_mark 5 5 (some .NU) (some .SP) (some .ZWJ) false (Or.inr rfl)⟩⟩

/-! Regional indicators: the types `graphemeType` gives them. -/

theorem graphemeType_ri_only (r : Rune) (g : Option GeneralCategory) (p : graphemeBreakType)
    (b : Bool) (h : graphemeType r g p b = gbRiOdd ∨ graphemeType r g p b = gbRiEven) :
    g = some .So ∧ 0x1F1E6 ≤ r ∧ r ≤ 0x1F1FF := by
  rcases g with _ | g
  · exfalso
    revert h
    cases b <;> simp only [graphemeType] <;> split <;> simp
  · cases g <;> (try (exfalso; revert h; cases b <;> simp only [graphemeType] <;>
      (try split_ifs) <;> simp; done))
    refine ⟨rfl, ?_⟩
    by_cases hr : r ≥ 0x1F1E6 ∧ r ≤ 0x1F1FF
    · exact hr
    · exfalso
      revert h
      simp [graphemeType, hr]

theorem graphemeType_ri (r : Rune) (p : graphemeBreakType) (b : Bool)
    (h1 : 0x1F1E6 ≤ r) (h2 : r ≤ 0x1F1FF) :
    graphemeType r (some .So) p b = if p = gbRiOdd then gbRiEven else gbRiOdd := by
  have hr : r ≥ 0x1F1E6 ∧ r ≤ 0x1F1FF := ⟨h1, h2⟩
  simp only [graphemeType, if_pos hr]

theorem initState_fields (u : UCD) (text : List Rune) (s : State)
    (h : initState u text = some s) :
    s.prevWc = 0 ∧ s.prevPrevBreakType = some .XX ∧ s.prevGbType = gbOther ∧
      s.metExtendedPictographic = false ∧ s.prevLbType = lbOther := by
  simp only [initState, Option.bind_eq_bind, Option.bind_eq_some] at h
  obtain ⟨wc, -, h⟩ := h
  cases h
  exact ⟨rfl, rfl, rfl, rfl, rfl⟩

/-- The grapheme type of the code point of a turn inside the text. -/
theorem iterAt_gbType (u : UCD) (text : List Rune) (i : Nat) (wc : Rune) (it : Iteration)
    (hwc : text[i]? = some wc) (h : iterAt u text i = some it) :
    ∃ s b, stateAt u text i = some s ∧
      it.gbType = graphemeType wc (u.LookupType wc) s.prevGbType b ∧
      it.state.prevGbType = it.gbType := by
  obtain ⟨s, nx, b, hs, -, rfl⟩ := iterAt_inside u text i wc it hwc h
  exact ⟨s, b, hs, rfl, rfl⟩

/-- The type carried into the first regional indicator of a run is not
RegionalIndicatorOdd. -/
theorem stateAt_before_run (u : UCD) (text : List Rune) (a : Nat) (s : State)
    (hs : stateAt u text a = some s) (ha : a ≤ text.length)
    (hprev : ∀ r : Rune, 0 < a → text[a - 1]? = some r →
      ¬ (u.LookupType r = some .So ∧ 0x1F1E6 ≤ r ∧ r ≤ 0x1F1FF)) :
    s.prevGbType ≠ gbRiOdd := by
  cases a with
  | zero =>
    rw [(initState_fields u text s hs).2.2.1]
    decide
  | succ a =>
    rw [stateAt_succ_eq] at hs
    cases hit : iterAt u text a with
    | none => rw [hit] at hs; cases hs
    | some it =>
      rw [hit] at hs
      cases hs
      have hl : a < text.length := by omega
      have hwc : text[a]? = some text[a] := List.getElem?_eq_getElem hl
      obtain ⟨s0, b, -, hg, hp⟩ := iterAt_gbType u text a _ it hwc hit
      intro hodd
      rw [hp, hg] at hodd
      have := graphemeType_ri_only _ _ _ _ (Or.inl hodd)
      exact hprev text[a] (by omega) (by simp) this

/-- The types along a run of regional indicators that starts at index `a`. -/
theorem ri_run_types (u : UCD) (text : List Rune) (hu : u.JamoInRange) (a : Nat)
    (hprev : ∀ r : Rune, 0 < a → text[a - 1]? = some r →
      ¬ (u.LookupType r = some .So ∧ 0x1F1E6 ≤ r ∧ r ≤ 0x1F1FF)) :
    ∀ k, a + k < text.length →
      (∀ j, j ≤ k → ∃ r : Rune, text[a + j]? = some r ∧
        u.LookupType r = some .So ∧ 0x1F1E6 ≤ r ∧ r ≤ 0x1F1FF) →
      ∃ it, iterAt u text (a + k) = some it ∧
        it.gbType = if k % 2 = 0 then gbRiOdd else gbRiEven := by
  intro k
  induction k with
  | zero =>
    intro hk hrun
    obtain ⟨it, hit⟩ := iterAt_isSome u text hu a (by omega)
    obtain ⟨r, hr, hso, h1, h2⟩ := hrun 0 (Nat.le_refl 0)
    obtain ⟨s, b, hs, hg, -⟩ := iterAt_gbType u text a r it hr hit
    refine ⟨it, hit, ?_⟩
    rw [hg, hso, graphemeType_ri r _ b h1 h2,
      if_neg (stateAt_before_run u text a s hs (by omega) hprev)]
    rfl
  | succ k ih =>
    intro hk hrun
    obtain ⟨it0, hit0, hg0⟩ := ih (by omega) (fun j hj => hrun j (by omega))
    obtain ⟨r0, hr0, -⟩ := hrun k (by omega)
    obtain ⟨-, -, -, -, hp0⟩ := iterAt_gbType u text (a + k) r0 it0 hr0 hit0
    obtain ⟨it, hit⟩ := iterAt_isSome u text hu (a + (k + 1)) (by omega)
    obtain ⟨r, hr, hso, h1, h2⟩ := hrun (k + 1) (Nat.le_refl _)
    obtain ⟨s, b, hs, hg, -⟩ := iterAt_gbType u text (a + (k + 1)) r it hr hit
    have hs2 : stateAt u text (a + (k + 1)) = some it0.state :=
      stateAt_of_iterAt u text (a + k) it0 hit0
    rw [hs2] at hs
    cases hs
    refine ⟨it, hit, ?_⟩
    rw [hg, hso, graphemeType_ri r _ b h1 h2, hp0, hg0]
    rcases Nat.mod_two_eq_zero_or_one k with hk2 | hk2
    · have e : (k + 1) % 2 = 1 := by omega
      simp [hk2, e]
    · have e : (k + 1) % 2 = 0 := by omega
      simp [hk2, e]

/-- C24: `graphemeType` answers RegionalIndicatorOdd or RegionalIndicatorEven
only for a code point of general category So in U+1F1E6..U+1F1FF; for such a
code point it answers Even exactly when the previous type is Odd, and Odd
otherwise; and in the forward pass the types along a run of consecutive
regional indicators that starts at index `a` (the text starts there, or the
code point before is no regional indicator) alternate Odd, Even, Odd, ... -/
theorem graphemeType_regional_indicators (u : UCD) (text : List Rune) (hu : u.JamoInRange) :
    (∀ (r : Rune) (g : Option GeneralCategory) (p : graphemeBreakType) (b : Bool),
      (graphemeType r g p b = gbRiOdd ∨ graphemeType r g p b = gbRiEven) →
      g = some .So ∧ 0x1F1E6 ≤ r ∧ r ≤ 0x1F1FF) ∧
    (∀ (r : Rune) (p : graphemeBreakType) (b : Bool), 0x1F1E6 ≤ r → r ≤ 0x1F1FF →
      (graphemeType r (some .So) p b = gbRiEven ↔ p = gbRiOdd) ∧
      (graphemeType r (some .So) p b = gbRiOdd ↔ p ≠ gbRiOdd)) ∧
    (∀ a k, a + k < text.length →
      (∀ r : Rune, 0 < a → text[a - 1]? = some r →
        ¬ (u.LookupType r = some .So ∧ 0x1F1E6 ≤ r ∧ r ≤ 0x1F1FF)) →
      (∀ j, j ≤ k → ∃ r : Rune, text[a + j]? = some r ∧
        u.LookupType r = some .So ∧ 0x1F1E6 ≤ r ∧ r ≤ 0x1F1FF) →
      ∃ it, iterAt u text (a + k) = some it ∧
        it.gbType = if k % 2 = 0 then gbRiOdd else gbRiEven) := by
  refine ⟨graphemeType_ri_only, ?_, ?_⟩
  · intro r p b h1 h2
    rw [graphemeType_ri r p b h1 h2]
    by_cases hp : p = gbRiOdd
    · simp [hp]
    · simp [hp]
  · intro a k hk hprev hrun
    exact ri_run_types u text hu a hprev k hk hrun

/-- Witness of C24: the letter A followed by three regional indicators; the
third one is Odd again. -/
theorem graphemeType_regional_indicators_witness :
    ∃ it, iterAt excerpt [0x41, 0x1F1E6, 0x1F1E7, 0x1F1E8] (1 + 2) = some it ∧
      it.gbType = if 2 % 2 = 0 then gbRiOdd else gbRiEven :=
  (graphemeType_regional_indicators excerpt [0x41, 0x1F1E6, 0x1F1E7, 0x1F1E8]
    excerpt_jamoInRange).2.2 1 2 (by decide)
    (fun r _ h => by
      cases h
      decide)
    (fun j hj => by
      interval_cases j
      · exact ⟨0x1F1E6, rfl, by decide⟩
      · exact ⟨0x1F1E7, rfl, by decide⟩
      · exact ⟨0x1F1E8, rfl, by decide⟩)

/-! The run of rule GB11: what the flag `metExtendedPictographic` remembers. -/

theorem ruleGB11_continuation (u : UCD) (prevGbType gbType : graphemeBreakType) (prev : Rune)
    (h : ruleGB11 u prevGbType gbType prev false = true) :
    gbType = gbExtend ∨ gbType = gbZWJ := by
  unfold ruleGB11 at h
  by_cases h1 : gbType = gbExtend
  · exact Or.inl h1
  · by_cases h2 : gbType = gbZWJ
    · exact Or.inr h2
    · exfalso
      revert h
      simp [h1, h2]

/-- The flag passed to `isGraphemeBoundary` is set only if the carried flag was
set and rule GB11 goes on. -/
theorem turn_met_true (u : UCD) (st : Bool) (s : State) (wc nx : Rune) (b : Bool)
    (a : CharAttr) (h : (turn u st s wc nx b a).metExtendedPictographic = true) :
    s.metExtendedPictographic = true ∧
      ruleGB11 u s.prevGbType (turn u st s wc nx b a).gbType s.prevWc
        (u.Extended_Pictographic wc) = true := by
  rw [turn_met] at h
  by_cases hs : s.metExtendedPictographic = true
  · rw [if_pos hs] at h
    exact ⟨hs, h⟩
  · rw [if_neg hs] at h
    exact absurd h hs

/-- The rune of a turn inside the text is the code point at its index. -/
theorem iterAt_wc (u : UCD) (text : List Rune) (j : Nat) (it : Iteration)
    (h : iterAt u text j = some it) (hj : j < text.length) : text[j]? = some it.wc := by
  obtain ⟨s, wc, nx, b, -, hwc, rfl⟩ := iterAt_inv u text j it h
  rw [if_pos hj] at hwc
  rw [hwc]
  rfl

/-- Whenever the carried flag is set at the head of turn `i`, a pictograph
stands at some index `j < i` and only Extend and ZWJ stand after it. -/
theorem met_trace (u : UCD) (text : List Rune) :
    ∀ i s, stateAt u text i = some s → s.metExtendedPictographic = true →
      ∃ j itj, j < i ∧ iterAt u text j = some itj ∧ u.Extended_Pictographic itj.wc = true ∧
        ∀ k, j < k → k < i → ∃ itk, iterAt u text k = some itk ∧
          (itk.gbType = gbExtend ∨ itk.gbType = gbZWJ) := by
  intro i
  induction i with
  | zero =>
    intro s hs hm
    rw [(initState_fields u text s hs).2.2.2.1] at hm
    cases hm
  | succ i ih =>
    intro s hs hm
    rw [stateAt_succ_eq] at hs
    cases hit : iterAt u text i with
    | none => rw [hit] at hs; cases hs
    | some it =>
      rw [hit] at hs
      cases hs
      obtain ⟨s0, wc, nx, b, hs0, -, rfl⟩ := iterAt_inv u text i it hit
      rw [turn_state_met] at hm
      by_cases hx : u.Extended_Pictographic wc = true
      · exact ⟨i, _, Nat.lt_succ_self i, hit, hx, fun k h1 h2 => by omega⟩
      · rw [if_neg hx] at hm
        obtain ⟨hm0, hg⟩ := turn_met_true u _ s0 wc nx b default hm
        rw [Bool.eq_false_iff.mpr hx] at hg
        have hty := ruleGB11_continuation u _ _ _ hg
        obtain ⟨j, itj, hj, hitj, hxj, hbetween⟩ := ih s0 hs0 hm0
        refine ⟨j, itj, by omega, hitj, hxj, ?_⟩
        intro k h1 h2
        by_cases hk : k = i
        · subst hk
          exact ⟨_, hit, hty⟩
        · exact hbetween k h1 (by omega)

/-- C25: whenever the flag `metExtendedPictographic` is set when position `i`
is examined by `isGraphemeBoundary`, there is an index `j < i` such that
`text[j]` is Extended_Pictographic and every code point strictly between `j`
and `i` has grapheme type Extend or ZWJ. -/
theorem pangoDefaultBreak2_pictographic_run (u : UCD) (text : List Rune) (i : Nat)
    (hi : i ≤ text.length) (it : Iteration) (hit : iterAt u text i = some it)
    (hm : it.metExtendedPictographic = true) :
    ∃ j r, j < i ∧ text[j]? = some r ∧ u.Extended_Pictographic r = true ∧
      ∀ k, j < k → k < i → ∃ itk, iterAt u text k = some itk ∧
        (itk.gbType = gbExtend ∨ itk.gbType = gbZWJ) := by
  obtain ⟨s, wc, nx, b, hs, -, rfl⟩ := iterAt_inv u text i it hit
  obtain ⟨hm0, -⟩ := turn_met_true u _ s wc nx b default hm
  obtain ⟨j, itj, hj, hitj, hxj, hbetween⟩ := met_trace u text i s hs hm0
  exact ⟨j, itj.wc, hj, iterAt_wc u text j itj hitj (by omega), hxj, hbetween⟩

/-- Witness of C25 on a woman, an acute accent, a joiner and a computer, at
the position of the computer. -/
theorem pangoDefaultBreak2_pictographic_run_witness :
    3 ≤ [(0x1F469 : Rune), 0x0301, 0x200D, 0x1F4BB].length ∧
    ∃ it, iterAt excerpt2 [0x1F469, 0x0301, 0x200D, 0x1F4BB] 3 = some it ∧
      it.metExtendedPictographic = true ∧
      ∃ j r, j < 3 ∧ [(0x1F469 : Rune), 0x0301, 0x200D, 0x1F4BB][j]? = some r ∧
        excerpt2.Extended_Pictographic r = true ∧
        ∀ k, j < k → k < 3 →
          ∃ itk, iterAt excerpt2 [0x1F469, 0x0301, 0x200D, 0x1F4BB] k = some itk ∧
            (itk.gbType = gbExtend ∨ itk.gbType = gbZWJ) := by
  obtain ⟨it, hit⟩ := iterAt_isSome excerpt2 [0x1F469, 0x0301, 0x200D, 0x1F4BB]
    excerpt2_jamoInRange 3 (by decide)
  have hm : it.metExtendedPictographic = true := by
    have h : (iterAt excerpt2 [0x1F469, 0x0301, 0x200D, 0x1F4BB] 3).map
        (fun it => it.metExtendedPictographic) = some true := by
      decide
    rw [hit] at h
    exact Option.some.inj h
  exact ⟨by decide, it, hit, hm,
    pangoDefaultBreak2_pictographic_run excerpt2 [0x1F469, 0x0301, 0x200D, 0x1F4BB] 3
      (by decide) it hit hm⟩

/-! Runs of spaces: the class carried across them. -/

/-- What `adjustBreakTypes` carries on after a space. -/
theorem adjustBreakTypes_space (prevJamo jamo : JamoType)
    (prevPrevBreakType prevBreakType : Option BreakClass) (isStart : Bool) :
    adjustBreakTypes prevJamo jamo prevPrevBreakType prevBreakType (some .SP) isStart =
      (if prevBreakType ≠ some .SP then prevBreakType else prevPrevBreakType, some .SP,
        prevJamo) := by
  unfold adjustBreakTypes
  rw [if_neg (by simp)]
  split
  · rfl
  · rename_i h
    rw [not_not] at h
    rw [h]

/-- The carried previous class is SP only after a space. -/
theorem adjustBreakTypes_carries_space (prevJamo jamo : JamoType)
    (prevPrevBreakType prevBreakType breakType : Option BreakClass) (isStart : Bool)
    (h : (adjustBreakTypes prevJamo jamo prevPrevBreakType prevBreakType breakType
      isStart).2.1 = some .SP) : breakType = some .SP := by
  by_contra hb
  unfold adjustBreakTypes at h
  rw [if_pos hb] at h
  by_cases hm : breakType = some .CM ∨ breakType = some .ZWJ
  · rw [if_pos hm] at h
    split at h
    · cases h
    · rename_i hc
      exact hc (Or.inr (Or.inr (Or.inr (Or.inr (Or.inr (Or.inl h))))))
  · rw [if_neg hm] at h
    exact hb h

/-- While the carried previous class is SP, the carried previous-previous
class is not. -/
theorem space_inv (u : UCD) (text : List Rune) :
    ∀ i s, stateAt u text i = some s → s.prevBreakType = some .SP →
      s.prevPrevBreakType ≠ some .SP := by
  intro i
  induction i with
  | zero =>
    intro s hs hp
    rw [(initState_inv u text s hs).2] at hp
    cases hp
  | succ i ih =>
    intro s hs hp
    rw [stateAt_succ_eq] at hs
    cases hit : iterAt u text i with
    | none => rw [hit] at hs; cases hs
    | some it =>
      rw [hit] at hs
      cases hs
      obtain ⟨s0, wc, nx, b, hs0, -, rfl⟩ := iterAt_inv u text i it hit
      rw [turn_state_prevBreakType] at hp
      have hb := adjustBreakTypes_carries_space _ _ _ _ _ _ hp
      rw [turn_state_prevPrevBreakType, hb, adjustBreakTypes_space]
      by_cases h0 : s0.prevBreakType = some .SP
      · simp only [h0, ne_eq, not_true_eq_false, if_false]
        exact ih s0 hs0 h0
      · simp only [ne_eq, h0, not_false_eq_true, if_true]

/-- The row class of a turn is never SP. -/
theorem turn_row_not_space (u : UCD) (st : Bool) (s : State) (wc nx : Rune) (b : Bool)
    (a : CharAttr) (h : s.prevBreakType = some .SP → s.prevPrevBreakType ≠ some .SP) :
    (turn u st s wc nx b a).rowBreakType ≠ some .SP := by
  rw [turn_rowBreakType]
  by_cases h0 : s.prevBreakType = some .SP
  · simp only [h0, if_true]
    split
    · decide
    · exact h h0
  · simp only [h0, if_false]
    split
    · decide
    · exact h0

/-- After a run of spaces `text[j..j+d]` entered with a previous class other
than SP, that class is the carried previous-previous class. -/
theorem space_run (u : UCD) (text : List Rune) (j : Nat) (s0 : State)
    (hs0 : stateAt u text j = some s0) (hp0 : s0.prevBreakType ≠ some .SP) :
    ∀ d, (∀ k, j ≤ k → k ≤ j + d → ∃ itk, iterAt u text k = some itk ∧
        itk.breakType = some .SP) →
      ∃ s, stateAt u text (j + d + 1) = some s ∧ s.prevBreakType = some .SP ∧
        s.prevPrevBreakType = s0.prevBreakType := by
  intro d
  induction d with
  | zero =>
    intro hrun
    obtain ⟨it, hit, hb⟩ := hrun j (Nat.le_refl j) (Nat.le_refl j)
    refine ⟨it.state, stateAt_of_iterAt u text j it hit, ?_, ?_⟩
    · obtain ⟨s, wc, nx, b, hs, -, rfl⟩ := iterAt_inv u text j it hit
      rw [turn_state_prevBreakType, hb, adjustBreakTypes_space]
    · obtain ⟨s, wc, nx, b, hs, -, rfl⟩ := iterAt_inv u text j it hit
      rw [hs0] at hs
      cases hs
      rw [turn_state_prevPrevBreakType, hb, adjustBreakTypes_space]
      simp only [ne_eq, hp0, not_false_eq_true, if_true]
  | succ d ih =>
    intro hrun
    obtain ⟨s1, hs1, hp1, hpp1⟩ := ih (fun k h1 h2 => hrun k h1 (by omega))
    obtain ⟨it, hit, hb⟩ := hrun (j + d + 1) (by omega) (by omega)
    refine ⟨it.state, stateAt_of_iterAt u text (j + d + 1) it hit, ?_, ?_⟩
    · obtain ⟨s, wc, nx, b, hs, -, rfl⟩ := iterAt_inv u text (j + d + 1) it hit
      rw [turn_state_prevBreakType, hb, adjustBreakTypes_space]
    · obtain ⟨s, wc, nx, b, hs, -, rfl⟩ := iterAt_inv u text (j + d + 1) it hit
      rw [hs1] at hs
      cases hs
      rw [turn_state_prevPrevBreakType, hb, adjustBreakTypes_space]
      simp only [hp1, ne_eq, not_true_eq_false, if_false]
      exact hpp1

/-- C30: at every position of the forward pass the row class consulted by
rules LB8 and LB14 to LB17 is never SP, and the carried previous-previous class
is never SP while the carried previous class is SP; and at the position after
a run of spaces `text[j..j+d]` that is entered with a previous effective class
other than SP, the row class is that class, the effective class of the last
code point before the run (AL stands for XX). -/
theorem pangoDefaultBreak2_space_run (u : UCD) (text : List Rune) :
    (∀ i it, iterAt u text i = some it → it.rowBreakType ≠ some .SP) ∧
    (∀ i s, stateAt u text i = some s → s.prevBreakType = some .SP →
      s.prevPrevBreakType ≠ some .SP) ∧
    (∀ j d s0 it, stateAt u text j = some s0 → s0.prevBreakType ≠ some .SP →
      (∀ k, j ≤ k → k ≤ j + d → ∃ itk, iterAt u text k = some itk ∧
        itk.breakType = some .SP) →
      iterAt u text (j + d + 1) = some it →
      it.rowBreakType =
        if s0.prevBreakType = some .XX then some .AL else s0.prevBreakType) := by
  refine ⟨?_, space_inv u text, ?_⟩
  · intro i it hit
    obtain ⟨s, wc, nx, b, hs, -, rfl⟩ := iterAt_inv u text i it hit
    exact turn_row_not_space u _ s wc nx b default (space_inv u text i s hs)
  · intro j d s0 it hs0 hp0 hrun hit
    obtain ⟨s1, hs1, hp1, hpp1⟩ := space_run u text j s0 hs0 hp0 d hrun
    obtain ⟨s, wc, nx, b, hs, -, rfl⟩ := iterAt_inv u text (j + d + 1) it hit
    rw [hs1] at hs
    cases hs
    rw [turn_rowBreakType]
    simp only [hp1, if_true, hpp1]

/-- Witness of C30 on the text `A, space, space, B`: at the position of `B` the
row class is the class of `A`. -/
theorem pangoDefaultBreak2_space_run_witness :
    ∃ s0 it, stateAt excerpt [0x41, 0x20, 0x20, 0x42] 1 = some s0 ∧
      s0.prevBreakType ≠ some .SP ∧
      (∀ k, 1 ≤ k → k ≤ 1 + 1 → ∃ itk, iterAt excerpt [0x41, 0x20, 0x20, 0x42] k = some itk ∧
        itk.breakType = some .SP) ∧
      iterAt excerpt [0x41, 0x20, 0x20, 0x42] (1 + 1 + 1) = some it ∧
      it.rowBreakType = some .AL ∧
      it.rowBreakType =
        if s0.prevBreakType = some .XX then some .AL else s0.prevBreakType := by
  obtain ⟨s0, hs0⟩ := stateAt_isSome excerpt [0x41, 0x20, 0x20, 0x42] excerpt_jamoInRange 1
    (by decide)
  obtain ⟨it, hit⟩ := iterAt_isSome excerpt [0x41, 0x20, 0x20, 0x42] excerpt_jamoInRange
    (1 + 1 + 1) (by decide)
  have hp0 : s0.prevBreakType = some .AL := by
    have h : (stateAt excerpt [0x41, 0x20, 0x20, 0x42] 1).map (fun s => s.prevBreakType) =
        some (some .AL) := by decide
    rw [hs0] at h
    exact Option.some.inj h
  have hp1 : s0.prevBreakType ≠ some .SP := by
    rw [hp0]
    decide
  have hrow : it.rowBreakType = some .AL := by
    have h : (iterAt excerpt [0x41, 0x20, 0x20, 0x42] (1 + 1 + 1)).map
        (fun it => it.rowBreakType) = some (some .AL) := by decide
    rw [hit] at h
    exact Option.some.inj h
  have hrun : ∀ k, 1 ≤ k → k ≤ 1 + 1 →
      ∃ itk, iterAt excerpt [0x41, 0x20, 0x20, 0x42] k = some itk ∧
        itk.breakType = some .SP := by
    intro k h1 h2
    obtain ⟨itk, hitk⟩ := iterAt_isSome excerpt [0x41, 0x20, 0x20, 0x42] excerpt_jamoInRange
      k (by simp only [List.length_cons, List.length_nil]; omega)
    refine ⟨itk, hitk, ?_⟩
    have h : ∀ k, 1 ≤ k → k ≤ 1 + 1 →
        (iterAt excerpt [0x41, 0x20, 0x20, 0x42] k).map (fun it => it.breakType) =
          some (some .SP) := by decide
    have h3 := h k h1 h2
    rw [hitk] at h3
    exact Option.some.inj h3
  exact ⟨s0, it, hs0, hp1, hrun, hit, hrow,
    (pangoDefaultBreak2_space_run excerpt [0x41, 0x20, 0x20, 0x42]).2.2 1 1 s0 it hs0 hp1
      hrun hit⟩

/-! Two texts on which the grapheme rules of the pass leave UAX#29. -/

/-- C26 fails on the text WOMAN, ZWJ, COMBINING ACUTE ACCENT, ZWJ, PERSONAL
COMPUTER: the types of the five code points are Other, ZWJ, Extend, ZWJ, Other,
the flag of rule GB11 stays set from the first joiner on, and the position
before the computer is no boundary, although the code point before the accent
is a joiner and no pictograph; with the flag cleared, `isGraphemeBoundary`
answers at that position that there is a boundary. -/
theorem pangoDefaultBreak2_gb11_second_joiner :
    (List.range 5).map (fun i =>
        (iterAt excerpt2 [0x1F469, 0x200D, 0x0301, 0x200D, 0x1F4BB] i).map
          fun it => (it.gbType, it.metExtendedPictographic, it.isGB)) =
      [some (gbOther, false, true), some (gbZWJ, true, false), some (gbExtend, true, false),
        some (gbZWJ, true, false), some (gbOther, true, false)] ∧
    excerpt2.Extended_Pictographic 0x200D = false ∧
    isGraphemeBoundary 0x200D 0x1F4BB gbZWJ gbOther true false = true := by
  decide

/-- C28 fails on the text CHOSEONG KIYEOK, SPACE, JUNGSEONG A: at the position
of the vowel the Jamo type handed to `isHangul` is that of the leading
consonant, two code points back, not that of the space; `isHangul` answers
true, the vowel gets the type InHangulSyllable and the position between the
space and the vowel is no grapheme boundary. -/
theorem pangoDefaultBreak2_jamo_across_space :
    (stateAt excerpt3 [0x1100, 0x20, 0x1161] 2).map (fun s => s.prevJamo) =
      some (excerpt3.Jamo (some (excerpt3.LookupBreakClass 0x1100))) ∧
    excerpt3.Jamo (some (excerpt3.LookupBreakClass 0x1100)) ≠
      excerpt3.Jamo (some (excerpt3.LookupBreakClass 0x20)) ∧
    excerpt3.Jamo (some (excerpt3.LookupBreakClass 0x20)) = excerpt3.NO_JAMO ∧
    (iterAt excerpt3 [0x1100, 0x20, 0x1161] 2).map
        (fun it => (it.makesHangulSyllable, it.gbType, it.isGB)) =
      some (true, gbInHangulSyllable, false) := by
  decide

/-! The order of the cascade. -/

theorem ruleLB5To4_fst (op : breakOpportunity) (r : Rune) (p : Option BreakClass) :
    (ruleLB5To4 op r p).1 =
      if p = some .BK ∨ (p = some .CR ∧ r ≠ 10) ∨ p = some .LF ∨ p = some .NL then breakAllowed
      else op := by
  unfold ruleLB5To4
  split <;> rfl

theorem ruleLB24To22_flat (op : breakOpportunity) (p b : Option BreakClass) :
    ruleLB24To22 op p b =
      if b = some .IN ∧ p = some .NU then breakProhibited
      else if b = some .IN ∧ p = some .IN then breakProhibited
      else if b = some .IN ∧ (p = some .ID ∨ p = some .EB ∨ p = some .EM) then breakProhibited
      else if b = some .IN ∧ p = some .EX then breakProhibited
      else if b = some .IN ∧ (p = some .AL ∨ p = some .HL) then breakProhibited
      else if (p = some .ID ∨ p = some .EB ∨ p = some .EM) ∧ b = some .PO then breakProhibited
      else if p = some .PR ∧ (b = some .ID ∨ b = some .EB ∨ b = some .EM) then breakProhibited
      else if p = some .NU ∧ (b = some .AL ∨ b = some .HL) then breakProhibited
      else if (p = some .AL ∨ p = some .HL) ∧ b = some .NU then breakProhibited
      else if (p = some .AL ∨ p = some .HL) ∧ (b = some .PR ∨ b = some .PO) then
        breakProhibited
      else if (p = some .PR ∨ p = some .PO) ∧ (b = some .AL ∨ b = some .HL) then
        breakProhibited
      else op := by
  unfold ruleLB24To22
  by_cases h : b = some .IN
  · simp only [h, if_true, true_and]
  · simp only [h, if_false, false_and]

theorem ruleLB21To9_flat (op : breakOpportunity) (pp p b row : Option BreakClass) :
    ruleLB21To9 op pp p b row =
      if (b = some .CM ∨ b = some .ZWJ) ∧
          ¬ (p = some .BK ∨ p = some .CR ∨ p = some .LF ∨ p = some .NL ∨ p = some .SP ∨
            p = some .ZW) then breakProhibited
      else if p = some .WJ ∨ b = some .WJ then breakProhibited
      else if b = some .GL ∧ (p ≠ some .SP ∧ p ≠ some .BA ∧ p ≠ some .HY) then breakProhibited
      else if p = some .GL then breakProhibited
      else if p ≠ some .NU ∧ (b = some .CL ∨ b = some .CP ∨ b = some .IS ∨ b = some .SY) then
        breakProhibited
      else if b = some .EX then breakProhibited
      else if row = some .OP then breakProhibited
      else if row = some .QU ∧ b = some .OP then breakProhibited
      else if (row = some .CL ∨ row = some .CP) ∧ b = some .NS then breakProhibited
      else if row = some .B2 ∧ b = some .B2 then breakProhibited
      else if p = some .SP then breakAllowed
      else if p = some .QU ∨ b = some .QU then breakProhibited
      else if p = some .CB ∨ b = some .CB then breakAllowed
      else if p = some .SY ∧ b = some .HL then breakProhibited
      else if pp = some .HL ∧ (p = some .HY ∨ p = some .BA) then breakProhibited
      else if b = some .BA ∨ b = some .HY ∨ b = some .NS ∨ p = some .BB then breakProhibited
      else op := by
  unfold ruleLB21To9
  by_cases h : b = some .CM ∨ b = some .ZWJ
  · simp only [h, if_true, true_and]
  · simp only [h, if_false, false_and]

theorem cascade_firstMatching (u : UCD) (s : State) (wc : Rune)
    (breakType nextBreakType rowBreakType : Option BreakClass) (lbType : lineBreakType)
    (hex : ¬ (rowBreakType = some .ZW ∧ s.prevWc = 0x200D)) :
    (ruleLB5To4 (rulesLB30To6 u s breakType nextBreakType rowBreakType lbType) wc
      s.prevBreakType).1 =
      firstMatching (rulesByNumber u s wc breakType nextBreakType rowBreakType lbType) := by
  rw [ruleLB5To4_fst]
  simp only [rulesLB30To6, ruleLB7To6, ruleLB8, ruleLB21To9_flat, ruleLB24To22_flat, ruleLB25,
    ruleLB29To26, ruleLB30ab, ruleLB30, rulesByNumber, firstMatching, decide_eq_true_eq]
  by_cases h0 : s.prevBreakType = some .BK ∨ (s.prevBreakType = some .CR ∧ wc ≠ 10) ∨
      s.prevBreakType = some .LF ∨ s.prevBreakType = some .NL
  · simp only [eq_true h0, if_true, ite_self]
  simp only [eq_false h0, if_false]
  by_cases h1 : breakType = some .BK ∨ breakType = some .CR ∨ breakType = some .LF ∨ breakType =
      some .NL
  · simp only [eq_true h1, if_true, ite_self]
  simp only [eq_false h1, if_false]
  by_cases h2 : breakType = some .SP ∨ breakType = some .ZW
  · simp only [eq_true h2, if_true, ite_self]
  simp only [eq_false h2, if_false]
  by_cases hz : rowBreakType = some .ZW
  · have h8a : ¬ s.prevWc = 0x200D := fun h => hex ⟨hz, h⟩
    simp only [eq_true hz, eq_false h8a, if_true, if_false, ite_self]
  simp only [eq_false hz, if_false]
  by_cases h4 : s.prevWc = 0x200D
  · simp only [eq_true h4, if_true, ite_self]
  simp only [eq_false h4, if_false]
  by_cases h5 : (breakType = some .CM ∨ breakType = some .ZWJ) ∧ ¬ (s.prevBreakType = some .BK ∨
      s.prevBreakType = some .CR ∨ s.prevBreakType = some .LF ∨ s.prevBreakType = some .NL ∨
      s.prevBreakType = some .SP ∨ s.prevBreakType = some .ZW)
  · simp only [eq_true h5, if_true, ite_self]
  simp only [eq_false h5, if_false]
  by_cases h6 : s.prevBreakType = some .WJ ∨ breakType = some .WJ
  · simp only [eq_true h6, if_true, ite_self]
  simp only [eq_false h6, if_false]
  by_cases h7 : s.prevBreakType = some .GL
  · simp only [eq_true h7, if_true, ite_self]
  simp only [eq_false h7, if_false]
  by_cases h8 : breakType = some .GL ∧ (s.prevBreakType ≠ some .SP ∧ s.prevBreakType ≠ some .BA
      ∧ s.prevBreakType ≠ some .HY)
  · simp only [eq_true h8, if_true, ite_self]
  simp only [eq_false h8, if_false]
  by_cases h9 : breakType = some .EX
  · simp only [eq_true h9, if_true, ite_self]
  simp only [eq_false h9, if_false]
  by_cases h10 : s.prevBreakType ≠ some .NU ∧ (breakType = some .CL ∨ breakType = some .CP ∨
      breakType = some .IS ∨ breakType = some .SY)
  · simp only [eq_true h10, if_true, ite_self]
  simp only [eq_false h10, if_false]
  by_cases h11 : rowBreakType = some .OP
  · simp only [eq_true h11, if_true, ite_self]
  simp only [eq_false h11, if_false]
  by_cases h12 : rowBreakType = some .QU ∧ breakType = some .OP
  · simp only [eq_true h12, if_true, ite_self]
  simp only [eq_false h12, if_false]
  by_cases h13 : (rowBreakType = some .CL ∨ rowBreakType = some .CP) ∧ breakType = some .NS
  · simp only [eq_true h13, if_true, ite_self]
  simp only [eq_false h13, if_false]
  by_cases h14 : rowBreakType = some .B2 ∧ breakType = some .B2
  · simp only [eq_true h14, if_true, ite_self]
  simp only [eq_false h14, if_false]
  by_cases h15 : s.prevBreakType = some .SP
  · simp only [eq_true h15, if_true, ite_self]
  simp only [eq_false h15, if_false]
  by_cases h16 : s.prevBreakType = some .QU ∨ breakType = some .QU
  · simp only [eq_true h16, if_true, ite_self]
  simp only [eq_false h16, if_false]
  by_cases h17 : s.prevBreakType = some .CB ∨ breakType = some .CB
  · simp only [eq_true h17, if_true, ite_self]
  simp only [eq_false h17, if_false]
  by_cases h18 : breakType = some .BA ∨ breakType = some .HY ∨ breakType = some .NS ∨
      s.prevBreakType = some .BB
  · simp only [eq_true h18, if_true, ite_self]
  simp only [eq_false h18, if_false]
  by_cases h19 : s.prevPrevBreakType = some .HL ∧ (s.prevBreakType = some .HY ∨ s.prevBreakType
      = some .BA)
  · simp only [eq_true h19, if_true, ite_self]
  simp only [eq_false h19, if_false]
  by_cases h20 : s.prevBreakType = some .SY ∧ breakType = some .HL
  · simp only [eq_true h20, if_true, ite_self]
  simp only [eq_false h20, if_false]
  by_cases h21 : breakType = some .IN ∧ (s.prevBreakType = some .AL ∨ s.prevBreakType = some
      .HL)
  · simp only [eq_true h21, if_true, ite_self]
  simp only [eq_false h21, if_false]
  by_cases h22 : breakType = some .IN ∧ s.prevBreakType = some .EX
  · simp only [eq_true h22, if_true, ite_self]
  simp only [eq_false h22, if_false]
  by_cases h23 : breakType = some .IN ∧ (s.prevBreakType = some .ID ∨ s.prevBreakType = some .EB
      ∨ s.prevBreakType = some .EM)
  · simp only [eq_true h23, if_true, ite_self]
  simp only [eq_false h23, if_false]
  by_cases h24 : breakType = some .IN ∧ s.prevBreakType = some .IN
  · simp only [eq_true h24, if_true, ite_self]
  simp only [eq_false h24, if_false]
  by_cases h25 : breakType = some .IN ∧ s.prevBreakType = some .NU
  · simp only [eq_true h25, if_true, ite_self]
  simp only [eq_false h25, if_false]
  by_cases h26 : (s.prevBreakType = some .AL ∨ s.prevBreakType = some .HL) ∧ breakType = some
      .NU
  · simp only [eq_true h26, if_true, ite_self]
  simp only [eq_false h26, if_false]
  by_cases h27 : s.prevBreakType = some .NU ∧ (breakType = some .AL ∨ breakType = some .HL)
  · simp only [eq_true h27, if_true, ite_self]
  simp only [eq_false h27, if_false]
  by_cases h28 : s.prevBreakType = some .PR ∧ (breakType = some .ID ∨ breakType = some .EB ∨
      breakType = some .EM)
  · simp only [eq_true h28, if_true, ite_self]
  simp only [eq_false h28, if_false]
  by_cases h29 : (s.prevBreakType = some .ID ∨ s.prevBreakType = some .EB ∨ s.prevBreakType =
      some .EM) ∧ breakType = some .PO
  · simp only [eq_true h29, if_true, ite_self]
  simp only [eq_false h29, if_false]
  by_cases h30 : (s.prevBreakType = some .PR ∨ s.prevBreakType = some .PO) ∧ (breakType = some
      .AL ∨ breakType = some .HL)
  · simp only [eq_true h30, if_true, ite_self]
  simp only [eq_false h30, if_false]
  by_cases h31 : (s.prevBreakType = some .AL ∨ s.prevBreakType = some .HL) ∧ (breakType = some
      .PR ∨ breakType = some .PO)
  · simp only [eq_true h31, if_true, ite_self]
  simp only [eq_false h31, if_false]
  by_cases h32 : (s.prevBreakType = some .PR ∨ s.prevBreakType = some .PO) ∧ breakType = some
      .NU
  · simp only [eq_true h32, if_true, ite_self]
  simp only [eq_false h32, if_false]
  by_cases h33 : (s.prevBreakType = some .PR ∨ s.prevBreakType = some .PO) ∧ (breakType = some
      .OP ∨ breakType = some .HY) ∧ nextBreakType = some .NU
  · simp only [eq_true h33, if_true, ite_self]
  simp only [eq_false h33, if_false]
  by_cases h34 : (s.prevBreakType = some .OP ∨ s.prevBreakType = some .HY) ∧ breakType = some
      .NU
  · simp only [eq_true h34, if_true, ite_self]
  simp only [eq_false h34, if_false]
  by_cases h35 : s.prevBreakType = some .NU ∧ (breakType = some .NU ∨ breakType = some .SY ∨
      breakType = some .IS)
  · simp only [eq_true h35, if_true, ite_self]
  simp only [eq_false h35, if_false]
  by_cases h36 : s.prevLbType = lbNumeric ∧ (breakType = some .NU ∨ breakType = some .SY ∨
      breakType = some .IS ∨ breakType = some .CL ∨ breakType = some .CP)
  · simp only [eq_true h36, if_true, ite_self]
  simp only [eq_false h36, if_false]
  by_cases h37 : (s.prevLbType = lbNumeric ∨ s.prevLbType = lbNumericClose) ∧ (breakType = some
      .PO ∨ breakType = some .PR)
  · simp only [eq_true h37, if_true, ite_self]
  simp only [eq_false h37, if_false]
  by_cases h38 : s.prevBreakType = some .JL ∧ (breakType = some .JL ∨ breakType = some .JV ∨
      breakType = some .H2 ∨ breakType = some .H3)
  · simp only [eq_true h38, if_true, ite_self]
  simp only [eq_false h38, if_false]
  by_cases h39 : (s.prevBreakType = some .JV ∨ s.prevBreakType = some .H2) ∧ (breakType = some
      .JV ∨ breakType = some .JT)
  · simp only [eq_true h39, if_true, ite_self]
  simp only [eq_false h39, if_false]
  by_cases h40 : (s.prevBreakType = some .JT ∨ s.prevBreakType = some .H3) ∧ breakType = some
      .JT
  · simp only [eq_true h40, if_true, ite_self]
  simp only [eq_false h40, if_false]
  by_cases h41 : (s.prevBreakType = some .JL ∨ s.prevBreakType = some .JV ∨ s.prevBreakType =
      some .JT ∨ s.prevBreakType = some .H2 ∨ s.prevBreakType = some .H3) ∧ breakType = some .PO
  · simp only [eq_true h41, if_true, ite_self]
  simp only [eq_false h41, if_false]
  by_cases h42 : s.prevBreakType = some .PR ∧ (breakType = some .JL ∨ breakType = some .JV ∨
      breakType = some .JT ∨ breakType = some .H2 ∨ breakType = some .H3)
  · simp only [eq_true h42, if_true, ite_self]
  simp only [eq_false h42, if_false]
  by_cases h43 : (s.prevBreakType = some .AL ∨ s.prevBreakType = some .HL) ∧ (breakType = some
      .AL ∨ breakType = some .HL)
  · simp only [eq_true h43, if_true, ite_self]
  simp only [eq_false h43, if_false]
  by_cases h44 : s.prevBreakType = some .IS ∧ (breakType = some .AL ∨ breakType = some .HL)
  · simp only [eq_true h44, if_true, ite_self]
  simp only [eq_false h44, if_false]
  by_cases h45 : (s.prevBreakType = some .AL ∨ s.prevBreakType = some .HL ∨ s.prevBreakType =
      some .NU) ∧ breakType = some .OP
  · simp only [eq_true h45, if_true, ite_self]
  simp only [eq_false h45, if_false]
  by_cases h46 : s.prevBreakType = some .CP ∧ (breakType = some .AL ∨ breakType = some .HL ∨
      breakType = some .NU)
  · simp only [eq_true h46, if_true, ite_self]
  simp only [eq_false h46, if_false]
  by_cases h47 : s.prevLbType = lbRiOdd ∧ lbType = lbRiEven
  · simp only [eq_true h47, if_true, ite_self]
  simp only [eq_false h47, if_false]
  by_cases h48 : s.prevBreakType = some .EB ∧ breakType = some .EM
  · simp only [eq_true h48, if_true, ite_self]
  simp only [eq_false h48, if_false]

/-- Without the side condition the two orders differ: after U+200D with a row
class ZW the cascade prohibits the break (rule LB8a is applied after rule LB8),
where the order of the numbers allows it. -/
theorem cascade_lb8a_after_lb8 :
    (ruleLB5To4 (rulesLB30To6 excerpt ⟨0x200D, 5, some .ZW, some .AL, gbZWJ, false, lbOther,
      some .AL⟩ (some .AL) (some .AL) (some .ZW) lbOther) 0x41 (some .ZW)).1 = breakProhibited ∧
    firstMatching (rulesByNumber excerpt ⟨0x200D, 5, some .ZW, some .AL, gbZWJ, false, lbOther,
      some .AL⟩ 0x41 (some .AL) (some .AL) (some .ZW) lbOther) = breakAllowed := by
  decide

theorem rulesByNumber_decisions (u : UCD) (s : State) (wc : Rune)
    (breakType nextBreakType rowBreakType : Option BreakClass) (lbType : lineBreakType) :
    (rulesByNumber u s wc breakType nextBreakType rowBreakType lbType).all
      (fun x => decide (x.2 = breakAllowed ∨ x.2 = breakProhibited)) = true := rfl

theorem firstMatching_decisions (l : List (Bool × breakOpportunity))
    (h : l.all (fun x => decide (x.2 = breakAllowed ∨ x.2 = breakProhibited)) = true) :
    firstMatching l = breakAllowed ∨ firstMatching l = breakProhibited ∨
      firstMatching l = breakAlreadyHandled := by
  induction l with
  | nil => exact Or.inr (Or.inr rfl)
  | cons x rest ih =>
    obtain ⟨m, d⟩ := x
    simp only [List.all_cons, Bool.and_eq_true, decide_eq_true_eq] at h
    simp only [firstMatching]
    split
    · rcases h.1 with h1 | h1
      · exact Or.inl h1
      · exact Or.inr (Or.inl h1)
    · exact ih h.2

/-- What `adjustBreakTypes` carries on after a combining mark or a joiner. -/
theorem adjustBreakTypes_of_mark (prevJamo jamo : JamoType)
    (prevPrevBreakType prevBreakType breakType : Option BreakClass) (isStart : Bool)
    (h : breakType = some .CM ∨ breakType = some .ZWJ) :
    adjustBreakTypes prevJamo jamo prevPrevBreakType prevBreakType breakType isStart =
      (prevPrevBreakType,
        if isStart = true ∨ prevBreakType = some .BK ∨ prevBreakType = some .CR ∨
            prevBreakType = some .LF ∨ prevBreakType = some .NL ∨ prevBreakType = some .SP ∨
            prevBreakType = some .ZW then some .AL
        else prevBreakType,
        jamo) := by
  have hsp : breakType ≠ some .SP := by
    rcases h with h | h <;> rw [h] <;> decide
  unfold adjustBreakTypes
  rw [if_pos hsp, if_pos h]
  split <;> rfl

/-- After the rune U+200D, of class ZWJ, the carried previous class is neither
SP nor ZW. -/
theorem joiner_inv (u : UCD) (text : List Rune) (hz : u.LookupBreakClass 0x200D = .ZWJ)
    (i : Nat) (hi : i ≤ text.length + 1) (s : State) (hs : stateAt u text i = some s)
    (hw : s.prevWc = 0x200D) :
    s.prevBreakType ≠ some .SP ∧ s.prevBreakType ≠ some .ZW := by
  cases i with
  | zero =>
    rw [(initState_fields u text s hs).1] at hw
    cases hw
  | succ i =>
    rw [stateAt_succ_eq] at hs
    cases hit : iterAt u text i with
    | none => rw [hit] at hs; cases hs
    | some it =>
      rw [hit] at hs
      cases hs
      obtain ⟨s0, wc, nx, b, hs0, hwc, rfl⟩ := iterAt_inv u text i it hit
      have hn := stateAt_nextBreakType u text i s0 wc hs0 (by omega) hwc
      rw [turn_state_prevWc] at hw
      have hb : (turn u (decide (i = 0)) s0 wc nx b default).breakType = some .ZWJ := by
        rw [turn_breakType, hn, hw, hz]
        rfl
      rw [turn_state_prevBreakType, adjustBreakTypes_of_mark _ _ _ _ _ _ (Or.inr hb)]
      dsimp only
      split
      · exact ⟨by decide, by decide⟩
      · rename_i hc
        exact ⟨fun h => hc (Or.inr (Or.inr (Or.inr (Or.inr (Or.inr (Or.inl h)))))),
          fun h => hc (Or.inr (Or.inr (Or.inr (Or.inr (Or.inr (Or.inr h))))))⟩

/-- Rules LB8 and LB8a never match together in the pass. -/
theorem turn_lb8_exclusive (u : UCD) (st : Bool) (s : State) (wc nx : Rune) (b : Bool)
    (a : CharAttr)
    (h : s.prevWc = 0x200D → s.prevBreakType ≠ some .SP ∧ s.prevBreakType ≠ some .ZW) :
    ¬ ((turn u st s wc nx b a).rowBreakType = some .ZW ∧ s.prevWc = 0x200D) := by
  rintro ⟨hrow, hw⟩
  obtain ⟨h1, h2⟩ := h hw
  rw [turn_rowBreakType] at hrow
  simp only [if_neg h1] at hrow
  split at hrow
  · cases hrow
  · exact h2 hrow

/-- C21: at every position `i` at which the cascade is consulted, its decision
is the decision of the first matching rule in the order of the rule numbers
LB4, LB5, LB6, ..., LB30b, and no decision (the break stays allowed, rule
LB31) when no rule matches; the turn sets `lineBreak` exactly when that
decision is not a prohibition, and strictly inside the text the output carries
that flag. The property database is supposed to file U+200D under ZWJ. -/
theorem pangoDefaultBreak2_override_order (u : UCD) (text : List Rune)
    (attrs : List CharAttr) (hu : u.JamoInRange) (hlen : text.length + 1 ≤ attrs.length)
    (hz : u.LookupBreakClass 0x200D = .ZWJ)
    (i : Nat) (hi : i ≤ text.length) (it : Iteration) (hit : iterAt u text i = some it)
    (hE : it.earlyCheck = true) :
    ∃ s lbType, stateAt u text i = some s ∧
      it.cascade.map (fun c => (c.1, c.2.1)) = some (lbType,
        firstMatching (rulesByNumber u s it.wc it.breakType it.state.nextBreakType
          it.rowBreakType lbType)) ∧
      (firstMatching (rulesByNumber u s it.wc it.breakType it.state.nextBreakType
          it.rowBreakType lbType) = breakAllowed ∨
        firstMatching (rulesByNumber u s it.wc it.breakType it.state.nextBreakType
          it.rowBreakType lbType) = breakProhibited ∨
        firstMatching (rulesByNumber u s it.wc it.breakType it.state.nextBreakType
          it.rowBreakType lbType) = breakAlreadyHandled) ∧
      it.attr.lineBreak =
        decide (firstMatching (rulesByNumber u s it.wc it.breakType it.state.nextBreakType
          it.rowBreakType lbType) ≠ breakProhibited) ∧
      (0 < i → i < text.length → ∃ out a, pangoDefaultBreak2 u text attrs = some out ∧
        out[i]? = some a ∧ a.lineBreak = it.attr.lineBreak) := by
  obtain ⟨s, wc, nx, b, hs, -, rfl⟩ := iterAt_inv u text i it hit
  have hex := turn_lb8_exclusive u (decide (i = 0)) s wc nx b default
    (joiner_inv u text hz i (by omega) s hs)
  have hc := cascade_firstMatching u s wc (turn u (decide (i = 0)) s wc nx b default).breakType
    (some (u.LookupBreakClass nx)) (turn u (decide (i = 0)) s wc nx b default).rowBreakType
    (newlineBreakType (turn u (decide (i = 0)) s wc nx b default).breakType s.prevLbType) hex
  have hd := firstMatching_decisions _ (rulesByNumber_decisions u s wc
    (turn u (decide (i = 0)) s wc nx b default).breakType
    (some (u.LookupBreakClass nx)) (turn u (decide (i = 0)) s wc nx b default).rowBreakType
    (newlineBreakType (turn u (decide (i = 0)) s wc nx b default).breakType s.prevLbType))
  refine ⟨s, newlineBreakType (turn u (decide (i = 0)) s wc nx b default).breakType s.prevLbType,
    hs, ?_, ?_, ?_, ?_⟩
  · rw [turn_cascade_val u _ s wc nx b default hE, turn_wc, turn_state_nextBreakType, ← hc]
    rfl
  · rw [turn_wc, turn_state_nextBreakType]
    exact hd
  · rw [(turn_flags u _ s wc nx b default hE).2, turn_wc, turn_state_nextBreakType, hc]
    rcases hd with h | h | h <;> rw [h] <;> rfl
  · intro h0 h1
    obtain ⟨out, ho, hin⟩ := pango_inside u text attrs hu hlen
    obtain ⟨a, it2, hit2, ha, hl, -⟩ := hin i h0 h1
    rw [hit] at hit2
    cases hit2
    exact ⟨out, a, ho, ha, hl⟩

/-- Witness of C21 on the text `A, space, tabulation, A`, at the position of
the tabulation: rule LB21 (no break before BA) and rule LB18 (break after
spaces) both match, and the break is allowed. -/
theorem pangoDefaultBreak2_override_order_witness :
    excerpt2.JamoInRange ∧
    [(0x41 : Rune), 0x20, 0x09, 0x41].length + 1 ≤ (List.replicate 5 (default : CharAttr)).length ∧
    excerpt2.LookupBreakClass 0x200D = .ZWJ ∧
    2 ≤ [(0x41 : Rune), 0x20, 0x09, 0x41].length ∧
    ∃ it, iterAt excerpt2 [0x41, 0x20, 0x09, 0x41] 2 = some it ∧ it.earlyCheck = true ∧
      it.attr.lineBreak = true ∧
      ∃ s lbType, stateAt excerpt2 [0x41, 0x20, 0x09, 0x41] 2 = some s ∧
        it.cascade.map (fun c => (c.1, c.2.1)) = some (lbType,
          firstMatching (rulesByNumber excerpt2 s it.wc it.breakType it.state.nextBreakType
            it.rowBreakType lbType)) ∧
        (firstMatching (rulesByNumber excerpt2 s it.wc it.breakType it.state.nextBreakType
            it.rowBreakType lbType) = breakAllowed ∨
          firstMatching (rulesByNumber excerpt2 s it.wc it.breakType it.state.nextBreakType
            it.rowBreakType lbType) = breakProhibited ∨
          firstMatching (rulesByNumber excerpt2 s it.wc it.breakType it.state.nextBreakType
            it.rowBreakType lbType) = breakAlreadyHandled) ∧
        it.attr.lineBreak =
          decide (firstMatching (rulesByNumber excerpt2 s it.wc it.breakType
            it.state.nextBreakType it.rowBreakType lbType) ≠ breakProhibited) ∧
        (0 < 2 → 2 < [(0x41 : Rune), 0x20, 0x09, 0x41].length →
          ∃ out a, pangoDefaultBreak2 excerpt2 [0x41, 0x20, 0x09, 0x41]
              (List.replicate 5 default) = some out ∧
            out[2]? = some a ∧ a.lineBreak = it.attr.lineBreak) := by
  obtain ⟨it, hit⟩ := iterAt_isSome excerpt2 [0x41, 0x20, 0x09, 0x41] excerpt2_jamoInRange 2
    (by decide)
  have hE : it.earlyCheck = true ∧ it.attr.lineBreak = true := by
    have h : (iterAt excerpt2 [0x41, 0x20, 0x09, 0x41] 2).map
        (fun it => (it.earlyCheck, it.attr.lineBreak)) = some (true, true) := by decide
    rw [hit] at h
    have h2 := Option.some.inj h
    exact ⟨congrArg Prod.fst h2, congrArg Prod.snd h2⟩
  exact ⟨excerpt2_jamoInRange, by decide, by decide, by decide, it, hit, hE.1, hE.2,
    pangoDefaultBreak2_override_order excerpt2 [0x41, 0x20, 0x09, 0x41]
      (List.replicate 5 default) excerpt2_jamoInRange (by decide) (by decide) 2 (by decide) it
      hit hE.1⟩

/-! Single rules of the cascade, at the positions strictly inside the text. -/

/-- The turn behind the output at a position strictly inside the text. -/
theorem pango_turn_at (u : UCD) (text : List Rune) (attrs : List CharAttr) (hu : u.JamoInRange)
    (hlen : text.length + 1 ≤ attrs.length) (i : Nat) (h0 : 0 < i) (wc : Rune)
    (hwc : text[i]? = some wc) (s : State) (hs : stateAt u text i = some s) :
    ∃ out a nx b, pangoDefaultBreak2 u text attrs = some out ∧ out[i]? = some a ∧
      a.lineBreak = (turn u (decide (i = 0)) s wc nx b default).attr.lineBreak ∧
      (turn u (decide (i = 0)) s wc nx b default).breakType =
        ruleLB1 (some (u.LookupBreakClass wc)) (u.LookupType wc) := by
  have hi : i < text.length := (List.getElem?_eq_some.1 hwc).1
  obtain ⟨out, ho, hin⟩ := pango_inside u text attrs hu hlen
  obtain ⟨a, it, hit, ha, hl, -⟩ := hin i h0 hi
  obtain ⟨s2, nx, b, hs2, hn, rfl⟩ := iterAt_inside u text i wc it hwc hit
  rw [hs] at hs2
  cases hs2
  exact ⟨out, a, nx, b, ho, ha, hl, by rw [turn_breakType, hn]⟩

/-- A turn whose cascade prohibits the break leaves `lineBreak` cleared,
whether the cascade is consulted or not. -/
theorem turn_lineBreak_prohibited (u : UCD) (st : Bool) (s : State) (wc nx : Rune) (b : Bool)
    (a : CharAttr)
    (h : (ruleLB5To4
        (rulesLB30To6 u s (turn u st s wc nx b a).breakType (some (u.LookupBreakClass nx))
          (turn u st s wc nx b a).rowBreakType
          (newlineBreakType (turn u st s wc nx b a).breakType s.prevLbType))
        wc s.prevBreakType).1 = breakProhibited) :
    (turn u st s wc nx b a).attr.lineBreak = false := by
  cases hE : (turn u st s wc nx b a).earlyCheck with
  | false => exact (turn_gated u st s wc nx b a hE).1
  | true => rw [(turn_flags u st s wc nx b a hE).2, h]

/-- A turn whose cascade is consulted and allows the break sets `lineBreak`. -/
theorem turn_lineBreak_allowed (u : UCD) (st : Bool) (s : State) (wc nx : Rune) (b : Bool)
    (a : CharAttr) (hE : (turn u st s wc nx b a).earlyCheck = true)
    (h : (ruleLB5To4
        (rulesLB30To6 u s (turn u st s wc nx b a).breakType (some (u.LookupBreakClass nx))
          (turn u st s wc nx b a).rowBreakType
          (newlineBreakType (turn u st s wc nx b a).breakType s.prevLbType))
        wc s.prevBreakType).1 = breakAllowed) :
    (turn u st s wc nx b a).attr.lineBreak = true := by
  rw [(turn_flags u st s wc nx b a hE).2, h]

/-- The row class when the previous class is no space. -/
theorem turn_row_of_not_space (u : UCD) (st : Bool) (s : State) (wc nx : Rune) (b : Bool)
    (a : CharAttr) (h : s.prevBreakType ≠ some .SP) :
    (turn u st s wc nx b a).rowBreakType =
      if s.prevBreakType = some .XX then some .AL else s.prevBreakType := by
  rw [turn_rowBreakType]
  simp only [if_neg h]

/-- Rule LB28 and the rules applied after it. -/
theorem cascade_lb28 (u : UCD) (s : State) (wc : Rune)
    (breakType nextBreakType rowBreakType : Option BreakClass) (lbType : lineBreakType)
    (hp : s.prevBreakType = some .AL ∨ s.prevBreakType = some .HL)
    (hb : breakType = some .AL ∨ breakType = some .HL)
    (hrow : rowBreakType = s.prevBreakType) :
    (ruleLB5To4 (rulesLB30To6 u s breakType nextBreakType rowBreakType lbType) wc
      s.prevBreakType).1 = breakProhibited := by
  subst hrow
  simp only [rulesLB30To6]
  generalize ruleLB30ab _ _ _ _ _ _ _ = op
  rcases hp with hp | hp <;> rcases hb with hb | hb <;>
    simp [ruleLB5To4, ruleLB29To26, ruleLB25, ruleLB24To22, ruleLB21To9, ruleLB8, ruleLB7To6,
      hp, hb]

/-- C31: at a position `i` with `0 < i < len(text)` whose class is SP, ZW, BK,
CR, LF or NL, the output has `lineBreak = false`, unless rules LB4 and LB5
apply there (the previous effective class is BK, LF or NL, or is CR and
`text[i]` is not U+000A); the row class, ZW or not, plays no part. -/
theorem pangoDefaultBreak2_before_space (u : UCD) (text : List Rune)
    (attrs : List CharAttr) (hu : u.JamoInRange) (hlen : text.length + 1 ≤ attrs.length)
    (i : Nat) (h0 : 0 < i) (wc : Rune) (hwc : text[i]? = some wc)
    (s : State) (hs : stateAt u text i = some s)
    (hcls : ruleLB1 (some (u.LookupBreakClass wc)) (u.LookupType wc) = some .SP ∨
      ruleLB1 (some (u.LookupBreakClass wc)) (u.LookupType wc) = some .ZW ∨
      ruleLB1 (some (u.LookupBreakClass wc)) (u.LookupType wc) = some .BK ∨
      ruleLB1 (some (u.LookupBreakClass wc)) (u.LookupType wc) = some .CR ∨
      ruleLB1 (some (u.LookupBreakClass wc)) (u.LookupType wc) = some .LF ∨
      ruleLB1 (some (u.LookupBreakClass wc)) (u.LookupType wc) = some .NL)
    (hm : ¬ (s.prevBreakType = some .BK ∨ s.prevBreakType = some .LF ∨
      s.prevBreakType = some .NL ∨ (s.prevBreakType = some .CR ∧ wc ≠ 0x0A))) :
    ∃ out a, pangoDefaultBreak2 u text attrs = some out ∧ out[i]? = some a ∧
      a.lineBreak = false := by
  obtain ⟨out, a, nx, b, ho, ha, hl, hbt⟩ := pango_turn_at u text attrs hu hlen i h0 wc hwc s hs
  refine ⟨out, a, ho, ha, ?_⟩
  rw [hl]
  apply turn_before_space
  · rw [hbt]
    exact hcls
  · rw [Bool.eq_false_iff]
    intro h
    rw [turn_mandatory_iff] at h
    exact hm h.2

/-- Witness of C31 on the text `A, space, B`, at the position of the space. -/
theorem pangoDefaultBreak2_before_space_witness :
    ∃ s, stateAt excerpt [0x41, 0x20, 0x42] 1 = some s ∧
      ¬ (s.prevBreakType = some .BK ∨ s.prevBreakType = some .LF ∨
        s.prevBreakType = some .NL ∨ (s.prevBreakType = some .CR ∧ (0x20 : Rune) ≠ 0x0A)) ∧
      ∃ out a, pangoDefaultBreak2 excerpt [0x41, 0x20, 0x42] (List.replicate 4 default) =
          some out ∧ out[1]? = some a ∧ a.lineBreak = false := by
  obtain ⟨s, hs⟩ := stateAt_isSome excerpt [0x41, 0x20, 0x42] excerpt_jamoInRange 1 (by decide)
  have hp : s.prevBreakType = some .AL := by
    have h : (stateAt excerpt [0x41, 0x20, 0x42] 1).map (fun s => s.prevBreakType) =
        some (some .AL) := by decide
    rw [hs] at h
    exact Option.some.inj h
  have hm : ¬ (s.prevBreakType = some .BK ∨ s.prevBreakType = some .LF ∨
      s.prevBreakType = some .NL ∨ (s.prevBreakType = some .CR ∧ (0x20 : Rune) ≠ 0x0A)) := by
    rw [hp]
    decide
  exact ⟨s, hs, hm,
    pangoDefaultBreak2_before_space excerpt [0x41, 0x20, 0x42] (List.replicate 4 default)
      excerpt_jamoInRange (by decide) 1 (by decide) 0x20 rfl s hs (Or.inl (by decide)) hm⟩

/-- C32: at a position `i` with `0 < i < len(text)` whose previous effective
class is AL or HL and whose class after rule LB1 is AL or HL, the output has
`lineBreak = false`: rule LB28 prohibits the break and no rule applied after it
allows it again. -/
theorem pangoDefaultBreak2_lb28 (u : UCD) (text : List Rune)
    (attrs : List CharAttr) (hu : u.JamoInRange) (hlen : text.length + 1 ≤ attrs.length)
    (i : Nat) (h0 : 0 < i) (wc : Rune) (hwc : text[i]? = some wc)
    (s : State) (hs : stateAt u text i = some s)
    (hp : s.prevBreakType = some .AL ∨ s.prevBreakType = some .HL)
    (hcls : ruleLB1 (some (u.LookupBreakClass wc)) (u.LookupType wc) = some .AL ∨
      ruleLB1 (some (u.LookupBreakClass wc)) (u.LookupType wc) = some .HL) :
    ∃ out a, pangoDefaultBreak2 u text attrs = some out ∧ out[i]? = some a ∧
      a.lineBreak = false := by
  obtain ⟨out, a, nx, b, ho, ha, hl, hbt⟩ := pango_turn_at u text attrs hu hlen i h0 wc hwc s hs
  refine ⟨out, a, ho, ha, ?_⟩
  rw [hl]
  apply turn_lineBreak_prohibited
  apply cascade_lb28 u s wc _ _ _ _ hp
  · rw [hbt]
    exact hcls
  · rw [turn_row_of_not_space]
    · rcases hp with hp | hp <;> rw [hp] <;> rfl
    · rcases hp with hp | hp <;> rw [hp] <;> decide

/-- Witness of C32 on the text `A, B`, between the two letters. -/
theorem pangoDefaultBreak2_lb28_witness :
    ∃ s, stateAt excerpt [0x41, 0x42] 1 = some s ∧
      (s.prevBreakType = some .AL ∨ s.prevBreakType = some .HL) ∧
      ∃ out a, pangoDefaultBreak2 excerpt [0x41, 0x42] (List.replicate 3 default) =
          some out ∧ out[1]? = some a ∧ a.lineBreak = false := by
  obtain ⟨s, hs⟩ := stateAt_isSome excerpt [0x41, 0x42] excerpt_jamoInRange 1 (by decide)
  have hp : s.prevBreakType = some .AL := by
    have h : (stateAt excerpt [0x41, 0x42] 1).map (fun s => s.prevBreakType) =
        some (some .AL) := by decide
    rw [hs] at h
    exact Option.some.inj h
  exact ⟨s, hs, Or.inl hp,
    pangoDefaultBreak2_lb28 excerpt [0x41, 0x42] (List.replicate 3 default)
      excerpt_jamoInRange (by decide) 1 (by decide) 0x42 rfl s hs (Or.inl hp)
      (Or.inl (by decide))⟩

/-- Rule LB25, its clauses on the classes alone, and the rules applied after
it. -/
theorem cascade_lb25 (u : UCD) (s : State) (wc : Rune)
    (breakType nextBreakType rowBreakType : Option BreakClass) (lbType : lineBreakType)
    (h : (s.prevBreakType = some .NU ∧
        (breakType = some .NU ∨ breakType = some .SY ∨ breakType = some .IS)) ∨
      ((s.prevBreakType = some .PR ∨ s.prevBreakType = some .PO) ∧ breakType = some .NU) ∨
      ((s.prevBreakType = some .OP ∨ s.prevBreakType = some .HY) ∧ breakType = some .NU))
    (hrow : rowBreakType = s.prevBreakType) :
    (ruleLB5To4 (rulesLB30To6 u s breakType nextBreakType rowBreakType lbType) wc
      s.prevBreakType).1 = breakProhibited := by
  subst hrow
  simp only [rulesLB30To6]
  generalize ruleLB29To26 _ _ _ = op
  rcases h with ⟨hp, hb | hb | hb⟩ | ⟨hp | hp, hb⟩ | ⟨hp | hp, hb⟩ <;>
    simp [ruleLB5To4, ruleLB25, ruleLB24To22, ruleLB21To9, ruleLB8, ruleLB7To6, hp, hb]

/-- C33: at a position `i` with `0 < i < len(text)` the output has
`lineBreak = false` when the previous effective class is NU and the class is
NU, SY or IS, when the previous effective class is PR or PO and the class is
NU, and when the previous effective class is OP or HY and the class is NU. -/
theorem pangoDefaultBreak2_lb25 (u : UCD) (text : List Rune)
    (attrs : List CharAttr) (hu : u.JamoInRange) (hlen : text.length + 1 ≤ attrs.length)
    (i : Nat) (h0 : 0 < i) (wc : Rune) (hwc : text[i]? = some wc)
    (s : State) (hs : stateAt u text i = some s)
    (h : (s.prevBreakType = some .NU ∧
        (ruleLB1 (some (u.LookupBreakClass wc)) (u.LookupType wc) = some .NU ∨
          ruleLB1 (some (u.LookupBreakClass wc)) (u.LookupType wc) = some .SY ∨
          ruleLB1 (some (u.LookupBreakClass wc)) (u.LookupType wc) = some .IS)) ∨
      ((s.prevBreakType = some .PR ∨ s.prevBreakType = some .PO) ∧
        ruleLB1 (some (u.LookupBreakClass wc)) (u.LookupType wc) = some .NU) ∨
      ((s.prevBreakType = some .OP ∨ s.prevBreakType = some .HY) ∧
        ruleLB1 (some (u.LookupBreakClass wc)) (u.LookupType wc) = some .NU)) :
    ∃ out a, pangoDefaultBreak2 u text attrs = some out ∧ out[i]? = some a ∧
      a.lineBreak = false := by
  obtain ⟨out, a, nx, b, ho, ha, hl, hbt⟩ := pango_turn_at u text attrs hu hlen i h0 wc hwc s hs
  refine ⟨out, a, ho, ha, ?_⟩
  rw [hl]
  apply turn_lineBreak_prohibited
  apply cascade_lb25 u s wc
  · rw [hbt]
    exact h
  · have hp : s.prevBreakType ≠ some .SP ∧ s.prevBreakType ≠ some .XX := by
      rcases h with ⟨hp, -⟩ | ⟨hp | hp, -⟩ | ⟨hp | hp, -⟩ <;> rw [hp] <;> decide
    rw [turn_row_of_not_space u _ s wc nx b default hp.1, if_neg hp.2]

/-- Witness of C33 on the text `1, 2`, between the two digits. -/
theorem pangoDefaultBreak2_lb25_witness :
    ∃ s, stateAt excerpt [0x31, 0x32] 1 = some s ∧ s.prevBreakType = some .NU ∧
      ruleLB1 (some (excerpt.LookupBreakClass 0x32)) (excerpt.LookupType 0x32) = some .NU ∧
      ∃ out a, pangoDefaultBreak2 excerpt [0x31, 0x32] (List.replicate 3 default) =
          some out ∧ out[1]? = some a ∧ a.lineBreak = false := by
  obtain ⟨s, hs⟩ := stateAt_isSome excerpt [0x31, 0x32] excerpt_jamoInRange 1 (by decide)
  have hp : s.prevBreakType = some .NU := by
    have h : (stateAt excerpt [0x31, 0x32] 1).map (fun s => s.prevBreakType) =
        some (some .NU) := by decide
    rw [hs] at h
    exact Option.some.inj h
  exact ⟨s, hs, hp, by decide,
    pangoDefaultBreak2_lb25 excerpt [0x31, 0x32] (List.replicate 3 default)
      excerpt_jamoInRange (by decide) 1 (by decide) 0x32 rfl s hs
      (Or.inl ⟨hp, Or.inl (by decide)⟩)⟩

/-- C34 fails on the text ARABIC NUMBER SIGN, DIGIT ONE, RIGHT PARENTHESIS:
the position before the digit is no grapheme boundary (rule GB9b), so the
cascade is not consulted there and `prevLbType` is not set to Numeric, while
the previous effective class becomes NU; before the parenthesis, of class CP,
no clause of rule LB25 or LB13 then matches and the output has
`lineBreak = true`, and so it has before a percent sign, of class PO. After
the letter A in place of the number sign the same positions have
`lineBreak = false`. -/
theorem pangoDefaultBreak2_numeric_after_prepend :
    (pangoDefaultBreak2 excerpt4 [0x0600, 0x31, 0x29] (List.replicate 4 default)).map
        (fun out => out.map CharAttr.lineBreak) = some [false, false, true, true] ∧
    (pangoDefaultBreak2 excerpt4 [0x0600, 0x31, 0x25] (List.replicate 4 default)).map
        (fun out => out.map CharAttr.lineBreak) = some [false, false, true, true] ∧
    (pangoDefaultBreak2 excerpt4 [0x41, 0x31, 0x29] (List.replicate 4 default)).map
        (fun out => out.map CharAttr.lineBreak) = some [false, false, false, true] ∧
    (pangoDefaultBreak2 excerpt4 [0x41, 0x31, 0x25] (List.replicate 4 default)).map
        (fun out => out.map CharAttr.lineBreak) = some [false, false, false, true] ∧
    (iterAt excerpt4 [0x0600, 0x31, 0x29] 1).map
        (fun it => (it.isGB, it.earlyCheck, it.breakType, it.state.prevLbType)) =
      some (false, false, some .NU, lbOther) ∧
    (iterAt excerpt4 [0x0600, 0x31, 0x29] 2).map
        (fun it => (it.earlyCheck, it.breakType, it.cascade)) =
      some (true, some .CP, some (lbOther, breakAlreadyHandled, false)) := by
  refine ⟨?_, ?_, ?_, ?_, ?_, ?_⟩ <;> decide

/-- Rule LB13 before an exclamation mark, and the rules applied after it. -/
theorem cascade_lb13 (u : UCD) (s : State) (wc : Rune)
    (nextBreakType rowBreakType : Option BreakClass) (lbType : lineBreakType)
    (hrow : rowBreakType ≠ some .ZW)
    (hm : ¬ (s.prevBreakType = some .BK ∨ s.prevBreakType = some .LF ∨
      s.prevBreakType = some .NL ∨ (s.prevBreakType = some .CR ∧ wc ≠ 0x0A))) :
    (ruleLB5To4 (rulesLB30To6 u s (some .EX) nextBreakType rowBreakType lbType) wc
      s.prevBreakType).1 = breakProhibited := by
  have hm2 : ¬ (s.prevBreakType = some .BK ∨ (s.prevBreakType = some .CR ∧ wc ≠ 10) ∨
      s.prevBreakType = some .LF ∨ s.prevBreakType = some .NL) := by
    intro h
    apply hm
    rcases h with h | h | h | h
    · exact Or.inl h
    · exact Or.inr (Or.inr (Or.inr h))
    · exact Or.inr (Or.inl h)
    · exact Or.inr (Or.inr (Or.inl h))
  rw [ruleLB5To4_fst, if_neg hm2]
  simp only [rulesLB30To6]
  generalize ruleLB24To22 _ _ _ = op
  simp [ruleLB21To9_flat, ruleLB8, ruleLB7To6, hrow]

/-- C35: at a position `i` with `0 < i < len(text)` whose class is EX, the
output has `lineBreak = false`, whatever the previous effective class, a space
or not, unless the row class (the previous effective class, or the class before
the run of spaces) is ZW or rules LB4 and LB5 apply. -/
theorem pangoDefaultBreak2_lb13 (u : UCD) (text : List Rune)
    (attrs : List CharAttr) (hu : u.JamoInRange) (hlen : text.length + 1 ≤ attrs.length)
    (i : Nat) (h0 : 0 < i) (wc : Rune) (hwc : text[i]? = some wc)
    (s : State) (hs : stateAt u text i = some s) (it : Iteration)
    (hit : iterAt u text i = some it)
    (hcls : ruleLB1 (some (u.LookupBreakClass wc)) (u.LookupType wc) = some .EX)
    (hrow : it.rowBreakType ≠ some .ZW)
    (hm : ¬ (s.prevBreakType = some .BK ∨ s.prevBreakType = some .LF ∨
      s.prevBreakType = some .NL ∨ (s.prevBreakType = some .CR ∧ wc ≠ 0x0A))) :
    it.rowBreakType =
      (if (if s.prevBreakType = some .SP then s.prevPrevBreakType else s.prevBreakType)
          = some .XX then some .AL
        else if s.prevBreakType = some .SP then s.prevPrevBreakType else s.prevBreakType) ∧
    ∃ out a, pangoDefaultBreak2 u text attrs = some out ∧ out[i]? = some a ∧
      a.lineBreak = false := by
  have hi : i < text.length := (List.getElem?_eq_some.1 hwc).1
  obtain ⟨out, ho, hin⟩ := pango_inside u text attrs hu hlen
  obtain ⟨a, it2, hit2, ha, hl, -⟩ := hin i h0 hi
  rw [hit] at hit2
  cases hit2
  obtain ⟨s2, nx, b, hs2, hn, rfl⟩ := iterAt_inside u text i wc it hwc hit
  rw [hs] at hs2
  cases hs2
  refine ⟨turn_rowBreakType u _ s wc nx b default, out, a, ho, ha, ?_⟩
  rw [hl]
  apply turn_lineBreak_prohibited
  have hbt : (turn u (decide (i = 0)) s wc nx b default).breakType = some .EX := by
    rw [turn_breakType, hn]
    exact hcls
  rw [hbt]
  exact cascade_lb13 u s wc _ _ _ hrow hm

/-- Witness of C35 on the text `A, space, !`, before the exclamation mark. -/
theorem pangoDefaultBreak2_lb13_witness :
    ∃ s it, stateAt excerpt4 [0x41, 0x20, 0x21] 2 = some s ∧
      iterAt excerpt4 [0x41, 0x20, 0x21] 2 = some it ∧
      s.prevBreakType = some .SP ∧ it.rowBreakType = some .AL ∧
      ruleLB1 (some (excerpt4.LookupBreakClass 0x21)) (excerpt4.LookupType 0x21) = some .EX ∧
      ∃ out a, pangoDefaultBreak2 excerpt4 [0x41, 0x20, 0x21] (List.replicate 4 default) =
          some out ∧ out[2]? = some a ∧ a.lineBreak = false := by
  have hj : excerpt4.JamoInRange := by
    refine ⟨by decide, ?_⟩
    intro b
    rcases b with _ | b
    · decide
    · cases b <;> decide
  obtain ⟨s, hs⟩ := stateAt_isSome excerpt4 [0x41, 0x20, 0x21] hj 2 (by decide)
  obtain ⟨it, hit⟩ := iterAt_isSome excerpt4 [0x41, 0x20, 0x21] hj 2 (by decide)
  have hp : s.prevBreakType = some .SP := by
    have h : (stateAt excerpt4 [0x41, 0x20, 0x21] 2).map (fun s => s.prevBreakType) =
        some (some .SP) := by decide
    rw [hs] at h
    exact Option.some.inj h
  have hrow : it.rowBreakType = some .AL := by
    have h : (iterAt excerpt4 [0x41, 0x20, 0x21] 2).map (fun it => it.rowBreakType) =
        some (some .AL) := by decide
    rw [hit] at h
    exact Option.some.inj h
  exact ⟨s, it, hs, hit, hp, hrow, by decide,
    (pangoDefaultBreak2_lb13 excerpt4 [0x41, 0x20, 0x21] (List.replicate 4 default) hj
      (by decide) 2 (by decide) 0x21 rfl s hs it hit (by decide)
      (by rw [hrow]; decide) (by rw [hp]; decide)).2⟩

/-- The rune carried into a turn is the code point before it. -/
theorem stateAt_prevWc (u : UCD) (text : List Rune) (i : Nat) (hi : i < text.length)
    (s : State) (hs : stateAt u text (i + 1) = some s) : text[i]? = some s.prevWc := by
  rw [stateAt_succ_eq] at hs
  cases hit : iterAt u text i with
  | none => rw [hit] at hs; cases hs
  | some it =>
    rw [hit] at hs
    cases hs
    have h := iterAt_wc u text i it hit hi
    obtain ⟨s0, wc, nx, b, -, -, rfl⟩ := iterAt_inv u text i it hit
    exact h

/-- Rule LB18 after a space, when no rule of a smaller number prohibits the
break. -/
theorem cascade_lb18 (u : UCD) (s : State) (wc : Rune)
    (breakType nextBreakType rowBreakType : Option BreakClass) (lbType : lineBreakType)
    (hp : s.prevBreakType = some .SP) (hw : s.prevWc ≠ 0x200D)
    (hb : ∀ c ∈ [BreakClass.SP, .ZW, .BK, .CR, .LF, .NL, .WJ, .EX, .CL, .CP, .IS, .SY],
      breakType ≠ some c)
    (h14 : rowBreakType ≠ some .OP)
    (h15 : ¬ (rowBreakType = some .QU ∧ breakType = some .OP))
    (h16 : ¬ ((rowBreakType = some .CL ∨ rowBreakType = some .CP) ∧ breakType = some .NS))
    (h17 : ¬ (rowBreakType = some .B2 ∧ breakType = some .B2)) :
    (ruleLB5To4 (rulesLB30To6 u s breakType nextBreakType rowBreakType lbType) wc
      s.prevBreakType).1 = breakAllowed := by
  simp only [List.mem_cons, List.mem_singleton, List.not_mem_nil, or_false, forall_eq_or_imp,
    forall_eq] at hb
  obtain ⟨c1, c2, c3, c4, c5, c6, c7, c8, c9, c10, c11, c12⟩ := hb
  have hm : ¬ (s.prevBreakType = some .BK ∨ (s.prevBreakType = some .CR ∧ wc ≠ 10) ∨
      s.prevBreakType = some .LF ∨ s.prevBreakType = some .NL) := by
    rw [hp]
    simp
  rw [ruleLB5To4_fst, if_neg hm]
  simp only [rulesLB30To6]
  generalize ruleLB24To22 _ _ _ = op
  simp [ruleLB21To9_flat, ruleLB8, ruleLB7To6, hp, hw, c1, c2, c3, c4, c5, c6, c7, c8, c9, c10,
    c11, c12, h14, h15, h16, h17]

/-- C36: at a position `i` with `0 < i < len(text)` that is a grapheme
boundary, whose previous effective class is SP, whose class is none of SP, ZW,
BK, CR, LF, NL, WJ, EX, CL, CP, IS, SY, whose row class (the class before the
run of spaces) is not OP (nor QU before OP, CL or CP before NS, B2 before B2),
and whose previous code point is not U+200D, the output has
`lineBreak = true`. -/
theorem pangoDefaultBreak2_lb18 (u : UCD) (text : List Rune)
    (attrs : List CharAttr) (hu : u.JamoInRange) (hlen : text.length + 1 ≤ attrs.length)
    (i : Nat) (h0 : 0 < i) (wc : Rune) (hwc : text[i]? = some wc)
    (s : State) (hs : stateAt u text i = some s) (it : Iteration)
    (hit : iterAt u text i = some it)
    (hgb : it.isGB = true) (hp : s.prevBreakType = some .SP)
    (hb : ∀ c ∈ [BreakClass.SP, .ZW, .BK, .CR, .LF, .NL, .WJ, .EX, .CL, .CP, .IS, .SY],
      ruleLB1 (some (u.LookupBreakClass wc)) (u.LookupType wc) ≠ some c)
    (h14 : it.rowBreakType ≠ some .OP)
    (h15 : ¬ (it.rowBreakType = some .QU ∧
      ruleLB1 (some (u.LookupBreakClass wc)) (u.LookupType wc) = some .OP))
    (h16 : ¬ ((it.rowBreakType = some .CL ∨ it.rowBreakType = some .CP) ∧
      ruleLB1 (some (u.LookupBreakClass wc)) (u.LookupType wc) = some .NS))
    (h17 : ¬ (it.rowBreakType = some .B2 ∧
      ruleLB1 (some (u.LookupBreakClass wc)) (u.LookupType wc) = some .B2))
    (hw : ∀ p : Rune, text[i - 1]? = some p → p ≠ 0x200D) :
    it.rowBreakType =
      (if s.prevPrevBreakType = some .XX then some .AL else s.prevPrevBreakType) ∧
    ∃ out a, pangoDefaultBreak2 u text attrs = some out ∧ out[i]? = some a ∧
      a.lineBreak = true := by
  have hi : i < text.length := (List.getElem?_eq_some.1 hwc).1
  obtain ⟨out, ho, hin⟩ := pango_inside u text attrs hu hlen
  obtain ⟨a, it2, hit2, ha, hl, -⟩ := hin i h0 hi
  rw [hit] at hit2
  cases hit2
  obtain ⟨s2, nx, b, hs2, hn, rfl⟩ := iterAt_inside u text i wc it hwc hit
  rw [hs] at hs2
  cases hs2
  have hbt : (turn u (decide (i = 0)) s wc nx b default).breakType =
      ruleLB1 (some (u.LookupBreakClass wc)) (u.LookupType wc) := by
    rw [turn_breakType, hn]
  have hpw : s.prevWc ≠ 0x200D := by
    obtain ⟨k, rfl⟩ : ∃ k, i = k + 1 := ⟨i - 1, by omega⟩
    exact hw s.prevWc (stateAt_prevWc u text k (by omega) s hs)
  refine ⟨?_, out, a, ho, ha, ?_⟩
  · rw [turn_rowBreakType]
    simp only [hp, if_true]
  · rw [hl]
    apply turn_lineBreak_allowed u _ s wc nx b default
      (turn_earlyCheck_of_isGB u _ s wc nx b default hgb)
    apply cascade_lb18 u s wc _ _ _ _ hp hpw
    · rw [hbt]
      exact hb
    · exact h14
    · rw [hbt]
      exact h15
    · rw [hbt]
      exact h16
    · rw [hbt]
      exact h17

/-- Witness of C36 on the text `A, space, B`, before the second letter. -/
theorem pangoDefaultBreak2_lb18_witness :
    ∃ s it, stateAt excerpt [0x41, 0x20, 0x42] 2 = some s ∧
      iterAt excerpt [0x41, 0x20, 0x42] 2 = some it ∧
      it.isGB = true ∧ s.prevBreakType = some .SP ∧ it.rowBreakType = some .AL ∧
      it.rowBreakType =
        (if s.prevPrevBreakType = some .XX then some .AL else s.prevPrevBreakType) ∧
      ∃ out a, pangoDefaultBreak2 excerpt [0x41, 0x20, 0x42] (List.replicate 4 default) =
          some out ∧ out[2]? = some a ∧ a.lineBreak = true := by
  obtain ⟨s, hs⟩ := stateAt_isSome excerpt [0x41, 0x20, 0x42] excerpt_jamoInRange 2 (by decide)
  obtain ⟨it, hit⟩ := iterAt_isSome excerpt [0x41, 0x20, 0x42] excerpt_jamoInRange 2 (by decide)
  have hp : s.prevBreakType = some .SP := by
    have h : (stateAt excerpt [0x41, 0x20, 0x42] 2).map (fun s => s.prevBreakType) =
        some (some .SP) := by decide
    rw [hs] at h
    exact Option.some.inj h
  have hr : it.isGB = true ∧ it.rowBreakType = some .AL := by
    have h : (iterAt excerpt [0x41, 0x20, 0x42] 2).map (fun it => (it.isGB, it.rowBreakType)) =
        some (true, some .AL) := by decide
    rw [hit] at h
    have h2 := Option.some.inj h
    exact ⟨congrArg Prod.fst h2, congrArg Prod.snd h2⟩
  exact ⟨s, it, hs, hit, hr.1, hp, hr.2,
    pangoDefaultBreak2_lb18 excerpt [0x41, 0x20, 0x42] (List.replicate 4 default)
      excerpt_jamoInRange (by decide) 2 (by decide) 0x42 rfl s hs it hit hr.1 hp (by decide)
      (by rw [hr.2]; decide) (by rw [hr.2]; decide) (by rw [hr.2]; decide)
      (by rw [hr.2]; decide)
      (fun p h => by
        cases h
        decide)⟩

/-! The carried previous class. -/

theorem ruleLB1_some (c : BreakClass) (g : Option GeneralCategory) :
    ∃ d, ruleLB1 (some c) g = some d ∧ d ∉ [BreakClass.AI, .SG, .XX, .SA, .CJ] := by
  by_cases hg : g = some .Mn ∨ g = some .Mc
  · cases c <;> simp [ruleLB1, hg]
  · cases c <;> simp [ruleLB1, hg]

/-- What `adjustBreakTypes` carries on after a code point that is neither a
space nor a mark. -/
theorem adjustBreakTypes_plain (prevJamo jamo : JamoType)
    (prevPrevBreakType prevBreakType breakType : Option BreakClass) (isStart : Bool)
    (h1 : breakType ≠ some .SP) (h2 : ¬ (breakType = some .CM ∨ breakType = some .ZWJ)) :
    adjustBreakTypes prevJamo jamo prevPrevBreakType prevBreakType breakType isStart =
      (prevBreakType, breakType, jamo) := by
  unfold adjustBreakTypes
  rw [if_pos h1, if_neg h2]

/-- A turn is made only at the positions up to the end of the text. -/
theorem iterAt_le (u : UCD) (text : List Rune) (i : Nat) (it : Iteration)
    (h : iterAt u text i = some it) : i ≤ text.length := by
  obtain ⟨s, wc, nx, b, -, -, hnx, -, -⟩ := iterAt_inv_full u text i it h
  by_contra hc
  have h1 : ¬ i = text.length := by omega
  have h2 : ¬ (i : Int) = (text.length : Int) - 1 := by omega
  rw [if_neg h1, if_neg h2] at hnx
  have := (List.getElem?_eq_some.1 hnx).1
  omega

/-- One step of the carried previous class, for any property that holds of AL,
of SP and of the classes rule LB1 gives to the code points that are no marks. -/
theorem turn_prev_step (u : UCD) (st : Bool) (s : State) (wc nx : Rune) (b : Bool)
    (a : CharAttr) (Q : Option BreakClass → Prop)
    (hn : s.nextBreakType = some (u.LookupBreakClass wc))
    (hAL : Q (some .AL)) (hSP : Q (some .SP))
    (hnew : ∀ d, ruleLB1 (some (u.LookupBreakClass wc)) (u.LookupType wc) = some d →
      d ≠ .CM → d ≠ .ZWJ → Q (some d))
    (hold : st = false → Q s.prevBreakType) :
    Q (turn u st s wc nx b a).state.prevBreakType := by
  obtain ⟨d, hd, -⟩ := ruleLB1_some (u.LookupBreakClass wc) (u.LookupType wc)
  have hbt : (turn u st s wc nx b a).breakType = some d := by
    rw [turn_breakType, hn, hd]
  rw [turn_state_prevBreakType, hbt]
  by_cases hsp : d = .SP
  · subst hsp
    rw [adjustBreakTypes_space]
    exact hSP
  · have hsp2 : some d ≠ some BreakClass.SP := fun h => hsp (Option.some.inj h)
    by_cases hmk : some d = some BreakClass.CM ∨ some d = some BreakClass.ZWJ
    · rw [adjustBreakTypes_of_mark _ _ _ _ _ _ hmk]
      dsimp only
      split
      · exact hAL
      · rename_i hc
        apply hold
        cases st
        · rfl
        · exact absurd (Or.inl rfl) hc
    · rw [adjustBreakTypes_plain _ _ _ _ _ _ hsp2 hmk]
      exact hnew d hd (fun h => hmk (Or.inl (by rw [h]))) (fun h => hmk (Or.inr (by rw [h])))

/-- C37: before the first code point the carried previous class is unset;
after every step of the forward pass it is set, it is none of CM, ZWJ, AI, SG,
XX, SA, CJ, and it is AL, SP, or the class that rule LB1 gives to a code point
met so far that is no mark (the paragraph separator for the last step). -/
theorem pangoDefaultBreak2_effective_class (u : UCD) (text : List Rune) :
    (∀ s, stateAt u text 0 = some s → s.prevBreakType = none) ∧
    ∀ i s, stateAt u text (i + 1) = some s →
      (∃ c, s.prevBreakType = some c ∧
        c ∉ [BreakClass.CM, .ZWJ, .AI, .SG, .XX, .SA, .CJ]) ∧
      (s.prevBreakType = some .AL ∨ s.prevBreakType = some .SP ∨
        ∃ j r, j ≤ i ∧
          (if j < text.length then text[j]? else some u.paragraphSeparator) = some r ∧
          ruleLB1 (some (u.LookupBreakClass r)) (u.LookupType r) = s.prevBreakType ∧
          s.prevBreakType ≠ some .CM ∧ s.prevBreakType ≠ some .ZWJ) := by
  refine ⟨fun s hs => (initState_inv u text s hs).2, ?_⟩
  intro i
  induction i with
  | zero =>
    intro s hs
    rw [stateAt_succ_eq] at hs
    cases hit : iterAt u text 0 with
    | none => rw [hit] at hs; cases hs
    | some it =>
      rw [hit] at hs
      cases hs
      have hle := iterAt_le u text 0 it hit
      obtain ⟨s0, wc, nx, b, hs0, hwc, rfl⟩ := iterAt_inv u text 0 it hit
      have hn := stateAt_nextBreakType u text 0 s0 wc hs0 hle hwc
      refine turn_prev_step u _ s0 wc nx b default
        (fun p => (∃ c, p = some c ∧
          c ∉ [BreakClass.CM, .ZWJ, .AI, .SG, .XX, .SA, .CJ]) ∧
        (p = some .AL ∨ p = some .SP ∨
          ∃ j r, j ≤ 0 ∧
            (if j < text.length then text[j]? else some u.paragraphSeparator) = some r ∧
            ruleLB1 (some (u.LookupBreakClass r)) (u.LookupType r) = p ∧
            p ≠ some .CM ∧ p ≠ some .ZWJ)) hn ?_ ?_ ?_ ?_
      · exact ⟨⟨.AL, rfl, by decide⟩, Or.inl rfl⟩
      · exact ⟨⟨.SP, rfl, by decide⟩, Or.inr (Or.inl rfl)⟩
      · intro d hd h1 h2
        obtain ⟨d2, hd2, hbad⟩ := ruleLB1_some (u.LookupBreakClass wc) (u.LookupType wc)
        rw [hd] at hd2
        cases hd2
        refine ⟨⟨d, rfl, ?_⟩, Or.inr (Or.inr ⟨0, wc, Nat.le_refl 0, hwc, hd, ?_, ?_⟩)⟩
        · simp only [List.mem_cons, List.mem_singleton, List.not_mem_nil, or_false, not_or]
            at hbad ⊢
          exact ⟨h1, h2, hbad⟩
        · exact fun h => h1 (Option.some.inj h)
        · exact fun h => h2 (Option.some.inj h)
      · intro h
        cases h
  | succ k ih =>
    intro s hs
    rw [stateAt_succ_eq] at hs
    cases hit : iterAt u text (k + 1) with
    | none => rw [hit] at hs; cases hs
    | some it =>
      rw [hit] at hs
      cases hs
      have hle := iterAt_le u text (k + 1) it hit
      obtain ⟨s0, wc, nx, b, hs0, hwc, rfl⟩ := iterAt_inv u text (k + 1) it hit
      have hn := stateAt_nextBreakType u text (k + 1) s0 wc hs0 hle hwc
      refine turn_prev_step u _ s0 wc nx b default
        (fun p => (∃ c, p = some c ∧
          c ∉ [BreakClass.CM, .ZWJ, .AI, .SG, .XX, .SA, .CJ]) ∧
        (p = some .AL ∨ p = some .SP ∨
          ∃ j r, j ≤ k + 1 ∧
            (if j < text.length then text[j]? else some u.paragraphSeparator) = some r ∧
            ruleLB1 (some (u.LookupBreakClass r)) (u.LookupType r) = p ∧
            p ≠ some .CM ∧ p ≠ some .ZWJ)) hn ?_ ?_ ?_ ?_
      · exact ⟨⟨.AL, rfl, by decide⟩, Or.inl rfl⟩
      · exact ⟨⟨.SP, rfl, by decide⟩, Or.inr (Or.inl rfl)⟩
      · intro d hd h1 h2
        obtain ⟨d2, hd2, hbad⟩ := ruleLB1_some (u.LookupBreakClass wc) (u.LookupType wc)
        rw [hd] at hd2
        cases hd2
        refine ⟨⟨d, rfl, ?_⟩, Or.inr (Or.inr ⟨k + 1, wc, Nat.le_refl _, hwc, hd, ?_, ?_⟩)⟩
        · simp only [List.mem_cons, List.mem_singleton, List.not_mem_nil, or_false, not_or]
            at hbad ⊢
          exact ⟨h1, h2, hbad⟩
        · exact fun h => h1 (Option.some.inj h)
        · exact fun h => h2 (Option.some.inj h)
      · intro _
        obtain ⟨hc, hprov⟩ := ih s0 hs0
        refine ⟨hc, ?_⟩
        rcases hprov with h | h | ⟨j, r, hj, hr, hcls, hm⟩
        · exact Or.inl h
        · exact Or.inr (Or.inl h)
        · exact Or.inr (Or.inr ⟨j, r, by omega, hr, hcls, hm⟩)

/-- Witness of C37 on the text `A`, combining acute accent, space: after the
step of the accent the carried class is still that of the letter. -/
theorem pangoDefaultBreak2_effective_class_witness :
    ∃ s, stateAt excerpt [0x41, 0x0301, 0x20] (1 + 1) = some s ∧
      s.prevBreakType = some .AL ∧
      (∃ c, s.prevBreakType = some c ∧
        c ∉ [BreakClass.CM, .ZWJ, .AI, .SG, .XX, .SA, .CJ]) ∧
      (s.prevBreakType = some .AL ∨ s.prevBreakType = some .SP ∨
        ∃ j r, j ≤ 1 ∧
          (if j < [(0x41 : Rune), 0x0301, 0x20].length then [(0x41 : Rune), 0x0301, 0x20][j]?
            else some excerpt.paragraphSeparator) = some r ∧
          ruleLB1 (some (excerpt.LookupBreakClass r)) (excerpt.LookupType r) =
            s.prevBreakType ∧
          s.prevBreakType ≠ some .CM ∧ s.prevBreakType ≠ some .ZWJ) := by
  obtain ⟨s, hs⟩ := stateAt_isSome excerpt [0x41, 0x0301, 0x20] excerpt_jamoInRange (1 + 1)
    (by decide)
  have hp : s.prevBreakType = some .AL := by
    have h : (stateAt excerpt [0x41, 0x0301, 0x20] (1 + 1)).map (fun s => s.prevBreakType) =
        some (some .AL) := by decide
    rw [hs] at h
    exact Option.some.inj h
  exact ⟨s, hs, hp,
    (pangoDefaultBreak2_effective_class excerpt [0x41, 0x0301, 0x20]).2 1 s hs⟩

end Pango
